import Mathlib

/-!
# ARmock: a shallow embedding of the cat-catching mini-game

Two programs are embedded, each as explicit state passing over a record of
the mutable program state:

* `ARmock.Main`    : `src/main.js`, the screen-space game;
* `ARmock.WebXRAR` : `src/webxr-ar.js`, the class `WebXRAR`.

Conventions shared by both embeddings.

* The browser's table of repeating timers is a `Scheduler`: `setInterval`
  hands out a fresh positive handle and records the callback registered under
  it, `clearInterval` removes the entry of a handle.  An interval callback
  runs only through `fireInterval`, which looks the handle up first.
* `Math.random()` is an oracle `rand : Nat → ℚ` together with a counter
  `randCalls` in the state: the k-th call of `Math.random()` returns `rand k`.
* Numbers are exact: coordinates are rationals, counters are integers.  The
  vector of a spawned cat, which takes a sine and a cosine, is read over the
  reals from the polar values the code draws.
* A function that can throw returns a `Result`: `ok` with the state on normal
  return, `error` with the state reached when the exception leaves it.  In
  `main.js` that is `startGame`, out of whose call of `init3DCat` the
  constructor of the renderer can throw; in `WebXRAR` it is every method that
  reads a field the constructor sets to null.
* `endGameCalls` is a ghost counter, incremented on entry to `endGame`; it is
  written by no other function and read by none.
-/

namespace ARmock

/-! ## Scheduler -/

/-- Table of the timers of one page, generic in the type of callbacks. -/
structure Scheduler (κ : Type) where
  /-- The handle most recently handed out (timers and frame requests). -/
  lastHandle : Nat
  /-- Active `setInterval` registrations, keyed by handle. -/
  intervals : List (Nat × κ)
  /-- Pending `setTimeout` registrations. -/
  timeouts : List Nat
  /-- Pending `requestAnimationFrame` registrations. -/
  frames : List Nat

namespace Scheduler

variable {κ : Type}

/-- The call `setInterval(cb, _)`: returns the new handle, which is positive. -/
def setInterval (cb : κ) (sc : Scheduler κ) : Nat × Scheduler κ :=
  (sc.lastHandle + 1,
   { sc with
     lastHandle := sc.lastHandle + 1
     intervals := (sc.lastHandle + 1, cb) ::
       sc.intervals.filter (fun e => e.1 != sc.lastHandle + 1) })

/-- The call `clearInterval(h)`; `null` and `undefined` are ignored. -/
def clearInterval (h : Option Nat) (sc : Scheduler κ) : Scheduler κ :=
  match h with
  | none => sc
  | some n => { sc with intervals := sc.intervals.filter (fun e => e.1 != n) }

/-- The callback registered under handle `h`, if `h` is active. -/
def lookup (h : Nat) (sc : Scheduler κ) : Option κ :=
  (sc.intervals.find? (fun e => e.1 == h)).map Prod.snd

/-- The call `setTimeout(cb, _)`. -/
def setTimeout (sc : Scheduler κ) : Nat × Scheduler κ :=
  (sc.lastHandle + 1,
   { sc with lastHandle := sc.lastHandle + 1
             timeouts := (sc.lastHandle + 1) :: sc.timeouts })

/-- The call `requestAnimationFrame(cb)`. -/
def requestAnimationFrame (sc : Scheduler κ) : Nat × Scheduler κ :=
  (sc.lastHandle + 1,
   { sc with lastHandle := sc.lastHandle + 1
             frames := (sc.lastHandle + 1) :: sc.frames })

/-- The call `cancelAnimationFrame(h)`. -/
def cancelAnimationFrame (h : Option Nat) (sc : Scheduler κ) : Scheduler κ :=
  match h with
  | none => sc
  | some n => { sc with frames := sc.frames.filter (fun e => e != n) }

end Scheduler

/-- JavaScript truthiness of a variable holding a handle or `undefined`. -/
def truthy (h : Option Nat) : Bool :=
  match h with
  | none => false
  | some n => n != 0

/-! ## `src/main.js` -/

namespace Main

/-- Callbacks that `main.js` registers with `setInterval`. -/
inductive Callback where
  /-- The arrow function of `startGame` (1000 ms). -/
  | countdown
  /-- The function `updateCatPosition` (16 ms). -/
  | movement
deriving DecidableEq, Repr

/-- The object `gameState`. -/
structure GameState where
  score : Nat
  timeLeft : Int
  isPlaying : Bool
  timerInterval : Option Nat
  spawnInterval : Option Nat
deriving DecidableEq, Repr

/-- The object `catMovement`. -/
structure CatMovement where
  targetX : ℚ
  targetY : ℚ
  currentX : ℚ
  currentY : ℚ
  isHiding : Bool
  hideTimer : Int
  moveSpeed : ℚ
deriving DecidableEq

/-- The element `#ar-cat`: its `hidden` class and inline position in percent. -/
structure ArCat where
  hidden : Bool
  left : Option ℚ
  top : Option ℚ
deriving DecidableEq

/-- The element `#ar-capture-btn`. -/
structure CaptureBtn where
  /-- Whether `startGame` has installed its `onclick` handler. -/
  onclick : Bool
  /-- The inline style `transform`. -/
  transform : String
deriving DecidableEq

/-- The part of the document the script reads and writes.  For the five
panels the field is the presence of the class `hidden`. -/
structure Dom where
  app : Bool
  gameScreen : Bool
  resultScreen : Bool
  preGameUi : Bool
  gameHud : Bool
  timerDisplay : String
  scoreDisplay : String
  finalScoreDisplay : String
  /-- The element `#ar-cat`, which the script looks up on every use. -/
  arCat : Option ArCat
  arCaptureBtn : Option CaptureBtn
  /-- Whether `#cat-3d-canvas` exists. -/
  catCanvas : Bool
  /-- Whether a WebGL context can be made for the canvas: when it cannot,
  `new THREE.WebGLRenderer` throws. -/
  webgl : Bool
  /-- The tracks of `cameraFeed.srcObject`; `true` marks a stopped track. -/
  cameraSrcObject : Option (List Bool)
deriving DecidableEq

/-- The whole mutable state of the page running `main.js`. -/
structure State where
  gameState : GameState
  catMovement : CatMovement
  movementInterval : Option Nat
  catAnimationId : Option Nat
  /-- Whether `catMesh` has been assigned. -/
  catMesh : Bool
  /-- Calls of `loader.load` whose callback has not run yet. -/
  stlLoading : Nat
  dom : Dom
  sched : Scheduler Callback
  /-- Calls of `Math.random()` so far. -/
  randCalls : Nat
  /-- Ghost: entries into `endGame` so far. -/
  endGameCalls : Nat

/-- Result of a function that can throw: `ok` on normal return, `error` when
an exception leaves it; both carry the state reached. -/
abbrev Result := Except State State

/-- The state an event handler leaves behind, thrown or not. -/
def settle (r : Result) : State :=
  match r with
  | Except.ok s => s
  | Except.error s => s

/-- The function `setNewTarget`: two draws, `targetX` first. -/
def setNewTarget (rand : Nat → ℚ) (s : State) : State :=
  { s with
    catMovement := { s.catMovement with
      targetX := 10 + rand s.randCalls * 80
      targetY := 10 + rand (s.randCalls + 1) * 80 }
    randCalls := s.randCalls + 2 }

/-- The function `startHiding`.  The first draw picks the edge; a second draw
is made only inside one of the four cases. -/
def startHiding (rand : Nat → ℚ) (s : State) : State :=
  match s.dom.arCat with
  | none => s
  | some _ =>
    let edge : Int := ⌊rand s.randCalls * 4⌋
    let r : ℚ := rand (s.randCalls + 1)
    let cm : CatMovement := { s.catMovement with isHiding := true, hideTimer := 60 }
    if edge = 0 then
      { s with catMovement := { cm with targetX := r * 100, targetY := -10, moveSpeed := 5 / 100 }
               randCalls := s.randCalls + 2 }
    else if edge = 1 then
      { s with catMovement := { cm with targetX := 110, targetY := r * 100, moveSpeed := 5 / 100 }
               randCalls := s.randCalls + 2 }
    else if edge = 2 then
      { s with catMovement := { cm with targetX := r * 100, targetY := 110, moveSpeed := 5 / 100 }
               randCalls := s.randCalls + 2 }
    else if edge = 3 then
      { s with catMovement := { cm with targetX := -10, targetY := r * 100, moveSpeed := 5 / 100 }
               randCalls := s.randCalls + 2 }
    else
      { s with catMovement := { cm with moveSpeed := 5 / 100 }
               randCalls := s.randCalls + 1 }

/-- The function `stopHiding`: two draws for the position, then `setNewTarget`. -/
def stopHiding (rand : Nat → ℚ) (s : State) : State :=
  setNewTarget rand
    { s with
      catMovement := { s.catMovement with
        isHiding := false
        moveSpeed := 2 / 100
        currentX := 10 + rand s.randCalls * 80
        currentY := 10 + rand (s.randCalls + 1) * 80 }
      randCalls := s.randCalls + 2 }

/-- The first statement of `updateCatPosition` after its guards:
`if (!catMovement.isHiding && Math.random() < 0.05) startHiding()`.
The draw is made only when the cat is not hiding. -/
def maybeStartHiding (rand : Nat → ℚ) (s : State) : State :=
  if s.catMovement.isHiding then s
  else if rand s.randCalls < 5 / 100 then
    startHiding rand { s with randCalls := s.randCalls + 1 }
  else { s with randCalls := s.randCalls + 1 }

/-- The `else` branch of `updateCatPosition`: retarget or move, then write the
position to `cat`, the element found at the top of the function.
Arithmetic is exact: `Math.sqrt(dx * dx + dy * dy) < 2` is decided as
`dx * dx + dy * dy < 4`, which is the same test over the reals
(`sqrt_lt_two_iff`).  In IEEE doubles the square root of a sum just below 4
can round to 2, so that the test fails where the exact distance is below 2;
what is proved of this definition is proved of the program over exact
arithmetic. -/
def moveTowardsTarget (rand : Nat → ℚ) (cat : ArCat) (s : State) : State :=
  let dx := s.catMovement.targetX - s.catMovement.currentX
  let dy := s.catMovement.targetY - s.catMovement.currentY
  let s1 : State :=
    if dx * dx + dy * dy < 4 then setNewTarget rand s
    else
      { s with catMovement := { s.catMovement with
          currentX := s.catMovement.currentX + dx * s.catMovement.moveSpeed
          currentY := s.catMovement.currentY + dy * s.catMovement.moveSpeed } }
  { s1 with dom := { s1.dom with
      arCat := some { cat with left := some s1.catMovement.currentX
                               top := some s1.catMovement.currentY } } }

/-- The function `updateCatPosition`, one tick of the 16 ms interval. -/
def updateCatPosition (rand : Nat → ℚ) (s : State) : State :=
  if !s.gameState.isPlaying then s
  else
    match s.dom.arCat with
    | none => s
    | some cat =>
      if cat.hidden then s
      else
        let s1 := maybeStartHiding rand s
        if s1.catMovement.isHiding then
          let s2 : State :=
            { s1 with catMovement := { s1.catMovement with
                hideTimer := s1.catMovement.hideTimer - 1 } }
          if s2.catMovement.hideTimer ≤ 0 then stopHiding rand s2 else s2
        else moveTowardsTarget rand cat s1

/-- The function `init3DCat`, as far as it touches the state.  Without the
canvas it returns at once.  With it, the constructor of the renderer throws
when no WebGL context can be made, and nothing catches that; otherwise one
asynchronous `loader.load` is started. -/
def init3DCat (s : State) : Result :=
  if !s.dom.catCanvas then Except.ok s
  else if !s.dom.webgl then Except.error s
  else Except.ok { s with stlLoading := s.stlLoading + 1 }

/-- The function `animate3DCat`: requests the next frame and stores its id.
Rotation, bobbing and rendering are not part of the state. -/
def animate3DCat (s : State) : State :=
  { s with catAnimationId := some (s.sched.requestAnimationFrame).1
           sched := (s.sched.requestAnimationFrame).2 }

/-- The function `stop3DCat`. -/
def stop3DCat (s : State) : State :=
  let s1 : State :=
    if truthy s.catAnimationId then
      { s with sched := s.sched.cancelAnimationFrame s.catAnimationId }
    else s
  if truthy s1.movementInterval then
    { s1 with sched := s1.sched.clearInterval s1.movementInterval }
  else s1

/-- The function `endGame`. -/
def endGame (s : State) : State :=
  let s1 : State :=
    { s with gameState := { s.gameState with isPlaying := false }
             sched := s.sched.clearInterval s.gameState.timerInterval
             endGameCalls := s.endGameCalls + 1 }
  let s2 : State :=
    if truthy s1.gameState.spawnInterval then
      { s1 with sched := s1.sched.clearInterval s1.gameState.spawnInterval }
    else s1
  let s3 : State :=
    match s2.dom.arCat with
    | none => s2
    | some cat => { s2 with dom := { s2.dom with arCat := some { cat with hidden := true } } }
  let s4 := stop3DCat s3
  { s4 with dom := { s4.dom with
      finalScoreDisplay := toString s4.gameState.score
      gameScreen := true
      resultScreen := false } }

/-- The arrow function `startGame` passes to `setInterval(_, 1000)`. -/
def timerTick (s : State) : State :=
  let s1 : State :=
    { s with gameState := { s.gameState with timeLeft := s.gameState.timeLeft - 1 }
             dom := { s.dom with timerDisplay := toString (s.gameState.timeLeft - 1) } }
  if s1.gameState.timeLeft ≤ 0 then endGame s1 else s1

/-- The handler `arCaptureBtn.onclick` installed by `startGame`. -/
def arCaptureBtnOnclick (s : State) : State :=
  if !s.gameState.isPlaying then s
  else
    { s with
      gameState := { s.gameState with score := s.gameState.score + 1 }
      dom := { s.dom with
        scoreDisplay := toString (s.gameState.score + 1)
        arCaptureBtn := s.dom.arCaptureBtn.map
          (fun b => { b with transform := "scale(1.2)" }) }
      sched := (s.sched.setTimeout).2 }

/-- The first statements of `startGame`, up to the lookup of `#ar-cat`. -/
def resetGame (s : State) : State :=
  { s with
    gameState := { s.gameState with score := 0, timeLeft := 10, isPlaying := true }
    dom := { s.dom with scoreDisplay := "0", timerDisplay := "10"
                        preGameUi := true, gameHud := false } }

/-- The statements of the block `if (arCat)` after `init3DCat()`: the position
is reset, a target drawn and the movement loop registered. -/
def startMovement (rand : Nat → ℚ) (s : State) : State :=
  let s2 : State :=
    setNewTarget rand
      { s with catMovement := { s.catMovement with currentX := 50, currentY := 50 } }
  { s2 with movementInterval := some (s2.sched.setInterval Callback.movement).1
            sched := (s2.sched.setInterval Callback.movement).2 }

/-- The block `if (arCat)` of `startGame`: the cat is shown, then `init3DCat`
runs, and a throw of it leaves the block and `startGame`. -/
def showArCat (rand : Nat → ℚ) (s : State) : Result :=
  match s.dom.arCat with
  | none => Except.ok s
  | some cat =>
    match init3DCat
        { s with dom := { s.dom with arCat := some { cat with hidden := false } } } with
    | Except.error e => Except.error e
    | Except.ok s1 => Except.ok (startMovement rand s1)

/-- The statements of `startGame` after the block `if (arCat)`: the capture
handler is installed and the countdown registered. -/
def startTimer (s : State) : State :=
  let s3 : State :=
    { s with dom := { s.dom with
        arCaptureBtn := s.dom.arCaptureBtn.map (fun b => { b with onclick := true }) } }
  { s3 with
    gameState := { s3.gameState with
      timerInterval := some (s3.sched.setInterval Callback.countdown).1 }
    sched := (s3.sched.setInterval Callback.countdown).2 }

/-- The function `startGame`.  When `init3DCat` throws, the exception leaves
`startGame` before either `setInterval` and before the capture handler is
installed. -/
def startGame (rand : Nat → ℚ) (s : State) : Result :=
  match showArCat rand (resetGame s) with
  | Except.error e => Except.error e
  | Except.ok s2 => Except.ok (startTimer s2)

/-- The event loop running the interval registered under `h`: nothing happens
unless `h` is active. -/
def fireInterval (rand : Nat → ℚ) (h : Nat) (s : State) : State :=
  match s.sched.lookup h with
  | none => s
  | some Callback.countdown => timerTick s
  | some Callback.movement => updateCatPosition rand s

/-- How the camera request of the start-AR handler ends. -/
inductive CameraOutcome where
  /-- The call `getUserMedia` rejects: the handler alerts and changes nothing. -/
  | denied
  /-- A stream with `tracks` live tracks is obtained; `playOk` tells whether
  `cameraFeed.play()` resolves. -/
  | granted (tracks : Nat) (playOk : Bool)

/-- The click handler of `startArBtn`, run to completion. -/
def startArClick (o : CameraOutcome) (s : State) : State :=
  match o with
  | CameraOutcome.denied => s
  | CameraOutcome.granted n playOk =>
    let s1 : State :=
      { s with dom := { s.dom with cameraSrcObject := some (List.replicate n false) } }
    if playOk then { s1 with dom := { s1.dom with app := true, gameScreen := false } }
    else s1

/-- The click handler of `playAgainBtn`. -/
def playAgainClick (s : State) : State :=
  { s with dom := { s.dom with
      resultScreen := true, gameScreen := false, preGameUi := false, gameHud := true } }

/-- The click handler of `backToTopBtn`. -/
def backToTopClick (s : State) : State :=
  let s1 : State :=
    { s with dom := { s.dom with
        cameraSrcObject := s.dom.cameraSrcObject.map (fun ts => ts.map (fun _ => true)) } }
  let s2 : State :=
    { s1 with dom := { s1.dom with resultScreen := true, gameScreen := true, app := false } }
  stop3DCat s2

/-- A click on `#ar-capture-btn`: runs the handler if one is installed. -/
def captureClick (s : State) : State :=
  match s.dom.arCaptureBtn with
  | none => s
  | some b => if b.onclick then arCaptureBtnOnclick s else s

/-- The callback of a pending `loader.load`: on success `catMesh` is assigned
and `animate3DCat` starts; on error only a message is logged. -/
def stlLoaded (ok : Bool) (s : State) : State :=
  if s.stlLoading = 0 then s
  else if ok then animate3DCat { s with stlLoading := s.stlLoading - 1, catMesh := true }
  else { s with stlLoading := s.stlLoading - 1 }

/-- The browser running the frame request `h`, if it is still pending. -/
def fireFrame (h : Nat) (s : State) : State :=
  if h ∈ s.sched.frames then
    animate3DCat { s with sched := { s.sched with frames := s.sched.frames.filter (fun e => e != h) } }
  else s

/-- The browser running the timeout `h` set by the capture handler. -/
def fireTimeout (h : Nat) (s : State) : State :=
  if h ∈ s.sched.timeouts then
    { s with
      sched := { s.sched with timeouts := s.sched.timeouts.filter (fun e => e != h) }
      dom := { s.dom with
        arCaptureBtn := s.dom.arCaptureBtn.map (fun b => { b with transform := "scale(1)" }) } }
  else s

/-- The state right after the script has run on a document `dom`. -/
def initialState (dom : Dom) : State where
  gameState :=
    { score := 0, timeLeft := 10, isPlaying := false, timerInterval := none, spawnInterval := none }
  catMovement :=
    { targetX := 50, targetY := 50, currentX := 50, currentY := 50
      isHiding := false, hideTimer := 0, moveSpeed := 2 / 100 }
  movementInterval := none
  catAnimationId := none
  catMesh := false
  stlLoading := 0
  dom := dom
  sched := { lastHandle := 0, intervals := [], timeouts := [], frames := [] }
  randCalls := 0
  endGameCalls := 0

/-- A document as the page may ship it: landing screen showing, the cat
hidden, the capture button and the canvas present. -/
def sampleDom : Dom where
  app := false
  gameScreen := true
  resultScreen := true
  preGameUi := false
  gameHud := true
  timerDisplay := "10"
  scoreDisplay := "0"
  finalScoreDisplay := "0"
  arCat := some { hidden := true, left := none, top := none }
  arCaptureBtn := some { onclick := false, transform := "" }
  catCanvas := true
  webgl := true
  cameraSrcObject := none

/-- A session in play on the sample page: the cat is visible at the centre and
heads for (50, 50.5); both intervals of `startGame` are active. -/
def sampleSession : State :=
  { initialState
      { sampleDom with
        app := true, gameScreen := false, preGameUi := true, gameHud := false
        arCat := some { hidden := false, left := none, top := none }
        arCaptureBtn := some { onclick := true, transform := "" }
        cameraSrcObject := some [false] } with
    gameState :=
      { score := 0, timeLeft := 10, isPlaying := true, timerInterval := some 2
        spawnInterval := none }
    catMovement :=
      { targetX := 50, targetY := 101 / 2, currentX := 50, currentY := 50
        isHiding := false, hideTimer := 0, moveSpeed := 2 / 100 }
    movementInterval := some 1
    stlLoading := 1
    sched :=
      { lastHandle := 2
        intervals := [(2, Callback.countdown), (1, Callback.movement)]
        timeouts := [], frames := [] } }

/-- Everything that can happen to the page. -/
inductive Op where
  | startArClick (o : CameraOutcome)
  | startGameClick
  | playAgainClick
  | backToTopClick
  | captureClick
  | interval (h : Nat)
  | timeout (h : Nat)
  | frame (h : Nat)
  | stlLoaded (ok : Bool)
  /-- A direct call of `endGame`. -/
  | endGame

/-- One event. -/
def step (rand : Nat → ℚ) (o : Op) (s : State) : State :=
  match o with
  | Op.startArClick c => startArClick c s
  | Op.startGameClick => settle (startGame rand s)
  | Op.playAgainClick => playAgainClick s
  | Op.backToTopClick => backToTopClick s
  | Op.captureClick => captureClick s
  | Op.interval h => fireInterval rand h s
  | Op.timeout h => fireTimeout h s
  | Op.frame h => fireFrame h s
  | Op.stlLoaded ok => stlLoaded ok s
  | Op.endGame => endGame s

/-- A sequence of events, oldest first. -/
def run (rand : Nat → ℚ) (ops : List Op) (s : State) : State :=
  ops.foldl (fun acc o => step rand o acc) s

/-- The sequence `ops`, run from `s`, never clicks the start button while a
session is playing. -/
def StartsWhenIdle (rand : Nat → ℚ) : List Op → State → Prop
  | [], _ => True
  | o :: ops, s =>
    (o = Op.startGameClick → s.gameState.isPlaying = false) ∧
      StartsWhenIdle rand ops (step rand o s)

/-- A game is started, a cat caught, and the page left by the back-to-top
button. -/
def sampleOps : List Op :=
  [Op.startGameClick, Op.captureClick, Op.backToTopClick]

/-- The three operations that write or gate `catMovement`, called directly. -/
inductive MoveOp where
  | startGame
  | updateCatPosition
  | endGame
deriving DecidableEq, Repr

/-- One direct call. -/
def moveStep (rand : Nat → ℚ) (o : MoveOp) (s : State) : State :=
  match o with
  | MoveOp.startGame => settle (startGame rand s)
  | MoveOp.updateCatPosition => updateCatPosition rand s
  | MoveOp.endGame => endGame s

/-- A sequence of direct calls, oldest first. -/
def moveRun (rand : Nat → ℚ) (ops : List MoveOp) (s : State) : State :=
  ops.foldl (fun acc o => moveStep rand o acc) s

/-- The events of one session that bear on the score: the countdown interval
`h` firing, a click handled by the capture handler, the movement interval
firing. -/
inductive SessionEvent where
  | tick
  | catch
  | move
deriving DecidableEq, Repr

/-- One session event; `h` is the countdown handle of the session. -/
def sessionStep (rand : Nat → ℚ) (h : Nat) (e : SessionEvent) (s : State) : State :=
  match e with
  | SessionEvent.tick => fireInterval rand h s
  | SessionEvent.catch => arCaptureBtnOnclick s
  | SessionEvent.move => updateCatPosition rand s

/-- A sequence of session events, oldest first. -/
def sessionRun (rand : Nat → ℚ) (h : Nat) (es : List SessionEvent) (s : State) : State :=
  es.foldl (fun acc e => sessionStep rand h e acc) s

/-- The sample page after the first `startGame`, every draw 0. -/
def sampleStarted : State :=
  settle (startGame (fun _ => 0) (initialState sampleDom))

/-- The sample session after `startGame` has run once more while its intervals
were still active, every draw 0. -/
def sampleRestarted : State :=
  settle (startGame (fun _ => 0) sampleSession)

/-- Nine countdown ticks with three catches and a movement tick in between. -/
def sampleEvents : List SessionEvent :=
  [SessionEvent.tick, SessionEvent.catch, SessionEvent.tick, SessionEvent.move,
   SessionEvent.tick, SessionEvent.catch, SessionEvent.tick, SessionEvent.tick,
   SessionEvent.catch, SessionEvent.tick, SessionEvent.tick, SessionEvent.tick,
   SessionEvent.tick]

/-! ### Predicates on states of `main.js` -/

/-- The state `r` in which `startGame`, begun in `s`, leaves the call of
`init3DCat` or skips it: nothing but the cat element and the count of model
loads has changed since `resetGame`. -/
structure StartKept (s r : State) : Prop where
  gameState : r.gameState = (resetGame s).gameState
  endGameCalls : r.endGameCalls = s.endGameCalls
  sched : r.sched = s.sched
  movementInterval : r.movementInterval = s.movementInterval
  catMovement : r.catMovement = s.catMovement

/-- What a countdown tick keeps while more than one second is left. -/
structure Counting (h : Nat) (c : Nat) (t : Int) (s : State) : Prop where
  active : s.sched.lookup h = some Callback.countdown
  stored : s.gameState.timerInterval = some h
  time : s.gameState.timeLeft = t
  playing : s.gameState.isPlaying = true
  calls : s.endGameCalls = c

/-- The guards of `updateCatPosition` let the tick through. -/
structure Visible (s : State) : Prop where
  playing : s.gameState.isPlaying = true
  shown : ∃ cat, s.dom.arCat = some cat ∧ cat.hidden = false

/-- A hide episode with `k` on its timer. -/
structure Hiding (k : Int) (s : State) : Prop where
  visible : Visible s
  isHiding : s.catMovement.isHiding = true
  timer : s.catMovement.hideTimer = k
  speed : s.catMovement.moveSpeed = 5 / 100

/-- The fields the movement simulation never writes. -/
structure MoveFrame (s r : State) : Prop where
  gameState : r.gameState = s.gameState
  sched : r.sched = s.sched
  movementInterval : r.movementInterval = s.movementInterval
  catAnimationId : r.catAnimationId = s.catAnimationId
  endGameCalls : r.endGameCalls = s.endGameCalls
  dom : r.dom = { s.dom with arCat := r.dom.arCat }
  shown : r.dom.arCat.map ArCat.hidden = s.dom.arCat.map ArCat.hidden

/-- A running session: `t` countdown ticks and `c` catches so far, the
countdown registered under `h`, and every active interval either that
countdown or the movement loop whose handle is stored. -/
structure InSession (h : Nat) (t c : Nat) (s : State) : Prop where
  active : s.sched.lookup h = some Callback.countdown
  stored : s.gameState.timerInterval = some h
  time : s.gameState.timeLeft = 10 - (t : Int)
  playing : s.gameState.isPlaying = true
  score : s.gameState.score = c
  owned : ∀ e ∈ s.sched.intervals, e.1 = h ∨ (s.movementInterval = some e.1 ∧ e.1 ≠ 0)

/-- Every active interval is the one whose handle the script holds, there is
at most one of each kind, and none while no session is playing. -/
structure SingleTimer (s : State) : Prop where
  idle : s.gameState.isPlaying = false → s.sched.intervals = []
  nonzero : ∀ e ∈ s.sched.intervals, e.1 ≠ 0
  countdown : ∀ e ∈ s.sched.intervals, e.2 = Callback.countdown →
    s.gameState.timerInterval = some e.1
  movement : ∀ e ∈ s.sched.intervals, e.2 = Callback.movement →
    s.movementInterval = some e.1
  oneCountdown : s.sched.intervals.countP (fun e => e.2 == Callback.countdown) ≤ 1
  oneMovement : s.sched.intervals.countP (fun e => e.2 == Callback.movement) ≤ 1

/-- The step from `s` to `r` starts no interval and keeps the handles. -/
structure Shrinks (s r : State) : Prop where
  sub : r.sched.intervals.Sublist s.sched.intervals
  playing : r.gameState.isPlaying = s.gameState.isPlaying
  timer : r.gameState.timerInterval = s.gameState.timerInterval
  movement : r.movementInterval = s.movementInterval

/-- All four coordinates lie in [-10, 110] and `moveSpeed` in [0, 1]. -/
structure Bounded (m : CatMovement) : Prop where
  targetX : -10 ≤ m.targetX ∧ m.targetX ≤ 110
  targetY : -10 ≤ m.targetY ∧ m.targetY ≤ 110
  currentX : -10 ≤ m.currentX ∧ m.currentX ≤ 110
  currentY : -10 ≤ m.currentY ∧ m.currentY ≤ 110
  moveSpeed : 0 ≤ m.moveSpeed ∧ m.moveSpeed ≤ 1

end Main

/-! ## `src/webxr-ar.js` -/

namespace WebXRAR

/-- Callbacks that `WebXRAR.startGame` registers with `setInterval`. -/
inductive Callback where
  /-- The first arrow function (1000 ms). -/
  | countdown
  /-- The second arrow function (2000 ms). -/
  | spawn
deriving DecidableEq, Repr

/-- The object `this.gameState`. -/
structure GameState where
  score : Nat
  timeLeft : Int
  isPlaying : Bool
  timerInterval : Option Nat
deriving DecidableEq, Repr

/-- The argument of `createCat`, kept in the polar form `spawnCats` draws it
in: the vector is `(sin(angle * π) * distance, height, -cos(angle * π) * distance)`. -/
structure Position where
  /-- The value `Math.random() - 0.5`, the angle in units of π radians. -/
  angle : ℚ
  distance : ℚ
  height : ℚ
deriving DecidableEq

/-- First component of `new THREE.Vector3(...)` in `spawnCats`:
`Math.sin(angle) * distance`, over the reals. -/
noncomputable def Position.x (p : Position) : ℝ :=
  Real.sin ((p.angle : ℝ) * Real.pi) * (p.distance : ℝ)

/-- Second component: `height`. -/
noncomputable def Position.y (p : Position) : ℝ := (p.height : ℝ)

/-- Third component: `-Math.cos(angle) * distance`, over the reals. -/
noncomputable def Position.z (p : Position) : ℝ :=
  -Real.cos ((p.angle : ℝ) * Real.pi) * (p.distance : ℝ)

/-- The horizontal angle of the position seen from the origin, in radians,
measured from the forward axis -Z and positive towards +X: the argument of
the complex number with real part `-z` and imaginary part `x`. -/
noncomputable def Position.bearing (p : Position) : ℝ :=
  Complex.arg ⟨-p.z, p.x⟩

/-- A sprite made by `createCat`. -/
structure Cat where
  /-- Identity of the JavaScript object: what `indexOf` and `remove` compare. -/
  ref : Nat
  position : Position
  /-- The field `userData.id`. -/
  id : ℚ
deriving DecidableEq

/-- The elements the class looks up by id; for panels the field is the
presence of the class `hidden`. -/
structure Dom where
  scoreDisplay : String
  timerDisplay : String
  finalScore : String
  preGameUi : Bool
  gameHud : Bool
  gameScreen : Bool
  app : Bool
  arOverlay : Bool
  resultScreen : Bool
deriving DecidableEq

/-- An instance of `WebXRAR` together with its page. -/
structure State where
  /-- Whether `this.session` is non-null. -/
  session : Bool
  /-- Calls of `this.session.end()` so far. -/
  sessionEndCalls : Nat
  /-- Whether `this.renderer` is non-null. -/
  renderer : Bool
  /-- The cats among the children of `this.scene`; `none` while it is null. -/
  scene : Option (List Cat)
  /-- Whether `this.camera` is non-null. -/
  camera : Bool
  /-- The field `visible` of `this.reticle`; `none` while it is null. -/
  reticle : Option Bool
  hitTestSource : Bool
  hitTestSourceRequested : Bool
  localReferenceSpace : Bool
  cats : List Cat
  gameState : GameState
  spawnInterval : Option Nat
  dom : Dom
  sched : Scheduler Callback
  /-- Calls of `Math.random()` so far. -/
  randCalls : Nat
  /-- What `Date.now()` returns. -/
  now : ℚ
  /-- Objects allocated so far; the next sprite gets this identity. -/
  nextRef : Nat
  /-- Ghost: entries into `endGame` so far. -/
  endGameCalls : Nat

/-- Result of a method: `ok` on normal return, `error` when a `TypeError` is
thrown on a null field; both carry the state reached. -/
abbrev Result := Except State State

/-- The state an event handler leaves behind, thrown or not. -/
def settle (r : Result) : State :=
  match r with
  | Except.ok s => s
  | Except.error s => s

/-- The method `indexOf` followed by `splice(index, 1)` when found, as in
`onTap` and in `Object3D.remove`. -/
def removeObject (c : Cat) (l : List Cat) : List Cat :=
  match l.findIdx? (fun d => d.ref == c.ref) with
  | none => l
  | some i => l.eraseIdx i

/-- The method `createCat`: one draw for `userData.id`; throws at
`this.scene.add` when the scene is null, before the push onto `this.cats`. -/
def createCat (rand : Nat → ℚ) (position : Position) (s : State) : Result :=
  let cat : Cat := { ref := s.nextRef, position := position, id := s.now + rand s.randCalls }
  let s1 : State := { s with nextRef := s.nextRef + 1, randCalls := s.randCalls + 1 }
  match s1.scene with
  | none => Except.error s1
  | some objs => Except.ok { s1 with scene := some (objs ++ [cat]), cats := s1.cats ++ [cat] }

/-- One iteration of the loop of `spawnCats`: three draws, then `createCat`. -/
def spawnOne (rand : Nat → ℚ) (s : State) : Result :=
  createCat rand
    { angle := rand s.randCalls - 1 / 2
      distance := 1 + rand (s.randCalls + 1) * 2
      height := 1 / 2 + rand (s.randCalls + 2) * 1 }
    { s with randCalls := s.randCalls + 3 }

/-- The loop of `spawnCats` with `n` iterations left. -/
def spawnLoop (rand : Nat → ℚ) : Nat → State → Result
  | 0, s => Except.ok s
  | n + 1, s =>
    match spawnOne rand s with
    | Except.error e => Except.error e
    | Except.ok s1 => spawnLoop rand n s1

/-- The value `numCats` of `spawnCats` for the draw `r`. -/
def numCats (r : ℚ) : Int := ⌊r * 2⌋ + 1

/-- The method `spawnCats`. -/
def spawnCats (rand : Nat → ℚ) (s : State) : Result :=
  spawnLoop rand (numCats (rand s.randCalls)).toNat { s with randCalls := s.randCalls + 1 }

/-- The method `endGame`.  The loop over `this.cats` throws on its first
iteration when the scene is null. -/
def endGame (s : State) : Result :=
  let s1 : State :=
    { s with
      gameState := { s.gameState with isPlaying := false }
      sched := (s.sched.clearInterval s.gameState.timerInterval).clearInterval s.spawnInterval
      endGameCalls := s.endGameCalls + 1 }
  match s1.scene, s1.cats with
  | none, _ :: _ => Except.error s1
  | scene, cats =>
    let s2 : State :=
      { s1 with
        scene := scene.map (fun objs => cats.foldl (fun acc c => removeObject c acc) objs)
        cats := []
        dom := { s1.dom with finalScore := toString s1.gameState.score } }
    Except.ok (if s2.session then { s2 with sessionEndCalls := s2.sessionEndCalls + 1 } else s2)

/-- The first arrow function of `startGame`. -/
def timerTick (s : State) : Result :=
  let s1 : State :=
    { s with gameState := { s.gameState with timeLeft := s.gameState.timeLeft - 1 }
             dom := { s.dom with timerDisplay := toString (s.gameState.timeLeft - 1) } }
  if s1.gameState.timeLeft ≤ 0 then endGame s1 else Except.ok s1

/-- The second arrow function of `startGame`. -/
def spawnTick (rand : Nat → ℚ) (s : State) : Result :=
  if s.gameState.isPlaying then spawnCats rand s else Except.ok s

/-- The method `startGame`. -/
def startGame (rand : Nat → ℚ) (s : State) : Result :=
  let s1 : State :=
    { s with
      gameState := { s.gameState with score := 0, timeLeft := 10, isPlaying := true }
      dom := { s.dom with scoreDisplay := "0", timerDisplay := "10"
                          preGameUi := true, gameHud := false }
      reticle := s.reticle.map (fun _ => false) }
  match spawnCats rand s1 with
  | Except.error e => Except.error e
  | Except.ok s2 =>
    let s3 : State :=
      { s2 with
        gameState := { s2.gameState with
          timerInterval := some (s2.sched.setInterval Callback.countdown).1 }
        sched := (s2.sched.setInterval Callback.countdown).2 }
    Except.ok
      { s3 with spawnInterval := some (s3.sched.setInterval Callback.spawn).1
                sched := (s3.sched.setInterval Callback.spawn).2 }

/-- The method `onTap`.  The list `intersects` is what
`this.raycaster.intersectObjects(this.cats)` returns for the tap, nearest
first.  Reading `this.renderer.domElement`, `setFromCamera` and
`this.scene.remove` throw on a null field. -/
def onTap (intersects : List Cat) (s : State) : Result :=
  if !s.gameState.isPlaying then Except.ok s
  else if !s.renderer then Except.error s
  else if !s.camera then Except.error s
  else
    match intersects with
    | [] => Except.ok s
    | cat :: _ =>
      match s.scene with
      | none => Except.error s
      | some objs =>
        Except.ok
          { s with
            scene := some (removeObject cat objs)
            cats := removeObject cat s.cats
            gameState := { s.gameState with score := s.gameState.score + 1 }
            dom := { s.dom with scoreDisplay := toString (s.gameState.score + 1) } }

/-- The method `onSessionEnd`. -/
def onSessionEnd (s : State) : State :=
  { s with
    session := false
    hitTestSource := false
    hitTestSourceRequested := false
    dom := { s.dom with gameScreen := true, arOverlay := true, resultScreen := false } }

/-- How far `startARSession` gets before an awaited call rejects. -/
inductive SessionOutcome where
  /-- The call `requestSession` rejects. -/
  | requestFailed
  /-- The call `setSession` or `requestReferenceSpace` rejects. -/
  | setupFailed
  /-- Nothing rejects. -/
  | started

/-- The method `startARSession`, run to completion; `initScene` makes a new
scene, camera and reticle. -/
def startARSession (o : SessionOutcome) (s : State) : State :=
  match o with
  | SessionOutcome.requestFailed => s
  | SessionOutcome.setupFailed =>
    { s with session := true, scene := some [], camera := true, reticle := some false
             renderer := true }
  | SessionOutcome.started =>
    { s with session := true, scene := some [], camera := true, reticle := some false
             renderer := true, localReferenceSpace := true
             dom := { s.dom with gameScreen := false, app := true, arOverlay := false } }

/-- The event loop running the interval registered under `h`: nothing happens
unless `h` is active. -/
def fireInterval (rand : Nat → ℚ) (h : Nat) (s : State) : State :=
  match s.sched.lookup h with
  | none => s
  | some Callback.countdown => settle (timerTick s)
  | some Callback.spawn => settle (spawnTick rand s)

/-- The state `new WebXRAR()` builds, on a page `dom` at time `now`. -/
def initialState (dom : Dom) (now : ℚ) : State where
  session := false
  sessionEndCalls := 0
  renderer := false
  scene := none
  camera := false
  reticle := none
  hitTestSource := false
  hitTestSourceRequested := false
  localReferenceSpace := false
  cats := []
  gameState := { score := 0, timeLeft := 10, isPlaying := false, timerInterval := none }
  spawnInterval := none
  dom := dom
  sched := { lastHandle := 0, intervals := [], timeouts := [], frames := [] }
  randCalls := 0
  now := now
  nextRef := 0
  endGameCalls := 0

/-- A page for the class, landing screen showing. -/
def sampleDom : Dom where
  scoreDisplay := "0"
  timerDisplay := "10"
  finalScore := "0"
  preGameUi := false
  gameHud := true
  gameScreen := true
  app := false
  arOverlay := true
  resultScreen := true

/-- A fresh instance after `startARSession` has succeeded. -/
def sampleState : State :=
  startARSession SessionOutcome.started (initialState sampleDom 0)

/-- The sample instance after `startGame`, every draw 0. -/
def sampleStarted : State :=
  settle (startGame (fun _ => 0) sampleState)

/-- A sprite as `spawnCats` makes it when every draw is 0. -/
def sampleCat (ref : Nat) : Cat :=
  { ref := ref, position := { angle := -1 / 2, distance := 1, height := 1 / 2 }, id := 0 }

/-- A session in play with two live cats. -/
def samplePlaying : State :=
  { sampleState with
    scene := some [sampleCat 0, sampleCat 1]
    cats := [sampleCat 0, sampleCat 1]
    nextRef := 2
    gameState := { score := 0, timeLeft := 10, isPlaying := true, timerInterval := none } }

/-- Everything that can happen to an instance. -/
inductive Op where
  | startARSession (o : SessionOutcome)
  | startGame
  | tap (intersects : List Cat)
  | interval (h : Nat)
  | endGame
  /-- The platform reports the end of the session. -/
  | sessionEnd

/-- One event. -/
def step (rand : Nat → ℚ) (o : Op) (s : State) : State :=
  match o with
  | Op.startARSession c => startARSession c s
  | Op.startGame => settle (startGame rand s)
  | Op.tap l => settle (onTap l s)
  | Op.interval h => fireInterval rand h s
  | Op.endGame => settle (endGame s)
  | Op.sessionEnd => if s.session then onSessionEnd s else s

/-- A sequence of events, oldest first. -/
def run (rand : Nat → ℚ) (ops : List Op) (s : State) : State :=
  ops.foldl (fun acc o => step rand o acc) s

/-- The sequence `ops`, run from `s`, never calls `startGame` while a session
is playing. -/
def StartsWhenIdle (rand : Nat → ℚ) : List Op → State → Prop
  | [], _ => True
  | o :: ops, s =>
    (o = Op.startGame → s.gameState.isPlaying = false) ∧
      StartsWhenIdle rand ops (step rand o s)

/-- The AR session is started, a game started, and a tap misses. -/
def sampleOps : List Op :=
  [Op.startARSession SessionOutcome.started, Op.startGame, Op.tap []]

/-! ### Predicates on states of `WebXRAR` -/

/-- The polar ranges `spawnCats` draws from: angle within a quarter turn either
side, distance from 1 to 3, height from 0.5 to 1.5. -/
structure InRange (p : Position) : Prop where
  angle : -1 / 2 ≤ p.angle ∧ p.angle ≤ 1 / 2
  distance : 1 ≤ p.distance ∧ p.distance ≤ 3
  height : 1 / 2 ≤ p.height ∧ p.height ≤ 3 / 2

/-- What a countdown tick keeps while more than one second is left. -/
structure Counting (h : Nat) (c : Nat) (t : Int) (s : State) : Prop where
  active : s.sched.lookup h = some Callback.countdown
  stored : s.gameState.timerInterval = some h
  time : s.gameState.timeLeft = t
  playing : s.gameState.isPlaying = true
  calls : s.endGameCalls = c

/-- The fields `spawnCats` leaves alone. -/
structure SpawnFrame (s r : State) : Prop where
  gameState : r.gameState = s.gameState
  sched : r.sched = s.sched
  endGameCalls : r.endGameCalls = s.endGameCalls
  spawnInterval : r.spawnInterval = s.spawnInterval
  dom : r.dom = s.dom
  session : r.session = s.session
  renderer : r.renderer = s.renderer
  camera : r.camera = s.camera

/-- An instance on which a tap can be ray cast and a hit removed. -/
structure Ready (s : State) : Prop where
  playing : s.gameState.isPlaying = true
  renderer : s.renderer = true
  camera : s.camera = true
  scene : s.scene.isSome = true

/-- A session whose spawn interval `h` can fire and spawn. -/
structure Spawning (h : Nat) (s : State) : Prop where
  active : s.sched.lookup h = some Callback.spawn
  playing : s.gameState.isPlaying = true
  scene : s.scene.isSome = true

/-- Every active interval is the one whose handle the instance holds, there is
at most one of each kind, and none while no session is playing. -/
structure SingleTimer (s : State) : Prop where
  idle : s.gameState.isPlaying = false → s.sched.intervals = []
  countdown : ∀ e ∈ s.sched.intervals, e.2 = Callback.countdown →
    s.gameState.timerInterval = some e.1
  spawn : ∀ e ∈ s.sched.intervals, e.2 = Callback.spawn → s.spawnInterval = some e.1
  oneCountdown : s.sched.intervals.countP (fun e => e.2 == Callback.countdown) ≤ 1
  oneSpawn : s.sched.intervals.countP (fun e => e.2 == Callback.spawn) ≤ 1

/-- The step from `s` to `r` starts no interval and keeps the handles. -/
structure Shrinks (s r : State) : Prop where
  sub : r.sched.intervals.Sublist s.sched.intervals
  playing : r.gameState.isPlaying = s.gameState.isPlaying
  timer : r.gameState.timerInterval = s.gameState.timerInterval
  spawn : r.spawnInterval = s.spawnInterval

end WebXRAR

/-! ## Facts about the scheduler -/

namespace Scheduler

variable {κ : Type}

theorem lookup_setInterval (cb : κ) (sc : Scheduler κ) :
    (sc.setInterval cb).2.lookup (sc.setInterval cb).1 = some cb := by
  simp [setInterval, lookup]

theorem lookup_clearInterval_self (h : Nat) (sc : Scheduler κ) :
    (sc.clearInterval (some h)).lookup h = none := by
  simp [clearInterval, lookup, List.find?_eq_none]

theorem lookup_eq_none_iff (h : Nat) (sc : Scheduler κ) :
    sc.lookup h = none ↔ ∀ e ∈ sc.intervals, e.1 ≠ h := by
  simp [lookup, List.find?_eq_none]

theorem lookup_clearInterval_of_none (x : Option Nat) (h : Nat) (sc : Scheduler κ)
    (hn : sc.lookup h = none) : (sc.clearInterval x).lookup h = none := by
  rw [lookup_eq_none_iff] at hn ⊢
  cases x with
  | none => exact hn
  | some n =>
    intro e he
    exact hn e (List.mem_of_mem_filter he)

theorem find_filter_ne (l : List (Nat × κ)) (h n : Nat) (hne : h ≠ n) :
    (l.filter (fun e => e.1 != n)).find? (fun e => e.1 == h) =
      l.find? (fun e => e.1 == h) := by
  induction l with
  | nil => rfl
  | cons e l ih =>
    obtain ⟨a, b⟩ := e
    by_cases han : a = n
    · subst han
      have hh : ¬ (a = h) := fun c => hne c.symm
      simp [List.filter_cons, List.find?_cons, hh, ih]
    · by_cases hah : a = h
      · subst hah
        simp [List.filter_cons, List.find?_cons, hne]
      · simp [List.filter_cons, List.find?_cons, han, hah, ih]

theorem lookup_setInterval_of_ne (cb : κ) (h : Nat) (sc : Scheduler κ)
    (hne : h ≠ sc.lastHandle + 1) : (sc.setInterval cb).2.lookup h = sc.lookup h := by
  have hne2 : ¬ (sc.lastHandle + 1 = h) := fun c => hne c.symm
  simp [setInterval, lookup, List.find?_cons, hne2, find_filter_ne _ _ _ hne]

theorem lookup_clearInterval_of_ne (n h : Nat) (sc : Scheduler κ) (hne : h ≠ n) :
    (sc.clearInterval (some n)).lookup h = sc.lookup h := by
  simp [clearInterval, lookup, find_filter_ne _ _ _ hne]

theorem mem_of_lookup (h : Nat) (k : κ) (sc : Scheduler κ) (hl : sc.lookup h = some k) :
    (h, k) ∈ sc.intervals := by
  simp only [lookup, Option.map_eq_some'] at hl
  obtain ⟨e, he, hk⟩ := hl
  have h1 := List.find?_some he
  have h2 := List.mem_of_find?_eq_some he
  simp only [beq_iff_eq] at h1
  obtain ⟨a, b⟩ := e
  simp only at h1 hk
  subst h1 hk
  exact h2

theorem clearInterval_sublist (x : Option Nat) (sc : Scheduler κ) :
    (sc.clearInterval x).intervals.Sublist sc.intervals := by
  cases x with
  | none => exact List.Sublist.refl _
  | some n => exact List.filter_sublist _

theorem cancelAnimationFrame_intervals (x : Option Nat) (sc : Scheduler κ) :
    (sc.cancelAnimationFrame x).intervals = sc.intervals := by
  cases x <;> rfl

theorem lookup_cancelAnimationFrame (x : Option Nat) (h : Nat) (sc : Scheduler κ) :
    (sc.cancelAnimationFrame x).lookup h = sc.lookup h := by
  cases x <;> rfl

end Scheduler

/-! ## Countdown -/

namespace Main

theorem init3DCat_cases (s : State) :
    init3DCat s = Except.ok s ∨ init3DCat s = Except.error s ∨
    init3DCat s = Except.ok { s with stlLoading := s.stlLoading + 1 } := by
  unfold init3DCat
  split_ifs <;> simp

/-- The three ways `startGame` can end: thrown out of `init3DCat`, returned
without a cat element, returned with the movement loop started. -/
theorem startGame_cases (rand : Nat → ℚ) (s : State) :
    ∃ s1, StartKept s s1 ∧
      (startGame rand s = Except.error s1 ∨
       startGame rand s = Except.ok (startTimer s1) ∨
       startGame rand s = Except.ok (startTimer (startMovement rand s1))) := by
  unfold startGame showArCat
  cases hc : (resetGame s).dom.arCat with
  | none => exact ⟨resetGame s, ⟨rfl, rfl, rfl, rfl, rfl⟩, Or.inr (Or.inl rfl)⟩
  | some cat =>
    dsimp only
    have k : StartKept s
        { resetGame s with
          dom := { (resetGame s).dom with arCat := some { cat with hidden := false } } } :=
      ⟨rfl, rfl, rfl, rfl, rfl⟩
    generalize ({ resetGame s with
      dom := { (resetGame s).dom with arCat := some { cat with hidden := false } } }
        : State) = shown at k ⊢
    rcases init3DCat_cases shown with h | h | h <;> rw [h]
    · exact ⟨shown, k, Or.inr (Or.inr rfl)⟩
    · exact ⟨shown, k, Or.inl rfl⟩
    · exact ⟨{ shown with stlLoading := shown.stlLoading + 1 },
        ⟨k.1, k.2, k.3, k.4, k.5⟩, Or.inr (Or.inr rfl)⟩

/-- The state a returning `startGame` hands to `startTimer`. -/
theorem startGame_ok_cases (rand : Nat → ℚ) (s s0 : State)
    (hok : startGame rand s = Except.ok s0) :
    ∃ s1, StartKept s s1 ∧
      (s0 = startTimer s1 ∨ s0 = startTimer (startMovement rand s1)) := by
  obtain ⟨s1, hk, h | h | h⟩ := startGame_cases rand s <;> rw [h] at hok
  · cases hok
  · injection hok with hok
    exact ⟨s1, hk, Or.inl hok.symm⟩
  · injection hok with hok
    exact ⟨s1, hk, Or.inr hok.symm⟩

/-- When the cat element or the canvas is missing, or WebGL is at hand,
`startGame` returns. -/
theorem startGame_returns (rand : Nat → ℚ) (s : State)
    (h : s.dom.arCat = none ∨ s.dom.catCanvas = false ∨ s.dom.webgl = true) :
    startGame rand s = Except.ok (settle (startGame rand s)) := by
  unfold startGame showArCat init3DCat
  cases hc : s.dom.arCat with
  | none => simp [resetGame, hc, settle]
  | some cat =>
    rcases h with h | h | h
    · rw [hc] at h; cases h
    · simp [resetGame, hc, h, settle]
    · cases hcv : s.dom.catCanvas <;> simp [resetGame, hc, h, hcv, settle]

theorem stop3DCat_gameState (s : State) : (stop3DCat s).gameState = s.gameState := by
  simp only [stop3DCat]
  split_ifs <;> rfl

theorem stop3DCat_endGameCalls (s : State) : (stop3DCat s).endGameCalls = s.endGameCalls := by
  simp only [stop3DCat]
  split_ifs <;> rfl

theorem stop3DCat_dom (s : State) : (stop3DCat s).dom = s.dom := by
  simp only [stop3DCat]
  split_ifs <;> rfl

theorem stop3DCat_lookup_none (h : Nat) (s : State) (hn : s.sched.lookup h = none) :
    (stop3DCat s).sched.lookup h = none := by
  simp only [stop3DCat]
  split_ifs <;>
    simp [Scheduler.lookup_clearInterval_of_none, Scheduler.lookup_cancelAnimationFrame, hn]

theorem endGame_gameState (s : State) :
    (endGame s).gameState = { s.gameState with isPlaying := false } := by
  simp only [endGame, stop3DCat_gameState]
  split_ifs <;> split <;> rfl

theorem endGame_endGameCalls (s : State) : (endGame s).endGameCalls = s.endGameCalls + 1 := by
  simp only [endGame, stop3DCat_endGameCalls]
  split_ifs <;> split <;> rfl

theorem endGame_lookup_timer (h : Nat) (s : State) (hs : s.gameState.timerInterval = some h) :
    (endGame s).sched.lookup h = none := by
  simp only [endGame]
  apply stop3DCat_lookup_none
  have key : (s.sched.clearInterval s.gameState.timerInterval).lookup h = none := by
    rw [hs]; exact Scheduler.lookup_clearInterval_self h s.sched
  split_ifs <;> split <;>
    simp [Scheduler.lookup_clearInterval_of_none, key]

theorem counting_startGame (rand : Nat → ℚ) (s s0 : State)
    (hok : startGame rand s = Except.ok s0) :
    ∃ h, Counting h s.endGameCalls 10 s0 := by
  obtain ⟨s1, hk, h | h⟩ := startGame_ok_cases rand s s0 hok <;> subst h
  · refine ⟨_, ⟨Scheduler.lookup_setInterval _ _, rfl, ?_, ?_, ?_⟩⟩
    · simp [startTimer, hk.gameState, resetGame]
    · simp [startTimer, hk.gameState, resetGame]
    · simp [startTimer, hk.endGameCalls]
  · refine ⟨_, ⟨Scheduler.lookup_setInterval _ _, rfl, ?_, ?_, ?_⟩⟩
    · simp [startTimer, startMovement, setNewTarget, hk.gameState, resetGame]
    · simp [startTimer, startMovement, setNewTarget, hk.gameState, resetGame]
    · simp [startTimer, startMovement, setNewTarget, hk.endGameCalls]

theorem counting_tick (rand : Nat → ℚ) (h c : Nat) (t : Int) (s : State)
    (hs : Counting h c t s) (ht : 1 < t) :
    Counting h c (t - 1) (fireInterval rand h s) := by
  obtain ⟨h1, h2, h3, h4, h5⟩ := hs
  have hne : ¬ (s.gameState.timeLeft - 1 ≤ 0) := by omega
  simp only [fireInterval, h1, timerTick, hne, if_false]
  exact ⟨h1, h2, by simp [h3], h4, h5⟩

theorem counting_last (rand : Nat → ℚ) (h c : Nat) (s : State)
    (hs : Counting h c 1 s) :
    (fireInterval rand h s).endGameCalls = c + 1 ∧
    (fireInterval rand h s).gameState.timeLeft = 0 ∧
    (fireInterval rand h s).gameState.isPlaying = false ∧
    (fireInterval rand h s).sched.lookup h = none := by
  obtain ⟨h1, h2, h3, h4, h5⟩ := hs
  have hle : s.gameState.timeLeft - 1 ≤ 0 := by omega
  simp only [fireInterval, h1, timerTick, hle, if_true]
  refine ⟨?_, ?_, ?_, ?_⟩
  · simp [endGame_endGameCalls, h5]
  · simp [endGame_gameState, h3]
  · simp [endGame_gameState]
  · exact endGame_lookup_timer h _ h2

theorem counting_iterate (rand : Nat → ℚ) (h c : Nat) (s : State)
    (hs : Counting h c 10 s) (n : Nat) (hn : n < 10) :
    Counting h c (10 - (n : Int)) ((fireInterval rand h)^[n] s) := by
  induction n with
  | zero => simpa using hs
  | succ n ih =>
    rw [Function.iterate_succ_apply']
    have h1 := counting_tick rand h c _ _ (ih (by omega)) (by omega)
    have e : (10 : Int) - (n : Int) - 1 = 10 - ((n + 1 : Nat) : Int) := by push_cast; ring
    rwa [e] at h1

theorem countdown_run (rand : Nat → ℚ) (h c : Nat) (s : State)
    (hc : Counting h c 10 s) :
    (∀ n, n < 10 →
      ((fireInterval rand h)^[n] s).endGameCalls = c ∧
      ((fireInterval rand h)^[n] s).gameState.isPlaying = true) ∧
    ((fireInterval rand h)^[10] s).endGameCalls = c + 1 ∧
    ((fireInterval rand h)^[10] s).gameState.timeLeft = 0 ∧
    ((fireInterval rand h)^[10] s).gameState.isPlaying = false ∧
    ((fireInterval rand h)^[10] s).sched.lookup h = none := by
  have h9 := counting_iterate rand h c s hc 9 (by omega)
  have e : (10 : Int) - ((9 : Nat) : Int) = 1 := by norm_num
  rw [e] at h9
  have e10 : (fireInterval rand h)^[10] s
      = fireInterval rand h ((fireInterval rand h)^[9] s) :=
    Function.iterate_succ_apply' _ 9 s
  rw [e10]
  exact ⟨fun n hn => ⟨(counting_iterate rand h c s hc n hn).calls,
    (counting_iterate rand h c s hc n hn).playing⟩, counting_last rand h c _ h9⟩

end Main

namespace WebXRAR

theorem spawnFrame_refl (s : State) : SpawnFrame s s :=
  ⟨rfl, rfl, rfl, rfl, rfl, rfl, rfl, rfl⟩

theorem spawnFrame_trans {a b c : State} (h1 : SpawnFrame a b) (h2 : SpawnFrame b c) :
    SpawnFrame a c :=
  ⟨h2.1.trans h1.1, h2.2.trans h1.2, h2.3.trans h1.3, h2.4.trans h1.4, h2.5.trans h1.5,
   h2.6.trans h1.6, h2.7.trans h1.7, h2.8.trans h1.8⟩

theorem spawnOne_frame (rand : Nat → ℚ) (s : State) :
    SpawnFrame s (settle (spawnOne rand s)) := by
  simp only [spawnOne, createCat]
  split <;> exact ⟨rfl, rfl, rfl, rfl, rfl, rfl, rfl, rfl⟩

theorem spawnLoop_frame (rand : Nat → ℚ) (n : Nat) (s : State) :
    SpawnFrame s (settle (spawnLoop rand n s)) := by
  induction n generalizing s with
  | zero => exact spawnFrame_refl s
  | succ n ih =>
    have h1 := spawnOne_frame rand s
    simp only [spawnLoop]
    cases hso : spawnOne rand s with
    | error e => rw [hso] at h1; exact h1
    | ok s1 => rw [hso] at h1; exact spawnFrame_trans h1 (ih s1)

theorem spawnCats_frame (rand : Nat → ℚ) (s : State) :
    SpawnFrame s (settle (spawnCats rand s)) := by
  have h := spawnLoop_frame rand (numCats (rand s.randCalls)).toNat
    { s with randCalls := s.randCalls + 1 }
  exact ⟨h.1, h.2, h.3, h.4, h.5, h.6, h.7, h.8⟩

theorem xr_counting_startGame (rand : Nat → ℚ) (s s0 : State)
    (hs : startGame rand s = Except.ok s0) :
    ∃ h, Counting h s.endGameCalls 10 s0 := by
  simp only [startGame] at hs
  split at hs
  · cases hs
  · rename_i s2 hsp
    have hf := spawnCats_frame rand
      { s with
        gameState := { s.gameState with score := 0, timeLeft := 10, isPlaying := true }
        dom := { s.dom with scoreDisplay := "0", timerDisplay := "10"
                            preGameUi := true, gameHud := false }
        reticle := s.reticle.map (fun _ => false) }
    rw [hsp] at hf
    injection hs with hs
    subst hs
    refine ⟨s2.sched.lastHandle + 1, ?_, rfl, ?_, ?_, ?_⟩
    · dsimp only
      rw [Scheduler.lookup_setInterval_of_ne]
      · exact Scheduler.lookup_setInterval _ _
      · simp [Scheduler.setInterval]
    · have h1 := hf.gameState
      simp only [settle] at h1
      simp [h1]
    · have h1 := hf.gameState
      simp only [settle] at h1
      simp [h1]
    · have h1 := hf.endGameCalls
      simp only [settle] at h1
      simp [h1]

theorem xr_endGame_gameState (s : State) :
    (settle (endGame s)).gameState = { s.gameState with isPlaying := false } := by
  simp only [endGame]
  split <;> (try split_ifs) <;> rfl

theorem xr_endGame_endGameCalls (s : State) :
    (settle (endGame s)).endGameCalls = s.endGameCalls + 1 := by
  simp only [endGame]
  split <;> (try split_ifs) <;> rfl

theorem xr_endGame_sched (s : State) :
    (settle (endGame s)).sched =
      (s.sched.clearInterval s.gameState.timerInterval).clearInterval s.spawnInterval := by
  simp only [endGame]
  split <;> (try split_ifs) <;> rfl

theorem xr_counting_tick (rand : Nat → ℚ) (h c : Nat) (t : Int) (s : State)
    (hs : Counting h c t s) (ht : 1 < t) :
    Counting h c (t - 1) (fireInterval rand h s) := by
  obtain ⟨h1, h2, h3, h4, h5⟩ := hs
  have hne : ¬ (s.gameState.timeLeft - 1 ≤ 0) := by omega
  simp only [fireInterval, h1, timerTick, hne, if_false, settle]
  exact ⟨h1, h2, by simp [h3], h4, h5⟩

theorem xr_counting_last (rand : Nat → ℚ) (h c : Nat) (s : State)
    (hs : Counting h c 1 s) :
    (fireInterval rand h s).endGameCalls = c + 1 ∧
    (fireInterval rand h s).gameState.timeLeft = 0 ∧
    (fireInterval rand h s).gameState.isPlaying = false ∧
    (fireInterval rand h s).sched.lookup h = none := by
  obtain ⟨h1, h2, h3, h4, h5⟩ := hs
  have hle : s.gameState.timeLeft - 1 ≤ 0 := by omega
  simp only [fireInterval, h1, timerTick, hle, if_true]
  refine ⟨?_, ?_, ?_, ?_⟩
  · simp [xr_endGame_endGameCalls, h5]
  · simp [xr_endGame_gameState, h3]
  · simp [xr_endGame_gameState]
  · rw [xr_endGame_sched]
    apply Scheduler.lookup_clearInterval_of_none
    simp only [h2]
    exact Scheduler.lookup_clearInterval_self h _

theorem xr_counting_iterate (rand : Nat → ℚ) (h c : Nat) (s : State)
    (hs : Counting h c 10 s) (n : Nat) (hn : n < 10) :
    Counting h c (10 - (n : Int)) ((fireInterval rand h)^[n] s) := by
  induction n with
  | zero => simpa using hs
  | succ n ih =>
    rw [Function.iterate_succ_apply']
    have h1 := xr_counting_tick rand h c _ _ (ih (by omega)) (by omega)
    have e : (10 : Int) - (n : Int) - 1 = 10 - ((n + 1 : Nat) : Int) := by push_cast; ring
    rwa [e] at h1

theorem xr_countdown_run (rand : Nat → ℚ) (h c : Nat) (s : State)
    (hc : Counting h c 10 s) :
    (∀ n, n < 10 →
      ((fireInterval rand h)^[n] s).endGameCalls = c ∧
      ((fireInterval rand h)^[n] s).gameState.isPlaying = true) ∧
    ((fireInterval rand h)^[10] s).endGameCalls = c + 1 ∧
    ((fireInterval rand h)^[10] s).gameState.timeLeft = 0 ∧
    ((fireInterval rand h)^[10] s).gameState.isPlaying = false ∧
    ((fireInterval rand h)^[10] s).sched.lookup h = none := by
  have h9 := xr_counting_iterate rand h c s hc 9 (by omega)
  have e : (10 : Int) - ((9 : Nat) : Int) = 1 := by norm_num
  rw [e] at h9
  have e10 : (fireInterval rand h)^[10] s
      = fireInterval rand h ((fireInterval rand h)^[9] s) :=
    Function.iterate_succ_apply' _ 9 s
  rw [e10]
  exact ⟨fun n hn => ⟨(xr_counting_iterate rand h c s hc n hn).calls,
    (xr_counting_iterate rand h c s hc n hn).playing⟩, xr_counting_last rand h c _ h9⟩

theorem spawnOne_ok (rand : Nat → ℚ) (s : State) (hs : s.scene.isSome = true) :
    ∃ r, spawnOne rand s = Except.ok r ∧ r.scene.isSome = true ∧
      r.cats.length = s.cats.length + 1 := by
  obtain ⟨objs, ho⟩ := Option.isSome_iff_exists.mp hs
  simp only [spawnOne, createCat, ho]
  exact ⟨_, rfl, rfl, by simp⟩

/-- With a scene in place every `createCat` returns. -/
theorem spawnLoop_ok (rand : Nat → ℚ) (n : Nat) (s : State) (hs : s.scene.isSome = true) :
    ∃ r, spawnLoop rand n s = Except.ok r ∧ r.scene.isSome = true ∧
      r.cats.length = s.cats.length + n := by
  induction n generalizing s with
  | zero => exact ⟨s, rfl, hs, rfl⟩
  | succ n ih =>
    obtain ⟨s1, h1, h2, h3⟩ := spawnOne_ok rand s hs
    obtain ⟨r, hr1, hr2, hr3⟩ := ih s1 h2
    refine ⟨r, ?_, hr2, ?_⟩
    · simp only [spawnLoop, h1]
      exact hr1
    · rw [hr3, h3]
      omega

theorem spawnCats_ok (rand : Nat → ℚ) (s : State) (hs : s.scene.isSome = true) :
    ∃ r, spawnCats rand s = Except.ok r ∧ r.scene.isSome = true ∧
      r.cats.length = s.cats.length + (numCats (rand s.randCalls)).toNat :=
  spawnLoop_ok rand _ { s with randCalls := s.randCalls + 1 } hs

theorem startGame_ok (rand : Nat → ℚ) (s : State) (hs : s.scene.isSome = true) :
    startGame rand s = Except.ok (settle (startGame rand s)) := by
  obtain ⟨r, hr, -, -⟩ := spawnCats_ok rand
      { s with
        gameState := { s.gameState with score := 0, timeLeft := 10, isPlaying := true }
        dom := { s.dom with scoreDisplay := "0", timerDisplay := "10"
                            preGameUi := true, gameHud := false }
        reticle := s.reticle.map (fun _ => false) } hs
  simp only [startGame, hr, settle]

end WebXRAR

namespace Main

theorem onclick_playing (s : State) (hs : s.gameState.isPlaying = true) :
    (arCaptureBtnOnclick s).gameState =
      { s.gameState with score := s.gameState.score + 1 } := by
  simp [arCaptureBtnOnclick, hs]

theorem onclick_idle (s : State) (hs : s.gameState.isPlaying = false) :
    arCaptureBtnOnclick s = s := by
  simp [arCaptureBtnOnclick, hs]

theorem onclick_iterate (s : State) (hs : s.gameState.isPlaying = true) (n : Nat) :
    (arCaptureBtnOnclick^[n] s).gameState =
      { s.gameState with score := s.gameState.score + n } := by
  induction n with
  | zero => rfl
  | succ n ih =>
    rw [Function.iterate_succ_apply', onclick_playing _ (by rw [ih]; exact hs), ih]
    simp [Nat.add_assoc]

end Main

namespace WebXRAR

theorem onTap_hit (c : Cat) (rest : List Cat) (s : State) (hs : Ready s) :
    ∃ objs, s.scene = some objs ∧
      onTap (c :: rest) s = Except.ok
        { s with
          scene := some (removeObject c objs)
          cats := removeObject c s.cats
          gameState := { s.gameState with score := s.gameState.score + 1 }
          dom := { s.dom with scoreDisplay := toString (s.gameState.score + 1) } } := by
  obtain ⟨h1, h2, h3, h4⟩ := hs
  obtain ⟨objs, ho⟩ := Option.isSome_iff_exists.mp h4
  exact ⟨objs, ho, by simp [onTap, h1, h2, h3, ho]⟩

theorem onTap_idle (l : List Cat) (s : State) (hs : s.gameState.isPlaying = false) :
    onTap l s = Except.ok s := by
  simp [onTap, hs]

theorem onTap_miss (s : State) : settle (onTap [] s) = s := by
  simp only [onTap]
  split_ifs <;> rfl

theorem run_taps (rand : Nat → ℚ) (taps : List (List Cat)) (s : State) (hs : Ready s)
    (ht : ∀ l ∈ taps, l ≠ []) :
    (run rand (taps.map Op.tap) s).gameState =
      { s.gameState with score := s.gameState.score + taps.length } := by
  induction taps generalizing s with
  | nil => rfl
  | cons l taps ih =>
    obtain ⟨c, rest, rfl⟩ := List.exists_cons_of_ne_nil (ht l (List.mem_cons_self _ _))
    obtain ⟨objs, ho, hok⟩ := onTap_hit c rest s hs
    have hstep : step rand (Op.tap (c :: rest)) s =
        { s with
          scene := some (removeObject c objs)
          cats := removeObject c s.cats
          gameState := { s.gameState with score := s.gameState.score + 1 }
          dom := { s.dom with scoreDisplay := toString (s.gameState.score + 1) } } := by
      simp only [step, hok, settle]
    have hr : Ready (step rand (Op.tap (c :: rest)) s) := by
      rw [hstep]
      exact ⟨hs.playing, hs.renderer, hs.camera, rfl⟩
    have := ih (step rand (Op.tap (c :: rest)) s) hr
      (fun l hl => ht l (List.mem_cons_of_mem _ hl))
    simp only [run, List.map_cons, List.foldl_cons] at this ⊢
    rw [this, hstep]
    simp [Nat.add_assoc, Nat.add_comm 1]

end WebXRAR

namespace WebXRAR

theorem removeObject_cons (c d : Cat) (l : List Cat) :
    removeObject c (d :: l) = if d.ref = c.ref then l else d :: removeObject c l := by
  unfold removeObject
  by_cases h : d.ref = c.ref
  · simp [List.findIdx?_cons, h]
  · simp only [List.findIdx?_cons, beq_iff_eq, h, if_false, List.findIdx?_succ]
    cases List.findIdx? (fun d => d.ref == c.ref) l 0 <;> simp

theorem removeObject_eq_erase (c : Cat) (l : List Cat)
    (hn : (l.map Cat.ref).Nodup) (hc : c ∈ l) : removeObject c l = l.erase c := by
  induction l with
  | nil => cases hc
  | cons d l ih =>
    rw [List.map_cons, List.nodup_cons] at hn
    rw [removeObject_cons, List.erase_cons]
    by_cases h : d.ref = c.ref
    · have hdc : d = c := by
        rcases List.mem_cons.mp hc with e | e
        · exact e.symm
        · exact absurd (h ▸ List.mem_map_of_mem Cat.ref e) hn.1
      simp [hdc]
    · have hdc : d ≠ c := fun e => h (e ▸ rfl)
      have hcl : c ∈ l := by
        rcases List.mem_cons.mp hc with e | e
        · exact absurd e.symm hdc
        · exact e
      simp [h, hdc, ih hn.2 hcl]

theorem nodup_of_nodup_ref (l : List Cat) (hn : (l.map Cat.ref).Nodup) : l.Nodup :=
  List.Nodup.of_map Cat.ref hn

end WebXRAR

/-! ## The hide cycle -/

namespace Main

theorem startHiding_spec (rand : Nat → ℚ) (s : State) (cat : ArCat)
    (hc : s.dom.arCat = some cat) :
    (startHiding rand s).catMovement.isHiding = true ∧
    (startHiding rand s).catMovement.hideTimer = 60 ∧
    (startHiding rand s).catMovement.moveSpeed = 5 / 100 ∧
    (startHiding rand s).catMovement.currentX = s.catMovement.currentX ∧
    (startHiding rand s).catMovement.currentY = s.catMovement.currentY ∧
    (startHiding rand s).gameState = s.gameState ∧
    (startHiding rand s).dom = s.dom := by
  simp only [startHiding, hc]
  split_ifs <;> simp

theorem tick_start (rand : Nat → ℚ) (s : State) (hv : Visible s)
    (hh : s.catMovement.isHiding = false) (hd : rand s.randCalls < 5 / 100) :
    Hiding 59 (updateCatPosition rand s) ∧
    (updateCatPosition rand s).catMovement.currentX = s.catMovement.currentX ∧
    (updateCatPosition rand s).catMovement.currentY = s.catMovement.currentY := by
  obtain ⟨hp, cat, hc, hcv⟩ := hv
  obtain ⟨h1, h2, h3, h4, h5, h6, h7⟩ :=
    startHiding_spec rand { s with randCalls := s.randCalls + 1 } cat hc
  have hm : maybeStartHiding rand s = startHiding rand { s with randCalls := s.randCalls + 1 } := by
    simp [maybeStartHiding, hh, hd]
  have hu : updateCatPosition rand s =
      { startHiding rand { s with randCalls := s.randCalls + 1 } with
        catMovement :=
          { (startHiding rand { s with randCalls := s.randCalls + 1 }).catMovement with
            hideTimer := 59 } } := by
    simp [updateCatPosition, hp, hc, hcv, hm, h1, h2]
  rw [hu]
  refine ⟨⟨⟨?_, cat, ?_, hcv⟩, ?_, rfl, ?_⟩, ?_, ?_⟩
  · simp only [h6]; exact hp
  · simp only [h7]; exact hc
  · exact h1
  · exact h3
  · exact h4
  · exact h5

theorem tick_hidden (rand : Nat → ℚ) (s : State) (k : Int) (hs : Hiding (k + 1) s)
    (hk : 0 < k) : Hiding k (updateCatPosition rand s) := by
  obtain ⟨⟨hp, cat, hc, hcv⟩, hh, ht, hsp⟩ := hs
  have hm : maybeStartHiding rand s = s := by simp [maybeStartHiding, hh]
  have hne : ¬ (s.catMovement.hideTimer - 1 ≤ 0) := by omega
  have hu : updateCatPosition rand s =
      { s with catMovement := { s.catMovement with hideTimer := s.catMovement.hideTimer - 1 } } := by
    simp [updateCatPosition, hp, hc, hcv, hm, hh, hne]
  rw [hu]
  exact ⟨⟨hp, cat, hc, hcv⟩, hh, by simp [ht], hsp⟩

theorem tick_reappear (rand : Nat → ℚ) (s : State) (hs : Hiding 1 s) :
    (updateCatPosition rand s).catMovement.isHiding = false ∧
    (updateCatPosition rand s).catMovement.moveSpeed = 2 / 100 := by
  obtain ⟨⟨hp, cat, hc, hcv⟩, hh, ht, -⟩ := hs
  have hm : maybeStartHiding rand s = s := by simp [maybeStartHiding, hh]
  simp [updateCatPosition, hp, hc, hcv, hm, hh, ht, stopHiding, setNewTarget]

theorem hidden_iterate (rand : Nat → ℚ) (s : State) (hs : Hiding 59 s) (j : Nat)
    (hj : j ≤ 58) : Hiding (59 - (j : Int)) ((updateCatPosition rand)^[j] s) := by
  induction j with
  | zero => simpa using hs
  | succ j ih =>
    rw [Function.iterate_succ_apply']
    have h1 := ih (by omega)
    have e : (59 : Int) - (j : Int) = (59 - ((j + 1 : Nat) : Int)) + 1 := by push_cast; ring
    rw [e] at h1
    exact tick_hidden rand _ _ h1 (by push_cast; omega)

/-- The course of a hide episode that starts in the first of the ticks. -/
theorem hide_cycle_run (rand : Nat → ℚ) (s : State) (hv : Visible s)
    (hh : s.catMovement.isHiding = false) (hd : rand s.randCalls < 5 / 100) :
    (∀ k : Nat, k ≤ 58 →
      ((updateCatPosition rand)^[k + 1] s).catMovement.isHiding = true ∧
      ((updateCatPosition rand)^[k + 1] s).catMovement.hideTimer = 59 - (k : Int) ∧
      ((updateCatPosition rand)^[k + 1] s).catMovement.moveSpeed = 5 / 100) ∧
    ((updateCatPosition rand)^[60] s).catMovement.isHiding = false ∧
    ((updateCatPosition rand)^[60] s).catMovement.moveSpeed = 2 / 100 := by
  have h0 := (tick_start rand s hv hh hd).1
  have hit : ∀ k : Nat, k ≤ 58 →
      Hiding (59 - (k : Int)) ((updateCatPosition rand)^[k + 1] s) := by
    intro k hk
    rw [Function.iterate_succ_apply]
    exact hidden_iterate rand _ h0 k hk
  refine ⟨fun k hk => ⟨(hit k hk).isHiding, (hit k hk).timer, (hit k hk).speed⟩, ?_⟩
  have h58 := hit 58 (le_refl _)
  have e : (59 : Int) - ((58 : Nat) : Int) = 1 := by norm_num
  rw [e] at h58
  have e60 : (updateCatPosition rand)^[60] s
      = updateCatPosition rand ((updateCatPosition rand)^[58 + 1] s) :=
    Function.iterate_succ_apply' _ 59 s
  rw [e60]
  exact tick_reappear rand _ h58

end Main

/-! ## Retargeting -/

/-- The test `Math.sqrt(q) < 2` over the reals is the test `q < 4`. -/
theorem sqrt_lt_two_iff (q : ℚ) : Real.sqrt (q : ℝ) < 2 ↔ q < 4 := by
  rw [Real.sqrt_lt' (by norm_num : (0 : ℝ) < 2)]
  have e : ((2 : ℝ) ^ 2) = ((4 : ℚ) : ℝ) := by norm_num
  rw [e]
  exact Rat.cast_lt

namespace Main

theorem tick_retarget (rand : Nat → ℚ) (s : State) (hv : Visible s)
    (hh : s.catMovement.isHiding = false) (hd : ¬ rand s.randCalls < 5 / 100)
    (hdist : (s.catMovement.targetX - s.catMovement.currentX)
        * (s.catMovement.targetX - s.catMovement.currentX)
      + (s.catMovement.targetY - s.catMovement.currentY)
        * (s.catMovement.targetY - s.catMovement.currentY) < 4) :
    (updateCatPosition rand s).catMovement =
      { s.catMovement with
        targetX := 10 + rand (s.randCalls + 1) * 80
        targetY := 10 + rand (s.randCalls + 2) * 80 } := by
  obtain ⟨hp, cat, hc, hcv⟩ := hv
  have hm : maybeStartHiding rand s = { s with randCalls := s.randCalls + 1 } := by
    simp [maybeStartHiding, hh, hd]
  simp [updateCatPosition, hp, hc, hcv, hm, hh, moveTowardsTarget, hdist, setNewTarget,
    Nat.add_assoc]

end Main

/-! ## Spawning -/

namespace WebXRAR

theorem numCats_cases (r : ℚ) (h0 : 0 ≤ r) (h1 : r < 1) :
    (numCats r).toNat = 1 ∨ (numCats r).toNat = 2 := by
  have hf0 : 0 ≤ ⌊r * 2⌋ := Int.floor_nonneg.mpr (by linarith)
  have hf2 : ⌊r * 2⌋ < 2 := Int.floor_lt.mpr (by push_cast; linarith)
  unfold numCats
  omega

theorem spawnOne_error (rand : Nat → ℚ) (s : State) (hs : s.scene = none) :
    ∃ e, spawnOne rand s = Except.error e := by
  simp [spawnOne, createCat, hs]

theorem spawnLoop_error (rand : Nat → ℚ) (n : Nat) (s : State) (hs : s.scene = none) :
    ∃ e, spawnLoop rand (n + 1) s = Except.error e := by
  obtain ⟨e, he⟩ := spawnOne_error rand s hs
  exact ⟨e, by simp [spawnLoop, he]⟩

/-- What a normal return of `spawnCats` tells, for draws in [0, 1). -/
theorem spawnCats_spec (rand : Nat → ℚ) (hr : ∀ i, 0 ≤ rand i ∧ rand i < 1)
    (z r : State) (h : spawnCats rand z = Except.ok r) :
    z.scene.isSome = true ∧ r.scene.isSome = true ∧
    (r.cats.length = z.cats.length + 1 ∨ r.cats.length = z.cats.length + 2) := by
  have hn := numCats_cases (rand z.randCalls) (hr _).1 (hr _).2
  have hz : z.scene.isSome = true := by
    cases hsc : z.scene with
    | some objs => rfl
    | none =>
      exfalso
      have hpos : ∃ m, (numCats (rand z.randCalls)).toNat = m + 1 := by
        rcases hn with e | e
        · exact ⟨0, e⟩
        · exact ⟨1, e⟩
      obtain ⟨m, hm⟩ := hpos
      obtain ⟨e, he⟩ := spawnLoop_error rand m { z with randCalls := z.randCalls + 1 } hsc
      simp only [spawnCats, hm, he] at h
      cases h
  obtain ⟨r1, h1, h2, h3⟩ := spawnCats_ok rand z hz
  rw [h] at h1
  injection h1 with h1
  subst h1
  refine ⟨hz, h2, ?_⟩
  rcases hn with e | e <;> rw [e] at h3
  · exact Or.inl h3
  · exact Or.inr h3

theorem spawn_fire (rand : Nat → ℚ) (hr : ∀ i, 0 ≤ rand i ∧ rand i < 1) (h : Nat)
    (s : State) (hs : Spawning h s) :
    Spawning h (fireInterval rand h s) ∧
    ((fireInterval rand h s).cats.length = s.cats.length + 1 ∨
     (fireInterval rand h s).cats.length = s.cats.length + 2) := by
  obtain ⟨h1, h2, h3⟩ := hs
  obtain ⟨r, hok, -, -⟩ := spawnCats_ok rand s h3
  have hsp := spawnCats_spec rand hr s r hok
  have hf := spawnCats_frame rand s
  have e : fireInterval rand h s = r := by
    simp [fireInterval, h1, spawnTick, h2, hok, settle]
  rw [hok] at hf
  simp only [settle] at hf
  rw [e]
  exact ⟨⟨by rw [hf.sched]; exact h1, by rw [hf.gameState]; exact h2, hsp.2.1⟩, hsp.2.2⟩

theorem spawn_start (rand : Nat → ℚ) (hr : ∀ i, 0 ≤ rand i ∧ rand i < 1)
    (s s0 : State) (hs : startGame rand s = Except.ok s0) :
    ∃ h, s0.spawnInterval = some h ∧ Spawning h s0 ∧
      (s0.cats.length = s.cats.length + 1 ∨ s0.cats.length = s.cats.length + 2) := by
  simp only [startGame] at hs
  split at hs
  · cases hs
  · rename_i s2 hsp
    have hf := spawnCats_frame rand
      { s with
        gameState := { s.gameState with score := 0, timeLeft := 10, isPlaying := true }
        dom := { s.dom with scoreDisplay := "0", timerDisplay := "10"
                            preGameUi := true, gameHud := false }
        reticle := s.reticle.map (fun _ => false) }
    have hspec := spawnCats_spec rand hr _ _ hsp
    rw [hsp] at hf
    simp only [settle] at hf
    injection hs with hs
    subst hs
    refine ⟨_, rfl, ⟨Scheduler.lookup_setInterval _ _, ?_, hspec.2.1⟩, hspec.2.2⟩
    have h1 := hf.gameState
    simp [h1]

end WebXRAR

/-! ## What a movement tick leaves alone -/

namespace Main

theorem moveFrame_refl (s : State) : MoveFrame s s :=
  ⟨rfl, rfl, rfl, rfl, rfl, rfl, rfl⟩

theorem moveFrame_trans {a b c : State} (h1 : MoveFrame a b) (h2 : MoveFrame b c) :
    MoveFrame a c :=
  ⟨h2.1.trans h1.1, h2.2.trans h1.2, h2.3.trans h1.3, h2.4.trans h1.4, h2.5.trans h1.5,
   by rw [h2.6, h1.6], h2.7.trans h1.7⟩

theorem setNewTarget_frame (rand : Nat → ℚ) (s : State) :
    MoveFrame s (setNewTarget rand s) :=
  ⟨rfl, rfl, rfl, rfl, rfl, rfl, rfl⟩

theorem startHiding_frame (rand : Nat → ℚ) (s : State) :
    MoveFrame s (startHiding rand s) := by
  simp only [startHiding]
  split
  · exact moveFrame_refl s
  · split_ifs <;> exact ⟨rfl, rfl, rfl, rfl, rfl, rfl, rfl⟩

theorem stopHiding_frame (rand : Nat → ℚ) (s : State) :
    MoveFrame s (stopHiding rand s) :=
  ⟨rfl, rfl, rfl, rfl, rfl, rfl, rfl⟩

theorem startHiding_dom (rand : Nat → ℚ) (s : State) : (startHiding rand s).dom = s.dom := by
  simp only [startHiding]
  split
  · rfl
  · split_ifs <;> rfl

theorem maybeStartHiding_dom (rand : Nat → ℚ) (s : State) :
    (maybeStartHiding rand s).dom = s.dom := by
  simp only [maybeStartHiding]
  split_ifs
  · rfl
  · rw [startHiding_dom]
  · rfl

theorem maybeStartHiding_frame (rand : Nat → ℚ) (s : State) :
    MoveFrame s (maybeStartHiding rand s) := by
  simp only [maybeStartHiding]
  split_ifs
  · exact moveFrame_refl s
  · have h := startHiding_frame rand { s with randCalls := s.randCalls + 1 }
    exact ⟨h.1, h.2, h.3, h.4, h.5, h.6, h.7⟩
  · exact ⟨rfl, rfl, rfl, rfl, rfl, rfl, rfl⟩

theorem moveTowardsTarget_frame (rand : Nat → ℚ) (cat : ArCat) (s : State)
    (hc : s.dom.arCat = some cat) : MoveFrame s (moveTowardsTarget rand cat s) := by
  simp only [moveTowardsTarget]
  split_ifs <;> exact ⟨rfl, rfl, rfl, rfl, rfl, rfl, by simp [hc]⟩

theorem updateCatPosition_frame (rand : Nat → ℚ) (s : State) :
    MoveFrame s (updateCatPosition rand s) := by
  unfold updateCatPosition
  by_cases hp : s.gameState.isPlaying = true
  · simp only [hp, Bool.not_true, Bool.false_eq_true, if_false]
    cases hc : s.dom.arCat with
    | none => exact moveFrame_refl s
    | some cat =>
      dsimp only
      by_cases hh : cat.hidden = true
      · rw [if_pos hh]
        exact moveFrame_refl s
      · rw [if_neg hh]
        have hm := maybeStartHiding_frame rand s
        by_cases hi : (maybeStartHiding rand s).catMovement.isHiding = true
        · rw [if_pos hi]
          by_cases ht : (maybeStartHiding rand s).catMovement.hideTimer - 1 ≤ 0
          · rw [if_pos ht]
            exact moveFrame_trans hm ⟨rfl, rfl, rfl, rfl, rfl, rfl, rfl⟩
          · rw [if_neg ht]
            exact moveFrame_trans hm ⟨rfl, rfl, rfl, rfl, rfl, rfl, rfl⟩
        · rw [if_neg hi]
          exact moveFrame_trans hm (moveTowardsTarget_frame rand cat _
            (by rw [maybeStartHiding_dom]; exact hc))
  · have hp2 : s.gameState.isPlaying = false := by simpa using hp
    simp only [hp2, Bool.not_false, if_true]
    exact moveFrame_refl s

end Main

/-! ## A whole session of the screen-space game -/

namespace Main

theorem startMovement_intervals (rand : Nat → ℚ) (s : State)
    (hs : s.sched.intervals = []) :
    (startMovement rand s).sched.intervals = [(s.sched.lastHandle + 1, Callback.movement)] ∧
    (startMovement rand s).movementInterval = some (s.sched.lastHandle + 1) := by
  simp [startMovement, setNewTarget, Scheduler.setInterval, hs]

/-- The intervals after `startTimer`, begun with none or with the movement
loop alone. -/
theorem startTimer_owned (x : State)
    (hx : x.sched.intervals = [] ∨
      ∃ m, m ≠ 0 ∧ x.sched.intervals = [(m, Callback.movement)] ∧
        x.movementInterval = some m) :
    ∀ e ∈ (startTimer x).sched.intervals,
      e = (x.sched.lastHandle + 1, Callback.countdown) ∨
      (e.2 = Callback.movement ∧ (startTimer x).movementInterval = some e.1 ∧ e.1 ≠ 0) := by
  intro e he
  simp only [startTimer, Scheduler.setInterval, List.mem_cons] at he
  rcases he with he | he
  · exact Or.inl he
  · right
    have he2 := List.mem_of_mem_filter he
    rcases hx with h0 | ⟨m, hm0, hm1, hm2⟩
    · rw [h0] at he2; cases he2
    · rw [hm1, List.mem_singleton] at he2
      rw [he2]
      exact ⟨rfl, hm2, hm0⟩

theorem startGame_ok_intervals (rand : Nat → ℚ) (s s0 : State)
    (hok : startGame rand s = Except.ok s0) (hclean : s.sched.intervals = []) :
    ∃ x, s0 = startTimer x ∧ x.gameState = (resetGame s).gameState ∧
      (x.sched.intervals = [] ∨
        ∃ m, m ≠ 0 ∧ x.sched.intervals = [(m, Callback.movement)] ∧
          x.movementInterval = some m) := by
  obtain ⟨s1, hk, h | h⟩ := startGame_ok_cases rand s s0 hok
  · exact ⟨s1, h, hk.gameState, Or.inl (by rw [hk.sched]; exact hclean)⟩
  · have hi := startMovement_intervals rand s1 (by rw [hk.sched]; exact hclean)
    exact ⟨_, h, by simp [startMovement, setNewTarget, hk.gameState],
      Or.inr ⟨_, Nat.succ_ne_zero _, hi.1, hi.2⟩⟩

theorem inSession_startGame (rand : Nat → ℚ) (s s0 : State)
    (hok : startGame rand s = Except.ok s0) (hs : s.sched.intervals = []) :
    ∃ h, InSession h 0 0 s0 := by
  obtain ⟨x, hx0, hg, hx⟩ := startGame_ok_intervals rand s s0 hok hs
  subst hx0
  refine ⟨x.sched.lastHandle + 1, Scheduler.lookup_setInterval _ _, rfl, ?_, ?_, ?_, ?_⟩
  · simp [startTimer, hg, resetGame]
  · simp [startTimer, hg, resetGame]
  · simp [startTimer, hg, resetGame]
  · intro e he
    rcases startTimer_owned x hx e he with h1 | ⟨-, h2, h3⟩
    · left; rw [h1]
    · exact Or.inr ⟨h2, h3⟩

theorem inSession_tick (rand : Nat → ℚ) (h t c : Nat) (s : State)
    (hs : InSession h t c s) (ht : t < 9) :
    InSession h (t + 1) c (fireInterval rand h s) := by
  obtain ⟨h1, h2, h3, h4, h5, h6⟩ := hs
  have hne : ¬ (s.gameState.timeLeft - 1 ≤ 0) := by omega
  simp only [fireInterval, h1, timerTick, hne, if_false]
  exact ⟨h1, h2, by simp only [h3]; push_cast; ring, h4, h5, h6⟩

theorem inSession_catch (h t c : Nat) (s : State) (hs : InSession h t c s) :
    InSession h t (c + 1) (arCaptureBtnOnclick s) := by
  obtain ⟨h1, h2, h3, h4, h5, h6⟩ := hs
  simp only [arCaptureBtnOnclick, h4, Bool.not_true, Bool.false_eq_true, if_false]
  exact ⟨h1, h2, h3, rfl, by simp [h5], h6⟩

theorem inSession_move (rand : Nat → ℚ) (h t c : Nat) (s : State)
    (hs : InSession h t c s) : InSession h t c (updateCatPosition rand s) := by
  obtain ⟨h1, h2, h3, h4, h5, h6⟩ := hs
  have hf := updateCatPosition_frame rand s
  exact ⟨by rw [hf.sched]; exact h1, by rw [hf.gameState]; exact h2,
    by rw [hf.gameState]; exact h3, by rw [hf.gameState]; exact h4,
    by rw [hf.gameState]; exact h5,
    by rw [hf.sched, hf.movementInterval]; exact h6⟩

theorem inSession_run (rand : Nat → ℚ) (h : Nat) (es : List SessionEvent) :
    ∀ (t c : Nat) (s : State), InSession h t c s →
      t + es.count SessionEvent.tick ≤ 9 →
      InSession h (t + es.count SessionEvent.tick) (c + es.count SessionEvent.catch)
        (sessionRun rand h es s) := by
  induction es with
  | nil => intro t c s hs _; simpa [sessionRun] using hs
  | cons e es ih =>
    intro t c s hs ht
    cases e with
    | tick =>
      simp only [List.count_cons_self] at ht
      have h1 := inSession_tick rand h t c s hs (by omega)
      have h2 := ih (t + 1) c _ h1 (by omega)
      simp only [sessionRun, List.foldl_cons, sessionStep] at h2 ⊢
      have e1 : t + (List.count SessionEvent.tick es + 1)
          = t + 1 + List.count SessionEvent.tick es := by omega
      simpa [e1] using h2
    | «catch» =>
      have hne : List.count SessionEvent.tick (SessionEvent.catch :: es)
          = List.count SessionEvent.tick es := by simp
      rw [hne] at ht ⊢
      have h1 := inSession_catch h t c s hs
      have h2 := ih t (c + 1) _ h1 ht
      simp only [sessionRun, List.foldl_cons, sessionStep] at h2 ⊢
      have e1 : c + (List.count SessionEvent.catch es + 1)
          = c + 1 + List.count SessionEvent.catch es := by omega
      simpa [e1] using h2
    | move =>
      have hne : List.count SessionEvent.tick (SessionEvent.move :: es)
          = List.count SessionEvent.tick es := by simp
      have hnc : List.count SessionEvent.catch (SessionEvent.move :: es)
          = List.count SessionEvent.catch es := by simp
      rw [hne] at ht ⊢
      rw [hnc]
      have h1 := inSession_move rand h t c s hs
      have h2 := ih t c _ h1 ht
      simpa only [sessionRun, List.foldl_cons, sessionStep] using h2

theorem stop3DCat_intervals (s : State) :
    ∀ e ∈ (stop3DCat s).sched.intervals,
      e ∈ s.sched.intervals ∧ (∀ m, s.movementInterval = some m → m ≠ 0 → e.1 ≠ m) := by
  intro e he
  simp only [stop3DCat] at he
  by_cases hm : truthy s.movementInterval = true
  · obtain ⟨m, hsm⟩ : ∃ m, s.movementInterval = some m := by
      cases hmi : s.movementInterval with
      | none => rw [hmi] at hm; cases hm
      | some m => exact ⟨m, rfl⟩
    have he2 : e ∈ s.sched.intervals.filter (fun x => x.1 != m) := by
      split_ifs at he <;>
        simpa [Scheduler.clearInterval, Scheduler.cancelAnimationFrame_intervals, hsm] using he
    rw [List.mem_filter] at he2
    refine ⟨he2.1, fun m2 hm2 _ => ?_⟩
    rw [hsm] at hm2
    injection hm2 with hm2
    subst hm2
    simpa using he2.2
  · have he2 : e ∈ s.sched.intervals := by
      split_ifs at he <;> first
        | exact he
        | simpa [Scheduler.cancelAnimationFrame_intervals] using he
    refine ⟨he2, fun m hsm hm0 => ?_⟩
    exfalso
    apply hm
    simp [truthy, hsm, hm0]

theorem stop3DCat_movementInterval (s : State) :
    (stop3DCat s).movementInterval = s.movementInterval := by
  simp only [stop3DCat]
  split_ifs <;> rfl

/-- The state `endGame` hands to `stop3DCat`. -/
theorem endGame_intervals (s : State) :
    ∀ e ∈ (endGame s).sched.intervals,
      e ∈ s.sched.intervals ∧ (∀ h, s.gameState.timerInterval = some h → e.1 ≠ h) ∧
      (∀ m, s.movementInterval = some m → m ≠ 0 → e.1 ≠ m) := by
  intro e he
  simp only [endGame] at he
  have h1 := stop3DCat_intervals _ e he
  obtain ⟨ha, hb⟩ := h1
  have hmi : ∀ m, s.movementInterval = some m → m ≠ 0 → e.1 ≠ m := by
    intro m hm hm0
    apply hb m _ hm0
    split_ifs <;> split <;> exact hm
  have hmem : e ∈ (s.sched.clearInterval s.gameState.timerInterval).intervals := by
    split_ifs at ha <;> split at ha <;> first
      | exact ha
      | (cases hsp : s.gameState.spawnInterval <;>
          simp [Scheduler.clearInterval, hsp] at ha ⊢ <;> first | exact ha | exact ha.1)
  refine ⟨?_, ?_, hmi⟩
  · cases ht : s.gameState.timerInterval with
    | none => rw [ht] at hmem; exact hmem
    | some h => rw [ht] at hmem; exact List.mem_of_mem_filter hmem
  · intro h ht
    rw [ht] at hmem
    simp only [Scheduler.clearInterval, List.mem_filter] at hmem
    simpa using hmem.2

theorem endGame_dom (s : State) :
    (endGame s).dom.finalScoreDisplay = toString s.gameState.score ∧
    (endGame s).dom.gameScreen = true ∧ (endGame s).dom.resultScreen = false := by
  simp only [endGame, stop3DCat_gameState]
  split_ifs <;> split <;> simp

theorem inSession_last (rand : Nat → ℚ) (h c : Nat) (s : State)
    (hs : InSession h 9 c s) :
    (fireInterval rand h s).dom.finalScoreDisplay = toString c ∧
    (fireInterval rand h s).dom.resultScreen = false ∧
    (fireInterval rand h s).dom.gameScreen = true ∧
    (fireInterval rand h s).gameState.isPlaying = false ∧
    (fireInterval rand h s).gameState.timeLeft = 0 ∧
    (fireInterval rand h s).sched.intervals = [] := by
  obtain ⟨h1, h2, h3, h4, h5, h6⟩ := hs
  have hle : s.gameState.timeLeft - 1 ≤ 0 := by rw [h3]; norm_num
  simp only [fireInterval, h1, timerTick, hle, if_true]
  obtain ⟨d1, d2, d3⟩ := endGame_dom
    { s with gameState := { s.gameState with timeLeft := s.gameState.timeLeft - 1 }
             dom := { s.dom with timerDisplay := toString (s.gameState.timeLeft - 1) } }
  refine ⟨by rw [d1]; simp [h5], d3, d2, by simp [endGame_gameState],
    by simp [endGame_gameState, h3], ?_⟩
  rw [List.eq_nil_iff_forall_not_mem]
  intro e he
  obtain ⟨ha, hb, hc⟩ := endGame_intervals _ e he
  rcases h6 e ha with h7 | ⟨h7, h8⟩
  · exact hb h h2 h7
  · exact hc e.1 h7 h8 rfl

end Main

/-! ## One timer of each kind -/

namespace Main

theorem singleTimer_of_nil (s : State) (h : s.sched.intervals = []) : SingleTimer s := by
  refine ⟨fun _ => h, ?_, ?_, ?_, ?_, ?_⟩ <;> simp [h]

theorem singleTimer_of_sublist (s r : State) (hs : SingleTimer s)
    (hsub : r.sched.intervals.Sublist s.sched.intervals)
    (hp : r.gameState.isPlaying = s.gameState.isPlaying)
    (ht : r.gameState.timerInterval = s.gameState.timerInterval)
    (hm : r.movementInterval = s.movementInterval) : SingleTimer r := by
  obtain ⟨h1, h2, h3, h4, h5, h6⟩ := hs
  refine ⟨fun hi => ?_, fun e he => h2 e (hsub.subset he),
    fun e he hk => by rw [ht]; exact h3 e (hsub.subset he) hk,
    fun e he hk => by rw [hm]; exact h4 e (hsub.subset he) hk,
    le_trans (hsub.countP_le _) h5, le_trans (hsub.countP_le _) h6⟩
  rw [hp] at hi
  have := h1 hi
  rw [this] at hsub
  exact List.eq_nil_of_sublist_nil hsub

theorem stop3DCat_sublist (s : State) :
    (stop3DCat s).sched.intervals.Sublist s.sched.intervals := by
  simp only [stop3DCat]
  split_ifs
  · exact (Scheduler.clearInterval_sublist _ _).trans
      (by rw [Scheduler.cancelAnimationFrame_intervals])
  · rw [Scheduler.cancelAnimationFrame_intervals]
  · exact Scheduler.clearInterval_sublist _ _
  · exact List.Sublist.refl _

theorem endGame_nil (s : State) (hs : SingleTimer s) : (endGame s).sched.intervals = [] := by
  rw [List.eq_nil_iff_forall_not_mem]
  intro e he
  obtain ⟨ha, hb, hc⟩ := endGame_intervals s e he
  cases hk : e.2 with
  | countdown => exact hb e.1 (hs.countdown e ha hk) rfl
  | movement => exact hc e.1 (hs.movement e ha hk) (hs.nonzero e ha) rfl

theorem singleTimer_startTimer (x : State) (hp : x.gameState.isPlaying = true)
    (hx : x.sched.intervals = [] ∨
      ∃ m, m ≠ 0 ∧ x.sched.intervals = [(m, Callback.movement)] ∧
        x.movementInterval = some m) : SingleTimer (startTimer x) := by
  have hown := startTimer_owned x hx
  refine ⟨fun h => ?_, ?_, ?_, ?_, ?_, ?_⟩
  · simp [startTimer, hp] at h
  · intro e he
    rcases hown e he with h1 | ⟨-, -, h3⟩
    · rw [h1]; exact Nat.succ_ne_zero _
    · exact h3
  · intro e he hk
    rcases hown e he with h1 | ⟨h2, -, -⟩
    · rw [h1]; rfl
    · rw [h2] at hk; cases hk
  · intro e he hk
    rcases hown e he with h1 | ⟨-, h2, -⟩
    · rw [h1] at hk; cases hk
    · exact h2
  · rcases hx with h0 | ⟨m, -, hm1, -⟩
    · simp [startTimer, Scheduler.setInterval, h0]
    · by_cases hm : m = x.sched.lastHandle + 1 <;>
        simp [startTimer, Scheduler.setInterval, hm1, List.filter_cons, hm]
  · rcases hx with h0 | ⟨m, -, hm1, -⟩
    · simp [startTimer, Scheduler.setInterval, h0]
    · by_cases hm : m = x.sched.lastHandle + 1 <;>
        simp [startTimer, Scheduler.setInterval, hm1, List.filter_cons, hm]

theorem singleTimer_startGame (rand : Nat → ℚ) (s : State) (hs : SingleTimer s)
    (hi : s.gameState.isPlaying = false) : SingleTimer (settle (startGame rand s)) := by
  have hnil := hs.idle hi
  obtain ⟨s1, hk, h | h | h⟩ := startGame_cases rand s <;> rw [h] <;> simp only [settle]
  · exact singleTimer_of_nil _ (by rw [hk.sched]; exact hnil)
  · exact singleTimer_startTimer s1 (by simp [hk.gameState, resetGame])
      (Or.inl (by rw [hk.sched]; exact hnil))
  · have hi2 := startMovement_intervals rand s1 (by rw [hk.sched]; exact hnil)
    exact singleTimer_startTimer _
      (by simp [startMovement, setNewTarget, hk.gameState, resetGame])
      (Or.inr ⟨_, Nat.succ_ne_zero _, hi2.1, hi2.2⟩)

theorem shrinks_refl (s : State) : Shrinks s s :=
  ⟨List.Sublist.refl _, rfl, rfl, rfl⟩

theorem singleTimer_of_shrinks (s r : State) (hs : SingleTimer s) (h : Shrinks s r) :
    SingleTimer r :=
  singleTimer_of_sublist s r hs h.sub h.playing h.timer h.movement

theorem shrinks_startArClick (c : CameraOutcome) (s : State) :
    Shrinks s (startArClick c s) := by
  cases c with
  | denied => exact shrinks_refl s
  | granted n playOk => cases playOk <;> exact ⟨List.Sublist.refl _, rfl, rfl, rfl⟩

theorem shrinks_backToTopClick (s : State) : Shrinks s (backToTopClick s) := by
  simp only [backToTopClick]
  exact ⟨stop3DCat_sublist _, by rw [stop3DCat_gameState],
    by rw [stop3DCat_gameState], by rw [stop3DCat_movementInterval]⟩

theorem shrinks_onclick (s : State) : Shrinks s (arCaptureBtnOnclick s) := by
  simp only [arCaptureBtnOnclick]
  split_ifs
  · exact shrinks_refl s
  · rename_i hp
    exact ⟨List.Sublist.refl _, rfl, rfl, rfl⟩

theorem shrinks_captureClick (s : State) : Shrinks s (captureClick s) := by
  simp only [captureClick]
  split
  · exact shrinks_refl s
  · split_ifs
    · exact shrinks_onclick s
    · exact shrinks_refl s

theorem shrinks_fireTimeout (h : Nat) (s : State) : Shrinks s (fireTimeout h s) := by
  simp only [fireTimeout]
  split_ifs
  · exact ⟨List.Sublist.refl _, rfl, rfl, rfl⟩
  · exact shrinks_refl s

theorem shrinks_fireFrame (h : Nat) (s : State) : Shrinks s (fireFrame h s) := by
  simp only [fireFrame]
  split_ifs
  · exact ⟨List.Sublist.refl _, rfl, rfl, rfl⟩
  · exact shrinks_refl s

theorem shrinks_stlLoaded (ok : Bool) (s : State) : Shrinks s (stlLoaded ok s) := by
  simp only [stlLoaded]
  split_ifs
  · exact shrinks_refl s
  · exact ⟨List.Sublist.refl _, rfl, rfl, rfl⟩
  · exact ⟨List.Sublist.refl _, rfl, rfl, rfl⟩

theorem shrinks_updateCatPosition (rand : Nat → ℚ) (s : State) :
    Shrinks s (updateCatPosition rand s) := by
  have hf := updateCatPosition_frame rand s
  exact ⟨by rw [hf.sched], by rw [hf.gameState], by rw [hf.gameState], hf.movementInterval⟩

theorem singleTimer_timerTick (s : State) (hs : SingleTimer s) :
    SingleTimer (timerTick s) := by
  simp only [timerTick]
  have h1 : SingleTimer
      { s with gameState := { s.gameState with timeLeft := s.gameState.timeLeft - 1 }
               dom := { s.dom with timerDisplay := toString (s.gameState.timeLeft - 1) } } :=
    singleTimer_of_shrinks s _ hs ⟨List.Sublist.refl _, rfl, rfl, rfl⟩
  split_ifs
  · exact singleTimer_of_nil _ (endGame_nil _ h1)
  · exact h1

theorem singleTimer_fireInterval (rand : Nat → ℚ) (h : Nat) (s : State)
    (hs : SingleTimer s) : SingleTimer (fireInterval rand h s) := by
  simp only [fireInterval]
  split
  · exact hs
  · exact singleTimer_timerTick s hs
  · exact singleTimer_of_shrinks s _ hs (shrinks_updateCatPosition rand s)

theorem singleTimer_step (rand : Nat → ℚ) (o : Op) (s : State) (hs : SingleTimer s)
    (hg : o = Op.startGameClick → s.gameState.isPlaying = false) :
    SingleTimer (step rand o s) := by
  cases o with
  | startArClick c => exact singleTimer_of_shrinks s _ hs (shrinks_startArClick c s)
  | startGameClick => exact singleTimer_startGame rand s hs (hg rfl)
  | playAgainClick => exact singleTimer_of_shrinks s _ hs ⟨List.Sublist.refl _, rfl, rfl, rfl⟩
  | backToTopClick => exact singleTimer_of_shrinks s _ hs (shrinks_backToTopClick s)
  | captureClick => exact singleTimer_of_shrinks s _ hs (shrinks_captureClick s)
  | interval h => exact singleTimer_fireInterval rand h s hs
  | timeout h => exact singleTimer_of_shrinks s _ hs (shrinks_fireTimeout h s)
  | frame h => exact singleTimer_of_shrinks s _ hs (shrinks_fireFrame h s)
  | stlLoaded ok => exact singleTimer_of_shrinks s _ hs (shrinks_stlLoaded ok s)
  | endGame => exact singleTimer_of_nil _ (endGame_nil s hs)

theorem singleTimer_run (rand : Nat → ℚ) (ops : List Op) :
    ∀ s : State, SingleTimer s → StartsWhenIdle rand ops s → SingleTimer (run rand ops s) := by
  induction ops with
  | nil => intro s hs _; exact hs
  | cons o ops ih =>
    intro s hs hg
    obtain ⟨hg1, hg2⟩ := hg
    exact ih _ (singleTimer_step rand o s hs hg1) hg2

/-- The reading of `SingleTimer` through `lookup`. -/
theorem singleTimer_lookup (s : State) (hs : SingleTimer s) :
    (∀ h, s.sched.lookup h = some Callback.countdown → s.gameState.timerInterval = some h) ∧
    (∀ h, s.sched.lookup h = some Callback.movement → s.movementInterval = some h) ∧
    (∀ h1 h2, s.sched.lookup h1 = some Callback.countdown →
      s.sched.lookup h2 = some Callback.countdown → h1 = h2) ∧
    (∀ h1 h2, s.sched.lookup h1 = some Callback.movement →
      s.sched.lookup h2 = some Callback.movement → h1 = h2) ∧
    s.sched.intervals.countP (fun e => e.2 == Callback.countdown) ≤ 1 ∧
    s.sched.intervals.countP (fun e => e.2 == Callback.movement) ≤ 1 := by
  have hc : ∀ h, s.sched.lookup h = some Callback.countdown →
      s.gameState.timerInterval = some h :=
    fun h hl => hs.countdown _ (Scheduler.mem_of_lookup h _ _ hl) rfl
  have hm : ∀ h, s.sched.lookup h = some Callback.movement →
      s.movementInterval = some h :=
    fun h hl => hs.movement _ (Scheduler.mem_of_lookup h _ _ hl) rfl
  refine ⟨hc, hm, fun h1 h2 e1 e2 => ?_, fun h1 h2 e1 e2 => ?_,
    hs.oneCountdown, hs.oneMovement⟩
  · exact Option.some.inj ((hc h1 e1).symm.trans (hc h2 e2))
  · exact Option.some.inj ((hm h1 e1).symm.trans (hm h2 e2))

end Main

namespace WebXRAR

theorem xr_shrinks_refl (s : State) : Shrinks s s :=
  ⟨List.Sublist.refl _, rfl, rfl, rfl⟩

theorem xr_singleTimer_of_nil (s : State) (h : s.sched.intervals = []) : SingleTimer s := by
  refine ⟨fun _ => h, ?_, ?_, ?_, ?_⟩ <;> simp [h]

theorem xr_singleTimer_of_shrinks (s r : State) (hs : SingleTimer s) (h : Shrinks s r) :
    SingleTimer r := by
  obtain ⟨h1, h3, h4, h5, h6⟩ := hs
  obtain ⟨hsub, hp, ht, hm⟩ := h
  refine ⟨fun hi => ?_,
    fun e he hk => by rw [ht]; exact h3 e (hsub.subset he) hk,
    fun e he hk => by rw [hm]; exact h4 e (hsub.subset he) hk,
    le_trans (hsub.countP_le _) h5, le_trans (hsub.countP_le _) h6⟩
  rw [hp] at hi
  have := h1 hi
  rw [this] at hsub
  exact List.eq_nil_of_sublist_nil hsub

theorem xr_endGame_nil (s : State) (hs : SingleTimer s) :
    (settle (endGame s)).sched.intervals = [] := by
  rw [xr_endGame_sched, List.eq_nil_iff_forall_not_mem]
  intro e he
  have h1 := (Scheduler.clearInterval_sublist _ _).subset he
  have h2 := (Scheduler.clearInterval_sublist _ _).subset h1
  cases hk : e.2 with
  | countdown =>
    have h3 := hs.countdown e h2 hk
    rw [h3] at h1
    simp [Scheduler.clearInterval] at h1
  | spawn =>
    have h3 := hs.spawn e h2 hk
    rw [h3] at he
    simp [Scheduler.clearInterval] at he

theorem xr_singleTimer_startGame (rand : Nat → ℚ) (s : State) (hs : SingleTimer s)
    (hi : s.gameState.isPlaying = false) : SingleTimer (settle (startGame rand s)) := by
  have hnil := hs.idle hi
  have hf := spawnCats_frame rand
      { s with
        gameState := { s.gameState with score := 0, timeLeft := 10, isPlaying := true }
        dom := { s.dom with scoreDisplay := "0", timerDisplay := "10"
                            preGameUi := true, gameHud := false }
        reticle := s.reticle.map (fun _ => false) }
  simp only [startGame]
  split
  · rename_i e he
    rw [he] at hf
    apply xr_singleTimer_of_nil
    have h1 := hf.sched
    simp only [settle] at h1 ⊢
    rw [h1]
    exact hnil
  · rename_i s2 he
    rw [he] at hf
    have h1 := hf.sched
    have h2 := hf.gameState
    simp only [settle] at h1 h2 ⊢
    have hint : s2.sched.intervals = [] := by rw [h1]; exact hnil
    refine ⟨fun h => ?_, ?_, ?_, ?_, ?_⟩
    · simp [h2] at h
    · intro e he2 hk
      simp [Scheduler.setInterval, hint, List.filter_cons] at he2
      rcases he2 with h3 | h3 <;> rw [h3] at hk
      · cases hk
      · simp [Scheduler.setInterval, h3]
    · intro e he2 hk
      simp [Scheduler.setInterval, hint, List.filter_cons] at he2
      rcases he2 with h3 | h3 <;> rw [h3] at hk
      · simp [Scheduler.setInterval, h3]
      · cases hk
    · simp [Scheduler.setInterval, hint, List.filter_cons]
    · simp [Scheduler.setInterval, hint, List.filter_cons]

theorem xr_shrinks_onTap (l : List Cat) (s : State) : Shrinks s (settle (onTap l s)) := by
  simp only [onTap]
  split_ifs
  · exact xr_shrinks_refl s
  · exact xr_shrinks_refl s
  · exact xr_shrinks_refl s
  · split
    · exact xr_shrinks_refl s
    · split
      · exact xr_shrinks_refl s
      · exact ⟨List.Sublist.refl _, rfl, rfl, rfl⟩

theorem xr_shrinks_spawnTick (rand : Nat → ℚ) (s : State) :
    Shrinks s (settle (spawnTick rand s)) := by
  simp only [spawnTick]
  split_ifs
  · have hf := spawnCats_frame rand s
    exact ⟨by rw [hf.sched], by rw [hf.gameState], by rw [hf.gameState], hf.spawnInterval⟩
  · exact xr_shrinks_refl s

theorem xr_singleTimer_timerTick (s : State) (hs : SingleTimer s) :
    SingleTimer (settle (timerTick s)) := by
  simp only [timerTick]
  have h1 : SingleTimer
      { s with gameState := { s.gameState with timeLeft := s.gameState.timeLeft - 1 }
               dom := { s.dom with timerDisplay := toString (s.gameState.timeLeft - 1) } } :=
    xr_singleTimer_of_shrinks s _ hs ⟨List.Sublist.refl _, rfl, rfl, rfl⟩
  split_ifs
  · exact xr_singleTimer_of_nil _ (xr_endGame_nil _ h1)
  · exact h1

theorem xr_singleTimer_step (rand : Nat → ℚ) (o : Op) (s : State) (hs : SingleTimer s)
    (hg : o = Op.startGame → s.gameState.isPlaying = false) :
    SingleTimer (step rand o s) := by
  cases o with
  | startARSession c =>
    cases c <;> exact xr_singleTimer_of_shrinks s _ hs ⟨List.Sublist.refl _, rfl, rfl, rfl⟩
  | startGame => exact xr_singleTimer_startGame rand s hs (hg rfl)
  | tap l => exact xr_singleTimer_of_shrinks s _ hs (xr_shrinks_onTap l s)
  | interval h =>
    simp only [step, fireInterval]
    split
    · exact hs
    · exact xr_singleTimer_timerTick s hs
    · exact xr_singleTimer_of_shrinks s _ hs (xr_shrinks_spawnTick rand s)
  | endGame => exact xr_singleTimer_of_nil _ (xr_endGame_nil s hs)
  | sessionEnd =>
    simp only [step]
    split_ifs
    · exact xr_singleTimer_of_shrinks s _ hs ⟨List.Sublist.refl _, rfl, rfl, rfl⟩
    · exact hs

theorem xr_singleTimer_run (rand : Nat → ℚ) (ops : List Op) :
    ∀ s : State, SingleTimer s → StartsWhenIdle rand ops s → SingleTimer (run rand ops s) := by
  induction ops with
  | nil => intro s hs _; exact hs
  | cons o ops ih =>
    intro s hs hg
    obtain ⟨hg1, hg2⟩ := hg
    exact ih _ (xr_singleTimer_step rand o s hs hg1) hg2

/-- The reading of `SingleTimer` through `lookup`. -/
theorem xr_singleTimer_lookup (s : State) (hs : SingleTimer s) :
    (∀ h, s.sched.lookup h = some Callback.countdown → s.gameState.timerInterval = some h) ∧
    (∀ h, s.sched.lookup h = some Callback.spawn → s.spawnInterval = some h) ∧
    (∀ h1 h2, s.sched.lookup h1 = some Callback.countdown →
      s.sched.lookup h2 = some Callback.countdown → h1 = h2) ∧
    (∀ h1 h2, s.sched.lookup h1 = some Callback.spawn →
      s.sched.lookup h2 = some Callback.spawn → h1 = h2) ∧
    s.sched.intervals.countP (fun e => e.2 == Callback.countdown) ≤ 1 ∧
    s.sched.intervals.countP (fun e => e.2 == Callback.spawn) ≤ 1 := by
  have hc : ∀ h, s.sched.lookup h = some Callback.countdown →
      s.gameState.timerInterval = some h :=
    fun h hl => hs.countdown _ (Scheduler.mem_of_lookup h _ _ hl) rfl
  have hm : ∀ h, s.sched.lookup h = some Callback.spawn → s.spawnInterval = some h :=
    fun h hl => hs.spawn _ (Scheduler.mem_of_lookup h _ _ hl) rfl
  refine ⟨hc, hm, fun h1 h2 e1 e2 => ?_, fun h1 h2 e1 e2 => ?_,
    hs.oneCountdown, hs.oneSpawn⟩
  · exact Option.some.inj ((hc h1 e1).symm.trans (hc h2 e2))
  · exact Option.some.inj ((hm h1 e1).symm.trans (hm h2 e2))

end WebXRAR

/-! ## Bounds of the movement simulation -/

namespace Main

theorem band_bounds (r : ℚ) (h0 : 0 ≤ r) (h1 : r < 1) :
    -10 ≤ 10 + r * 80 ∧ 10 + r * 80 ≤ 110 := by
  constructor <;> linarith

theorem edge_bounds (r : ℚ) (h0 : 0 ≤ r) (h1 : r < 1) :
    -10 ≤ r * 100 ∧ r * 100 ≤ 110 := by
  constructor <;> linarith

theorem convex_bounds (c t v : ℚ) (hc : -10 ≤ c ∧ c ≤ 110) (ht : -10 ≤ t ∧ t ≤ 110)
    (hv : 0 ≤ v ∧ v ≤ 1) : -10 ≤ c + (t - c) * v ∧ c + (t - c) * v ≤ 110 := by
  obtain ⟨c0, c1⟩ := hc
  obtain ⟨t0, t1⟩ := ht
  obtain ⟨v0, v1⟩ := hv
  constructor
  · nlinarith [mul_nonneg v0 (by linarith : (0 : ℚ) ≤ t + 10),
      mul_nonneg (by linarith : (0 : ℚ) ≤ 1 - v) (by linarith : (0 : ℚ) ≤ c + 10)]
  · nlinarith [mul_nonneg v0 (by linarith : (0 : ℚ) ≤ 110 - t),
      mul_nonneg (by linarith : (0 : ℚ) ≤ 1 - v) (by linarith : (0 : ℚ) ≤ 110 - c)]

theorem bounded_setNewTarget (rand : Nat → ℚ) (hr : ∀ i, 0 ≤ rand i ∧ rand i < 1)
    (s : State) (hs : Bounded s.catMovement) : Bounded (setNewTarget rand s).catMovement :=
  ⟨band_bounds _ (hr _).1 (hr _).2, band_bounds _ (hr _).1 (hr _).2, hs.currentX,
   hs.currentY, hs.moveSpeed⟩

theorem bounded_startHiding (rand : Nat → ℚ) (hr : ∀ i, 0 ≤ rand i ∧ rand i < 1)
    (s : State) (hs : Bounded s.catMovement) : Bounded (startHiding rand s).catMovement := by
  have he := edge_bounds _ (hr (s.randCalls + 1)).1 (hr (s.randCalls + 1)).2
  simp only [startHiding]
  split
  · exact hs
  · split_ifs
    · exact ⟨he, by norm_num, hs.currentX, hs.currentY, by norm_num⟩
    · exact ⟨by norm_num, he, hs.currentX, hs.currentY, by norm_num⟩
    · exact ⟨he, by norm_num, hs.currentX, hs.currentY, by norm_num⟩
    · exact ⟨by norm_num, he, hs.currentX, hs.currentY, by norm_num⟩
    · exact ⟨hs.targetX, hs.targetY, hs.currentX, hs.currentY, by norm_num⟩

theorem bounded_stopHiding (rand : Nat → ℚ) (hr : ∀ i, 0 ≤ rand i ∧ rand i < 1)
    (s : State) : Bounded (stopHiding rand s).catMovement :=
  ⟨band_bounds _ (hr _).1 (hr _).2, band_bounds _ (hr _).1 (hr _).2,
   band_bounds _ (hr _).1 (hr _).2, band_bounds _ (hr _).1 (hr _).2, by norm_num [stopHiding,
     setNewTarget]⟩

theorem bounded_maybeStartHiding (rand : Nat → ℚ) (hr : ∀ i, 0 ≤ rand i ∧ rand i < 1)
    (s : State) (hs : Bounded s.catMovement) :
    Bounded (maybeStartHiding rand s).catMovement := by
  simp only [maybeStartHiding]
  split_ifs
  · exact hs
  · exact bounded_startHiding rand hr _ hs
  · exact hs

theorem bounded_moveTowardsTarget (rand : Nat → ℚ) (hr : ∀ i, 0 ≤ rand i ∧ rand i < 1)
    (cat : ArCat) (s : State) (hs : Bounded s.catMovement) :
    Bounded (moveTowardsTarget rand cat s).catMovement := by
  simp only [moveTowardsTarget]
  split_ifs
  · exact bounded_setNewTarget rand hr s hs
  · exact ⟨hs.targetX, hs.targetY,
      convex_bounds _ _ _ hs.currentX hs.targetX hs.moveSpeed,
      convex_bounds _ _ _ hs.currentY hs.targetY hs.moveSpeed, hs.moveSpeed⟩

theorem bounded_updateCatPosition (rand : Nat → ℚ) (hr : ∀ i, 0 ≤ rand i ∧ rand i < 1)
    (s : State) (hs : Bounded s.catMovement) :
    Bounded (updateCatPosition rand s).catMovement := by
  unfold updateCatPosition
  by_cases hp : s.gameState.isPlaying = true
  · simp only [hp, Bool.not_true, Bool.false_eq_true, if_false]
    cases hc : s.dom.arCat with
    | none => exact hs
    | some cat =>
      dsimp only
      by_cases hh : cat.hidden = true
      · rw [if_pos hh]
        exact hs
      · rw [if_neg hh]
        have hm := bounded_maybeStartHiding rand hr s hs
        by_cases hi : (maybeStartHiding rand s).catMovement.isHiding = true
        · rw [if_pos hi]
          by_cases ht : (maybeStartHiding rand s).catMovement.hideTimer - 1 ≤ 0
          · rw [if_pos ht]
            exact bounded_stopHiding rand hr _
          · rw [if_neg ht]
            exact ⟨hm.targetX, hm.targetY, hm.currentX, hm.currentY, hm.moveSpeed⟩
        · rw [if_neg hi]
          exact bounded_moveTowardsTarget rand hr cat _ hm
  · have hp2 : s.gameState.isPlaying = false := by simpa using hp
    simp only [hp2, Bool.not_false, if_true]
    exact hs

theorem stop3DCat_catMovement (s : State) : (stop3DCat s).catMovement = s.catMovement := by
  simp only [stop3DCat]
  split_ifs <;> rfl

theorem endGame_catMovement (s : State) : (endGame s).catMovement = s.catMovement := by
  simp only [endGame, stop3DCat_catMovement]
  split_ifs <;> split <;> rfl

theorem bounded_startGame (rand : Nat → ℚ) (hr : ∀ i, 0 ≤ rand i ∧ rand i < 1)
    (s : State) (hs : Bounded s.catMovement) :
    Bounded (settle (startGame rand s)).catMovement := by
  obtain ⟨s1, hk, h | h | h⟩ := startGame_cases rand s <;> rw [h] <;> simp only [settle]
  · rw [hk.catMovement]; exact hs
  · have e : (startTimer s1).catMovement = s1.catMovement := rfl
    rw [e, hk.catMovement]; exact hs
  · have hm : 0 ≤ s1.catMovement.moveSpeed ∧ s1.catMovement.moveSpeed ≤ 1 := by
      rw [hk.catMovement]; exact hs.moveSpeed
    exact ⟨band_bounds _ (hr _).1 (hr _).2, band_bounds _ (hr _).1 (hr _).2,
      by norm_num [startTimer, startMovement, setNewTarget],
      by norm_num [startTimer, startMovement, setNewTarget],
      by simpa [startTimer, startMovement, setNewTarget] using hm⟩

theorem bounded_step (rand : Nat → ℚ) (hr : ∀ i, 0 ≤ rand i ∧ rand i < 1) (o : Op)
    (s : State) (hs : Bounded s.catMovement) : Bounded (step rand o s).catMovement := by
  cases o with
  | startArClick c =>
    cases c with
    | denied => exact hs
    | granted n playOk => cases playOk <;> exact hs
  | startGameClick => exact bounded_startGame rand hr s hs
  | playAgainClick => exact hs
  | backToTopClick =>
    simp only [step, backToTopClick, stop3DCat_catMovement]
    exact hs
  | captureClick =>
    simp only [step, captureClick, arCaptureBtnOnclick]
    split
    · exact hs
    · split_ifs <;> exact hs
  | interval h =>
    simp only [step, fireInterval]
    split
    · exact hs
    · simp only [timerTick]
      split_ifs
      · rw [endGame_catMovement]; exact hs
      · exact hs
    · exact bounded_updateCatPosition rand hr s hs
  | timeout h =>
    simp only [step, fireTimeout]
    split_ifs <;> exact hs
  | frame h =>
    simp only [step, fireFrame]
    split_ifs <;> exact hs
  | stlLoaded ok =>
    simp only [step, stlLoaded]
    split_ifs <;> exact hs
  | endGame =>
    simp only [step, endGame_catMovement]
    exact hs

theorem bounded_run (rand : Nat → ℚ) (hr : ∀ i, 0 ≤ rand i ∧ rand i < 1) (ops : List Op) :
    ∀ s : State, Bounded s.catMovement → Bounded (run rand ops s).catMovement := by
  induction ops with
  | nil => intro s hs; exact hs
  | cons o ops ih => intro s hs; exact ih _ (bounded_step rand hr o s hs)

theorem bounded_moveRun (rand : Nat → ℚ) (hr : ∀ i, 0 ≤ rand i ∧ rand i < 1)
    (ops : List MoveOp) :
    ∀ s : State, Bounded s.catMovement → Bounded (moveRun rand ops s).catMovement := by
  induction ops with
  | nil => intro s hs; exact hs
  | cons o ops ih =>
    intro s hs
    refine ih _ ?_
    cases o with
    | startGame => exact bounded_startGame rand hr s hs
    | updateCatPosition => exact bounded_updateCatPosition rand hr s hs
    | endGame =>
      simp only [moveStep, endGame_catMovement]
      exact hs

theorem bounded_initialState (dom : Dom) : Bounded (initialState dom).catMovement := by
  refine ⟨?_, ?_, ?_, ?_, ?_⟩ <;> norm_num [initialState]

end Main

/-! ## Live cats live in a scene -/

namespace WebXRAR

theorem sceneOfCats_spawnOne (rand : Nat → ℚ) (s : State)
    (hs : s.scene = none → s.cats = []) :
    (settle (spawnOne rand s)).scene = none → (settle (spawnOne rand s)).cats = [] := by
  simp only [spawnOne, createCat]
  split
  · exact hs
  · intro h; cases h

theorem sceneOfCats_spawnLoop (rand : Nat → ℚ) (n : Nat) :
    ∀ s : State, (s.scene = none → s.cats = []) →
      (settle (spawnLoop rand n s)).scene = none → (settle (spawnLoop rand n s)).cats = [] := by
  induction n with
  | zero => intro s hs; exact hs
  | succ n ih =>
    intro s hs
    have h1 := sceneOfCats_spawnOne rand s hs
    simp only [spawnLoop]
    cases hso : spawnOne rand s with
    | error e => rw [hso] at h1; exact h1
    | ok s1 => rw [hso] at h1; exact ih s1 h1

theorem sceneOfCats_endGame (s : State) (hs : s.scene = none → s.cats = []) :
    (settle (endGame s)).scene = none → (settle (endGame s)).cats = [] := by
  simp only [endGame]
  split
  · rename_i hsc hcats
    intro _
    have := hs hsc
    rw [this] at hcats
    cases hcats
  · split_ifs <;> exact fun _ => rfl

theorem sceneOfCats_step (rand : Nat → ℚ) (o : Op) (s : State)
    (hs : s.scene = none → s.cats = []) :
    (step rand o s).scene = none → (step rand o s).cats = [] := by
  cases o with
  | startARSession c =>
    cases c with
    | requestFailed => exact hs
    | setupFailed => intro h; cases h
    | started => intro h; cases h
  | startGame =>
    have h1 := sceneOfCats_spawnLoop rand (numCats (rand s.randCalls)).toNat
      { s with
        gameState := { s.gameState with score := 0, timeLeft := 10, isPlaying := true }
        dom := { s.dom with scoreDisplay := "0", timerDisplay := "10"
                            preGameUi := true, gameHud := false }
        reticle := s.reticle.map (fun _ => false)
        randCalls := s.randCalls + 1 } hs
    simp only [step, startGame, spawnCats]
    split
    · rename_i e he
      rw [he] at h1
      exact h1
    · rename_i s2 he
      rw [he] at h1
      exact h1
  | tap l =>
    simp only [step, onTap]
    split_ifs
    · exact hs
    · exact hs
    · exact hs
    · split
      · exact hs
      · split
        · exact hs
        · intro h; cases h
  | interval h =>
    simp only [step, fireInterval]
    split
    · exact hs
    · simp only [timerTick]
      split_ifs
      · exact sceneOfCats_endGame _ hs
      · exact hs
    · simp only [spawnTick]
      split_ifs
      · exact sceneOfCats_spawnLoop rand _ { s with randCalls := s.randCalls + 1 } hs
      · exact hs
  | endGame => exact sceneOfCats_endGame s hs
  | sessionEnd =>
    simp only [step]
    split_ifs
    · exact hs
    · exact hs

/-- In every state an instance can reach, live cats imply a scene. -/
theorem scene_of_cats (rand : Nat → ℚ) (dom : Dom) (now : ℚ) (ops : List Op) :
    (run rand ops (initialState dom now)).cats ≠ [] →
      (run rand ops (initialState dom now)).scene.isSome = true := by
  have key : ∀ (l : List Op) (s : State), (s.scene = none → s.cats = []) →
      (run rand l s).scene = none → (run rand l s).cats = [] := by
    intro l
    induction l with
    | nil => intro s hs; exact hs
    | cons o l ih => intro s hs; exact ih _ (sceneOfCats_step rand o s hs)
  intro hne
  cases hsc : (run rand ops (initialState dom now)).scene with
  | some objs => rfl
  | none => exact absurd (key ops _ (fun _ => rfl) hsc) hne

end WebXRAR

/-! ## The spawn cone -/

namespace WebXRAR

/-- What the polar ranges give for the vector. -/
theorem cone_of_inRange (p : Position) (hp : InRange p) :
    1 / 2 ≤ p.y ∧ p.y ≤ 3 / 2 ∧ p.z ≤ 0 ∧
    1 ≤ p.x * p.x + p.z * p.z ∧ p.x * p.x + p.z * p.z ≤ 9 ∧
    -(Real.pi / 2) ≤ p.bearing ∧ p.bearing ≤ Real.pi / 2 := by
  obtain ⟨⟨a0, a1⟩, ⟨d0, d1⟩, ⟨h0, h1⟩⟩ := hp
  have a0r : (-1 / 2 : ℝ) ≤ (p.angle : ℝ) := by
    have h : (((-1 / 2 : ℚ)) : ℝ) ≤ (p.angle : ℝ) := Rat.cast_le.mpr a0
    norm_num at h
    linarith
  have a1r : (p.angle : ℝ) ≤ 1 / 2 := by
    have h : (p.angle : ℝ) ≤ (((1 / 2 : ℚ)) : ℝ) := Rat.cast_le.mpr a1
    norm_num at h
    linarith
  have d0r : (1 : ℝ) ≤ (p.distance : ℝ) := by
    have h : (((1 : ℚ)) : ℝ) ≤ (p.distance : ℝ) := Rat.cast_le.mpr d0
    norm_num at h
    linarith
  have d1r : (p.distance : ℝ) ≤ 3 := by
    have h : (p.distance : ℝ) ≤ (((3 : ℚ)) : ℝ) := Rat.cast_le.mpr d1
    norm_num at h
    linarith
  have h0r : (1 / 2 : ℝ) ≤ (p.height : ℝ) := by
    have h : (((1 / 2 : ℚ)) : ℝ) ≤ (p.height : ℝ) := Rat.cast_le.mpr h0
    norm_num at h
    linarith
  have h1r : (p.height : ℝ) ≤ 3 / 2 := by
    have h : (p.height : ℝ) ≤ (((3 / 2 : ℚ)) : ℝ) := Rat.cast_le.mpr h1
    norm_num at h
    linarith
  have hpi := Real.pi_pos
  have hcos : 0 ≤ Real.cos ((p.angle : ℝ) * Real.pi) :=
    Real.cos_nonneg_of_neg_pi_div_two_le_of_le (by nlinarith) (by nlinarith)
  have hz : p.z ≤ 0 := by
    unfold Position.z
    nlinarith [mul_nonneg hcos (by linarith : (0 : ℝ) ≤ (p.distance : ℝ))]
  have hsq : p.x * p.x + p.z * p.z = (p.distance : ℝ) * (p.distance : ℝ) := by
    unfold Position.x Position.z
    have := Real.sin_sq_add_cos_sq ((p.angle : ℝ) * Real.pi)
    linear_combination (p.distance : ℝ) * (p.distance : ℝ) * this
  have hb : |p.bearing| ≤ Real.pi / 2 := by
    unfold Position.bearing
    rw [Complex.abs_arg_le_pi_div_two_iff]
    show 0 ≤ -p.z
    linarith
  have hb2 := abs_le.mp hb
  refine ⟨h0r, h1r, hz, ?_, ?_, hb2.1, hb2.2⟩
  · rw [hsq]; nlinarith
  · rw [hsq]; nlinarith

/-- The argument of the point at distance `d` and angle `θ`. -/
theorem arg_polar (d θ : ℝ) (hd : 0 < d) (h1 : -(Real.pi / 2) ≤ θ) (h2 : θ ≤ Real.pi / 2) :
    Complex.arg ⟨-(-Real.cos θ * d), Real.sin θ * d⟩ = θ := by
  have hpi := Real.pi_pos
  have e : (⟨-(-Real.cos θ * d), Real.sin θ * d⟩ : ℂ)
      = (d : ℂ) * (Complex.cos (θ : ℂ) + Complex.sin (θ : ℂ) * Complex.I) := by
    apply Complex.ext
    · simp [← Complex.ofReal_cos, ← Complex.ofReal_sin]; ring
    · simp [← Complex.ofReal_cos, ← Complex.ofReal_sin]; ring
  rw [e]
  exact Complex.arg_mul_cos_add_sin_mul_I hd ⟨by linarith, by linarith⟩

/-- The bearing of a position in range is the angle `spawnCats` drew. -/
theorem bearing_of_inRange (p : Position) (hp : InRange p) :
    p.bearing = (p.angle : ℝ) * Real.pi := by
  obtain ⟨⟨a0, a1⟩, ⟨d0, -⟩, -⟩ := hp
  have a0r : (-1 / 2 : ℝ) ≤ (p.angle : ℝ) := by
    have h : (((-1 / 2 : ℚ)) : ℝ) ≤ (p.angle : ℝ) := Rat.cast_le.mpr a0
    norm_num at h
    linarith
  have a1r : (p.angle : ℝ) ≤ 1 / 2 := by
    have h : (p.angle : ℝ) ≤ (((1 / 2 : ℚ)) : ℝ) := Rat.cast_le.mpr a1
    norm_num at h
    linarith
  have d0r : (0 : ℝ) < (p.distance : ℝ) := by
    have h : (((1 : ℚ)) : ℝ) ≤ (p.distance : ℝ) := Rat.cast_le.mpr d0
    norm_num at h
    linarith
  have hpi := Real.pi_pos
  unfold Position.bearing Position.z Position.x
  exact arg_polar _ _ d0r (by nlinarith) (by nlinarith)

theorem inRange_of_draws (ra rd rh : ℚ) (ha : 0 ≤ ra ∧ ra < 1) (hd : 0 ≤ rd ∧ rd < 1)
    (hh : 0 ≤ rh ∧ rh < 1) :
    InRange { angle := ra - 1 / 2, distance := 1 + rd * 2, height := 1 / 2 + rh * 1 } := by
  refine ⟨⟨?_, ?_⟩, ⟨?_, ?_⟩, ⟨?_, ?_⟩⟩ <;> dsimp only <;> linarith [ha.1, ha.2, hd.1, hd.2,
    hh.1, hh.2]

theorem spawnOne_cats (rand : Nat → ℚ) (hr : ∀ i, 0 ≤ rand i ∧ rand i < 1) (s : State) :
    ∃ new, (settle (spawnOne rand s)).cats = s.cats ++ new ∧
      (s.scene.isSome = true → new ≠ []) ∧ ∀ c ∈ new, InRange c.position := by
  simp only [spawnOne, createCat]
  cases hsc : s.scene with
  | none => exact ⟨[], by simp [settle], by simp, by simp⟩
  | some objs =>
    refine ⟨[_], rfl, by simp, ?_⟩
    intro c hc
    rw [List.mem_singleton] at hc
    rw [hc]
    exact inRange_of_draws _ _ _ (hr _) (hr _) (hr _)

theorem spawnLoop_cats (rand : Nat → ℚ) (hr : ∀ i, 0 ≤ rand i ∧ rand i < 1) (n : Nat) :
    ∀ s : State, ∃ new, (settle (spawnLoop rand n s)).cats = s.cats ++ new ∧
      (s.scene.isSome = true → 0 < n → new ≠ []) ∧ ∀ c ∈ new, InRange c.position := by
  induction n with
  | zero => intro s; exact ⟨[], by simp [spawnLoop, settle], by simp, by simp⟩
  | succ n ih =>
    intro s
    obtain ⟨new1, h1, h2, h3⟩ := spawnOne_cats rand hr s
    simp only [spawnLoop]
    cases hso : spawnOne rand s with
    | error e =>
      rw [hso] at h1
      refine ⟨new1, h1, fun hsc _ => h2 hsc, h3⟩
    | ok s1 =>
      rw [hso] at h1
      simp only [settle] at h1
      obtain ⟨new2, g1, -, g3⟩ := ih s1
      refine ⟨new1 ++ new2, ?_, fun hsc _ => ?_, ?_⟩
      · rw [g1, h1, List.append_assoc]
      · intro hnil
        exact h2 hsc (List.append_eq_nil.mp hnil).1
      · intro c hc
        rcases List.mem_append.mp hc with hc | hc
        · exact h3 c hc
        · exact g3 c hc

theorem spawnCats_cats (rand : Nat → ℚ) (hr : ∀ i, 0 ≤ rand i ∧ rand i < 1) (s : State) :
    ∃ new, (settle (spawnCats rand s)).cats = s.cats ++ new ∧
      (s.scene.isSome = true → new ≠ []) ∧ ∀ c ∈ new, InRange c.position := by
  obtain ⟨new, h1, h2, h3⟩ := spawnLoop_cats rand hr (numCats (rand s.randCalls)).toNat
    { s with randCalls := s.randCalls + 1 }
  refine ⟨new, h1, fun hsc => h2 hsc ?_, h3⟩
  rcases numCats_cases (rand s.randCalls) (hr _).1 (hr _).2 with e | e <;> omega

end WebXRAR

/-! ## Motion during a hide episode -/

namespace Main

/-- With draws in [0, 1), `startHiding` puts the target on one of the four
edges. -/
theorem startHiding_edge (rand : Nat → ℚ) (hr : ∀ i, 0 ≤ rand i ∧ rand i < 1)
    (s : State) (cat : ArCat) (hc : s.dom.arCat = some cat) :
    ((startHiding rand s).catMovement.targetY = -10 ∧
        0 ≤ (startHiding rand s).catMovement.targetX ∧
        (startHiding rand s).catMovement.targetX ≤ 100) ∨
    ((startHiding rand s).catMovement.targetX = 110 ∧
        0 ≤ (startHiding rand s).catMovement.targetY ∧
        (startHiding rand s).catMovement.targetY ≤ 100) ∨
    ((startHiding rand s).catMovement.targetY = 110 ∧
        0 ≤ (startHiding rand s).catMovement.targetX ∧
        (startHiding rand s).catMovement.targetX ≤ 100) ∨
    ((startHiding rand s).catMovement.targetX = -10 ∧
        0 ≤ (startHiding rand s).catMovement.targetY ∧
        (startHiding rand s).catMovement.targetY ≤ 100) := by
  have h0 := (hr s.randCalls).1
  have h1 := (hr s.randCalls).2
  have g0 := (hr (s.randCalls + 1)).1
  have g1 := (hr (s.randCalls + 1)).2
  have hf0 : 0 ≤ ⌊rand s.randCalls * 4⌋ := Int.floor_nonneg.mpr (by linarith)
  have hf4 : ⌊rand s.randCalls * 4⌋ < 4 := Int.floor_lt.mpr (by push_cast; linarith)
  simp only [startHiding, hc]
  split_ifs with e0 e1 e2 e3
  · exact Or.inl ⟨rfl, by dsimp only; linarith, by dsimp only; linarith⟩
  · exact Or.inr (Or.inl ⟨rfl, by dsimp only; linarith, by dsimp only; linarith⟩)
  · exact Or.inr (Or.inr (Or.inl ⟨rfl, by dsimp only; linarith, by dsimp only; linarith⟩))
  · exact Or.inr (Or.inr (Or.inr ⟨rfl, by dsimp only; linarith, by dsimp only; linarith⟩))
  · omega

theorem tick_hidden_catMovement (rand : Nat → ℚ) (s : State) (k : Int)
    (hs : Hiding (k + 1) s) (hk : 0 < k) :
    (updateCatPosition rand s).catMovement = { s.catMovement with hideTimer := k } := by
  obtain ⟨⟨hp, cat, hc, hcv⟩, hh, ht, hsp⟩ := hs
  have hm : maybeStartHiding rand s = s := by simp [maybeStartHiding, hh]
  have hne : ¬ (s.catMovement.hideTimer - 1 ≤ 0) := by omega
  have hu : updateCatPosition rand s =
      { s with catMovement := { s.catMovement with hideTimer := s.catMovement.hideTimer - 1 } } := by
    simp [updateCatPosition, hp, hc, hcv, hm, hh, hne]
  rw [hu]
  simp [ht]

/-- While the episode lasts, only `hideTimer` changes. -/
theorem hidden_still (rand : Nat → ℚ) (s : State) (hs : Hiding 59 s) (j : Nat)
    (hj : j ≤ 58) :
    ((updateCatPosition rand)^[j] s).catMovement
      = { s.catMovement with hideTimer := 59 - (j : Int) } := by
  induction j with
  | zero =>
    have := hs.timer
    cases hcm : s.catMovement
    rw [hcm] at this
    simp only at this
    simp [hcm, this]
  | succ j ih =>
    rw [Function.iterate_succ_apply']
    have h1 := hidden_iterate rand s hs j (by omega)
    have e : (59 : Int) - (j : Int) = (59 - ((j + 1 : Nat) : Int)) + 1 := by push_cast; ring
    rw [e] at h1
    rw [tick_hidden_catMovement rand _ _ h1 (by push_cast; omega), ih (by omega)]

/-- The position and the target through a hide episode that starts in the
first of the ticks: after that tick and each of the next 58 ticks the current
position is where it was before the episode, and the target is the one the
first tick set. -/
theorem hide_episode_still (rand : Nat → ℚ) (s : State) (hv : Visible s)
    (hh : s.catMovement.isHiding = false) (hd : rand s.randCalls < 5 / 100)
    (k : Nat) (hk : k ≤ 58) :
    ((updateCatPosition rand)^[k + 1] s).catMovement.currentX = s.catMovement.currentX ∧
    ((updateCatPosition rand)^[k + 1] s).catMovement.currentY = s.catMovement.currentY ∧
    ((updateCatPosition rand)^[k + 1] s).catMovement.targetX
      = (updateCatPosition rand s).catMovement.targetX ∧
    ((updateCatPosition rand)^[k + 1] s).catMovement.targetY
      = (updateCatPosition rand s).catMovement.targetY ∧
    ((updateCatPosition rand)^[k + 1] s).catMovement.moveSpeed = 5 / 100 := by
  obtain ⟨h0, hx, hy⟩ := tick_start rand s hv hh hd
  rw [Function.iterate_succ_apply, hidden_still rand _ h0 k hk]
  exact ⟨hx, hy, rfl, rfl, h0.speed⟩

end Main

theorem Main.sampleOps_idle :
    Main.StartsWhenIdle (fun _ => 0) Main.sampleOps (Main.initialState Main.sampleDom) := by
  simp [Main.StartsWhenIdle, Main.sampleOps, Main.initialState]

theorem WebXRAR.xr_sampleOps_idle :
    WebXRAR.StartsWhenIdle (fun _ => 0) WebXRAR.sampleOps
      (WebXRAR.initialState WebXRAR.sampleDom 0) := by
  simp [WebXRAR.StartsWhenIdle, WebXRAR.sampleOps, WebXRAR.initialState, WebXRAR.step,
    WebXRAR.startARSession]

/-! ## The claims -/

/-- C1 (countdown).  In both programs, from any state a returning `startGame`
produces, ten firings of the countdown interval, each through the handle
`startGame` stored, enter `endGame` exactly once, on the tenth: the session is
playing with no new entry into `endGame` after each of the first nine, and
after the tenth `timeLeft` is 0, `isPlaying` is false and the handle is no
longer active.  `startGame` of `main.js` returns whenever the cat element or
the canvas is missing or a WebGL context can be made; `startGame` of
`WebXRAR` returns whenever the scene exists. -/
theorem countdown_ends_once (rand : Nat → ℚ) (s s0 : Main.State) (x x0 : WebXRAR.State)
    (hs : Main.startGame rand s = Except.ok s0)
    (hx : WebXRAR.startGame rand x = Except.ok x0) :
    (∃ h, s0.gameState.timerInterval = some h ∧
      s0.gameState.timeLeft = 10 ∧
      s0.gameState.isPlaying = true ∧
      (∀ n, n < 10 →
        ((Main.fireInterval rand h)^[n] s0).endGameCalls = s.endGameCalls ∧
        ((Main.fireInterval rand h)^[n] s0).gameState.isPlaying = true) ∧
      ((Main.fireInterval rand h)^[10] s0).endGameCalls = s.endGameCalls + 1 ∧
      ((Main.fireInterval rand h)^[10] s0).gameState.timeLeft = 0 ∧
      ((Main.fireInterval rand h)^[10] s0).gameState.isPlaying = false ∧
      ((Main.fireInterval rand h)^[10] s0).sched.lookup h = none) ∧
    (∃ h, x0.gameState.timerInterval = some h ∧
      x0.gameState.timeLeft = 10 ∧
      x0.gameState.isPlaying = true ∧
      (∀ n, n < 10 →
        ((WebXRAR.fireInterval rand h)^[n] x0).endGameCalls = x.endGameCalls ∧
        ((WebXRAR.fireInterval rand h)^[n] x0).gameState.isPlaying = true) ∧
      ((WebXRAR.fireInterval rand h)^[10] x0).endGameCalls = x.endGameCalls + 1 ∧
      ((WebXRAR.fireInterval rand h)^[10] x0).gameState.timeLeft = 0 ∧
      ((WebXRAR.fireInterval rand h)^[10] x0).gameState.isPlaying = false ∧
      ((WebXRAR.fireInterval rand h)^[10] x0).sched.lookup h = none) ∧
    (∀ z : Main.State,
      (z.dom.arCat = none ∨ z.dom.catCanvas = false ∨ z.dom.webgl = true) →
        ∃ r, Main.startGame rand z = Except.ok r) ∧
    (∀ z : WebXRAR.State, z.scene.isSome = true →
        ∃ r, WebXRAR.startGame rand z = Except.ok r) := by
  refine ⟨?_, ?_, fun z hz => ⟨_, Main.startGame_returns rand z hz⟩,
    fun z hz => ⟨_, WebXRAR.startGame_ok rand z hz⟩⟩
  · obtain ⟨h, hc⟩ := Main.counting_startGame rand s s0 hs
    exact ⟨h, hc.stored, hc.time, hc.playing, Main.countdown_run rand h _ _ hc⟩
  · obtain ⟨h, hc⟩ := WebXRAR.xr_counting_startGame rand x x0 hx
    exact ⟨h, hc.stored, hc.time, hc.playing, WebXRAR.xr_countdown_run rand h _ _ hc⟩

/-- Witness of `countdown_ends_once`: the sample page, and the sample instance
with its AR session started, under the oracle that always draws 0. -/
theorem countdown_ends_once_witness :
    Main.startGame (fun _ => 0) (Main.initialState Main.sampleDom)
      = Except.ok Main.sampleStarted ∧
    WebXRAR.startGame (fun _ => 0) WebXRAR.sampleState = Except.ok WebXRAR.sampleStarted ∧
    (∃ h, Main.sampleStarted.gameState.timerInterval = some h ∧
      Main.sampleStarted.gameState.timeLeft = 10 ∧
      Main.sampleStarted.gameState.isPlaying = true ∧
      (∀ n, n < 10 →
        ((Main.fireInterval (fun _ => 0) h)^[n] Main.sampleStarted).endGameCalls = (Main.initialState Main.sampleDom).endGameCalls ∧
        ((Main.fireInterval (fun _ => 0) h)^[n] Main.sampleStarted).gameState.isPlaying = true) ∧
      ((Main.fireInterval (fun _ => 0) h)^[10] Main.sampleStarted).endGameCalls = (Main.initialState Main.sampleDom).endGameCalls + 1 ∧
      ((Main.fireInterval (fun _ => 0) h)^[10] Main.sampleStarted).gameState.timeLeft = 0 ∧
      ((Main.fireInterval (fun _ => 0) h)^[10] Main.sampleStarted).gameState.isPlaying = false ∧
      ((Main.fireInterval (fun _ => 0) h)^[10] Main.sampleStarted).sched.lookup h = none) ∧
    (∃ h, WebXRAR.sampleStarted.gameState.timerInterval = some h ∧
      WebXRAR.sampleStarted.gameState.timeLeft = 10 ∧
      WebXRAR.sampleStarted.gameState.isPlaying = true ∧
      (∀ n, n < 10 →
        ((WebXRAR.fireInterval (fun _ => 0) h)^[n] WebXRAR.sampleStarted).endGameCalls = WebXRAR.sampleState.endGameCalls ∧
        ((WebXRAR.fireInterval (fun _ => 0) h)^[n] WebXRAR.sampleStarted).gameState.isPlaying = true) ∧
      ((WebXRAR.fireInterval (fun _ => 0) h)^[10] WebXRAR.sampleStarted).endGameCalls = WebXRAR.sampleState.endGameCalls + 1 ∧
      ((WebXRAR.fireInterval (fun _ => 0) h)^[10] WebXRAR.sampleStarted).gameState.timeLeft = 0 ∧
      ((WebXRAR.fireInterval (fun _ => 0) h)^[10] WebXRAR.sampleStarted).gameState.isPlaying = false ∧
      ((WebXRAR.fireInterval (fun _ => 0) h)^[10] WebXRAR.sampleStarted).sched.lookup h = none) ∧
    (∀ z : Main.State,
      (z.dom.arCat = none ∨ z.dom.catCanvas = false ∨ z.dom.webgl = true) →
        ∃ r, Main.startGame (fun _ => 0) z = Except.ok r) ∧
    (∀ z : WebXRAR.State, z.scene.isSome = true →
        ∃ r, WebXRAR.startGame (fun _ => 0) z = Except.ok r) :=
  ⟨Main.startGame_returns _ _ (Or.inr (Or.inr rfl)), WebXRAR.startGame_ok _ _ rfl,
   countdown_ends_once (fun _ => 0) (Main.initialState Main.sampleDom) Main.sampleStarted
     WebXRAR.sampleState WebXRAR.sampleStarted
     (Main.startGame_returns _ _ (Or.inr (Or.inr rfl))) (WebXRAR.startGame_ok _ _ rfl)⟩

/-- C2 (score monotonicity).  In `main.js`, `N` runs of the capture handler on
a playing state add exactly `N` to `score` and change no other field of
`gameState`, and on a state that is not playing the handler changes nothing
at all.  In `WebXRAR`, on a playing instance whose renderer, camera and scene
exist, a sequence of taps that each hit something adds its length to `score`
and changes no other field of `gameState`, and on an instance that is not
playing `onTap` returns the state it was given. -/
theorem score_monotone (rand : Nat → ℚ) (N : Nat) (s p : Main.State)
    (x y : WebXRAR.State) (taps : List (List WebXRAR.Cat)) (l : List WebXRAR.Cat)
    (hs : s.gameState.isPlaying = true) (hp : p.gameState.isPlaying = false)
    (hx : x.gameState.isPlaying = true) (hxr : x.renderer = true) (hxc : x.camera = true)
    (hxs : x.scene.isSome = true) (ht : ∀ t ∈ taps, t ≠ [])
    (hy : y.gameState.isPlaying = false) :
    (Main.arCaptureBtnOnclick^[N] s).gameState
        = { s.gameState with score := s.gameState.score + N } ∧
    Main.arCaptureBtnOnclick p = p ∧
    (WebXRAR.run rand (taps.map WebXRAR.Op.tap) x).gameState
        = { x.gameState with score := x.gameState.score + taps.length } ∧
    WebXRAR.onTap l y = Except.ok y :=
  ⟨Main.onclick_iterate s hs N, Main.onclick_idle p hp,
   WebXRAR.run_taps rand taps x ⟨hx, hxr, hxc, hxs⟩ ht, WebXRAR.onTap_idle l y hy⟩

/-- Witness of `score_monotone`: three clicks on the sample session, one on
the page as loaded; two hitting taps on the sample instance in play, one tap
on the instance before its game starts. -/
theorem score_monotone_witness :
    Main.sampleSession.gameState.isPlaying = true ∧
    (Main.initialState Main.sampleDom).gameState.isPlaying = false ∧
    WebXRAR.samplePlaying.gameState.isPlaying = true ∧
    WebXRAR.samplePlaying.renderer = true ∧
    WebXRAR.samplePlaying.camera = true ∧
    WebXRAR.samplePlaying.scene.isSome = true ∧
    (∀ t ∈ [[WebXRAR.sampleCat 0], [WebXRAR.sampleCat 1]], t ≠ []) ∧
    WebXRAR.sampleState.gameState.isPlaying = false ∧
    ((Main.arCaptureBtnOnclick^[3] Main.sampleSession).gameState
        = { Main.sampleSession.gameState with
            score := Main.sampleSession.gameState.score + 3 } ∧
     Main.arCaptureBtnOnclick (Main.initialState Main.sampleDom)
        = Main.initialState Main.sampleDom ∧
     (WebXRAR.run (fun _ => 0)
        ([[WebXRAR.sampleCat 0], [WebXRAR.sampleCat 1]].map WebXRAR.Op.tap)
        WebXRAR.samplePlaying).gameState
        = { WebXRAR.samplePlaying.gameState with
            score := WebXRAR.samplePlaying.gameState.score
              + [[WebXRAR.sampleCat 0], [WebXRAR.sampleCat 1]].length } ∧
     WebXRAR.onTap [WebXRAR.sampleCat 0] WebXRAR.sampleState
        = Except.ok WebXRAR.sampleState) :=
  ⟨rfl, rfl, rfl, rfl, rfl, rfl, by simp, rfl,
   score_monotone (fun _ => 0) 3 Main.sampleSession (Main.initialState Main.sampleDom)
     WebXRAR.samplePlaying WebXRAR.sampleState
     [[WebXRAR.sampleCat 0], [WebXRAR.sampleCat 1]] [WebXRAR.sampleCat 0]
     rfl rfl rfl rfl rfl rfl (by simp) rfl⟩

/-- C3 (catch removal).  On a playing instance whose renderer, camera and
scene exist and whose live cats are pairwise distinct objects, a tap whose ray
cast returns the live cat `c` first returns normally; afterwards the
collection is the old one with `c` erased: `c` is gone, every other cat is
still there, the order is kept, the length is one less; and `score` is one
more.  A tap whose ray cast returns nothing leaves the whole state as it
was, on every instance. -/
theorem catch_removes_hit_cat (c : WebXRAR.Cat) (rest : List WebXRAR.Cat)
    (s z : WebXRAR.State)
    (hp : s.gameState.isPlaying = true) (hr : s.renderer = true) (hcam : s.camera = true)
    (hsc : s.scene.isSome = true)
    (hd : (s.cats.map WebXRAR.Cat.ref).Nodup) (hc : c ∈ s.cats) :
    (∃ r, WebXRAR.onTap (c :: rest) s = Except.ok r ∧
      r.cats = s.cats.erase c ∧
      c ∉ r.cats ∧
      (∀ d ∈ s.cats, d ≠ c → d ∈ r.cats) ∧
      r.cats.Sublist s.cats ∧
      r.cats.length + 1 = s.cats.length ∧
      r.gameState.score = s.gameState.score + 1) ∧
    WebXRAR.settle (WebXRAR.onTap [] z) = z := by
  refine ⟨?_, WebXRAR.onTap_miss z⟩
  obtain ⟨objs, -, hok⟩ := WebXRAR.onTap_hit c rest s ⟨hp, hr, hcam, hsc⟩
  have hnd := WebXRAR.nodup_of_nodup_ref s.cats hd
  have he := WebXRAR.removeObject_eq_erase c s.cats hd hc
  refine ⟨_, hok, he, ?_, ?_, ?_, ?_, rfl⟩
  · show c ∉ WebXRAR.removeObject c s.cats
    rw [he]
    exact fun h => ((List.Nodup.mem_erase_iff hnd).mp h).1 rfl
  · intro d hd1 hd2
    show d ∈ WebXRAR.removeObject c s.cats
    rw [he]
    exact (List.mem_erase_of_ne hd2).mpr hd1
  · show (WebXRAR.removeObject c s.cats).Sublist s.cats
    rw [he]
    exact List.erase_sublist c s.cats
  · show (WebXRAR.removeObject c s.cats).length + 1 = s.cats.length
    rw [he, List.length_erase_of_mem hc]
    have := List.length_pos_of_mem hc
    omega

/-- Witness of `catch_removes_hit_cat`: the sample instance in play, a tap
hitting its second cat. -/
theorem catch_removes_hit_cat_witness :
    WebXRAR.samplePlaying.gameState.isPlaying = true ∧
    WebXRAR.samplePlaying.renderer = true ∧
    WebXRAR.samplePlaying.camera = true ∧
    WebXRAR.samplePlaying.scene.isSome = true ∧
    (WebXRAR.samplePlaying.cats.map WebXRAR.Cat.ref).Nodup ∧
    WebXRAR.sampleCat 1 ∈ WebXRAR.samplePlaying.cats ∧
    ((∃ r, WebXRAR.onTap [WebXRAR.sampleCat 1, WebXRAR.sampleCat 0] WebXRAR.samplePlaying
          = Except.ok r ∧
      r.cats = WebXRAR.samplePlaying.cats.erase (WebXRAR.sampleCat 1) ∧
      WebXRAR.sampleCat 1 ∉ r.cats ∧
      (∀ d ∈ WebXRAR.samplePlaying.cats, d ≠ WebXRAR.sampleCat 1 → d ∈ r.cats) ∧
      r.cats.Sublist WebXRAR.samplePlaying.cats ∧
      r.cats.length + 1 = WebXRAR.samplePlaying.cats.length ∧
      r.gameState.score = WebXRAR.samplePlaying.gameState.score + 1) ∧
     WebXRAR.settle (WebXRAR.onTap [] WebXRAR.sampleState) = WebXRAR.sampleState) :=
  ⟨rfl, rfl, rfl, rfl, by simp [WebXRAR.samplePlaying, WebXRAR.sampleCat],
   by simp [WebXRAR.samplePlaying],
   catch_removes_hit_cat (WebXRAR.sampleCat 1) [WebXRAR.sampleCat 0]
     WebXRAR.samplePlaying WebXRAR.sampleState rfl rfl rfl rfl
     (by simp [WebXRAR.samplePlaying, WebXRAR.sampleCat])
     (by simp [WebXRAR.samplePlaying])⟩

/-- C4 (hide cycle), as the code has it.  When `startHiding` runs in a tick of
`updateCatPosition` (the session is playing, the cat is shown and not hiding,
and the draw is below 0.05) and only such ticks follow, the cat is hiding with
`moveSpeed` 0.05 after that tick and after each of the next 58, with the timer
at 59, 58, ..., 1; the 59th tick after it, the 60th of the episode, resets
`isHiding` to false and `moveSpeed` to 0.02. -/
theorem hide_cycle_sixty_ticks (rand : Nat → ℚ) (s : Main.State) (cat : Main.ArCat)
    (hp : s.gameState.isPlaying = true) (hc : s.dom.arCat = some cat)
    (hcv : cat.hidden = false) (hh : s.catMovement.isHiding = false)
    (hd : rand s.randCalls < 5 / 100) :
    (∀ k : Nat, k ≤ 58 →
      ((Main.updateCatPosition rand)^[k + 1] s).catMovement.isHiding = true ∧
      ((Main.updateCatPosition rand)^[k + 1] s).catMovement.hideTimer = 59 - (k : Int) ∧
      ((Main.updateCatPosition rand)^[k + 1] s).catMovement.moveSpeed = 5 / 100) ∧
    ((Main.updateCatPosition rand)^[60] s).catMovement.isHiding = false ∧
    ((Main.updateCatPosition rand)^[60] s).catMovement.moveSpeed = 2 / 100 :=
  Main.hide_cycle_run rand s ⟨hp, cat, hc, hcv⟩ hh hd

/-- Witness of `hide_cycle_sixty_ticks`: the sample session, every draw 0. -/
theorem hide_cycle_sixty_ticks_witness :
    Main.sampleSession.gameState.isPlaying = true ∧
    Main.sampleSession.dom.arCat = some { hidden := false, left := none, top := none } ∧
    (({ hidden := false, left := none, top := none } : Main.ArCat).hidden = false) ∧
    Main.sampleSession.catMovement.isHiding = false ∧
    ((fun _ => 0 : Nat → ℚ) Main.sampleSession.randCalls < 5 / 100) ∧
    ((∀ k : Nat, k ≤ 58 →
      ((Main.updateCatPosition (fun _ => 0))^[k + 1] Main.sampleSession).catMovement.isHiding
        = true ∧
      ((Main.updateCatPosition (fun _ => 0))^[k + 1] Main.sampleSession).catMovement.hideTimer
        = 59 - (k : Int) ∧
      ((Main.updateCatPosition (fun _ => 0))^[k + 1] Main.sampleSession).catMovement.moveSpeed
        = 5 / 100) ∧
    ((Main.updateCatPosition (fun _ => 0))^[60] Main.sampleSession).catMovement.isHiding
      = false ∧
    ((Main.updateCatPosition (fun _ => 0))^[60] Main.sampleSession).catMovement.moveSpeed
      = 2 / 100) :=
  ⟨rfl, rfl, rfl, rfl, by norm_num,
   hide_cycle_sixty_ticks (fun _ => 0) Main.sampleSession
     { hidden := false, left := none, top := none } rfl rfl rfl rfl (by norm_num)⟩

/-- C4 as stated fails.  On the sample session with every draw 0 the cat is
not hiding before the first tick and is hiding after it, so `startHiding` runs
in that tick, call it t; after the 60th tick, which is tick t+59, `isHiding`
is already false and `moveSpeed` is 0.02, where the claim has the cat hiding
after tick t+59 and the reset in tick t+60. -/
theorem hide_cycle_counterexample :
    Main.sampleSession.catMovement.isHiding = false ∧
    ((Main.updateCatPosition (fun _ => 0))^[1] Main.sampleSession).catMovement.isHiding
      = true ∧
    ((Main.updateCatPosition (fun _ => 0))^[60] Main.sampleSession).catMovement.isHiding
      = false ∧
    ((Main.updateCatPosition (fun _ => 0))^[60] Main.sampleSession).catMovement.moveSpeed
      = 2 / 100 ∧
    ¬ (∀ k : Nat, 1 ≤ k → k ≤ 59 →
      ((Main.updateCatPosition (fun _ => 0))^[k + 1] Main.sampleSession).catMovement.isHiding
        = true) := by
  have h := Main.hide_cycle_run (fun _ => 0) Main.sampleSession
    ⟨rfl, { hidden := false, left := none, top := none }, rfl, rfl⟩ rfl (by norm_num)
  refine ⟨rfl, (h.1 0 (by omega)).1, h.2.1, h.2.2, fun hall => ?_⟩
  have h1 := hall 59 (by omega) (by omega)
  simp only [Nat.reduceAdd] at h1
  exact Bool.false_ne_true (h.2.1.symm.trans h1)

/-- C5 (retarget), as the code has it, over exact real arithmetic.  On a
playing state with the cat shown and not hiding, whose target is less than 2
away from the current position, the distance being the exact real square
root, a tick of `updateCatPosition` whose first draw is at least 0.05, so that
no hide episode starts, leaves the current position unchanged and replaces the
target by the point drawn next, both of whose coordinates lie in [10, 90]. -/
theorem retarget_when_close (rand : Nat → ℚ) (s : Main.State) (cat : Main.ArCat)
    (hp : s.gameState.isPlaying = true) (hc : s.dom.arCat = some cat)
    (hcv : cat.hidden = false) (hh : s.catMovement.isHiding = false)
    (hdist : Real.sqrt
      (((s.catMovement.targetX - s.catMovement.currentX)
          * (s.catMovement.targetX - s.catMovement.currentX)
        + (s.catMovement.targetY - s.catMovement.currentY)
          * (s.catMovement.targetY - s.catMovement.currentY) : ℚ) : ℝ) < 2)
    (hr : ∀ i, 0 ≤ rand i ∧ rand i < 1)
    (hd : 5 / 100 ≤ rand s.randCalls) :
    (Main.updateCatPosition rand s).catMovement.currentX = s.catMovement.currentX ∧
    (Main.updateCatPosition rand s).catMovement.currentY = s.catMovement.currentY ∧
    (Main.updateCatPosition rand s).catMovement.targetX = 10 + rand (s.randCalls + 1) * 80 ∧
    (Main.updateCatPosition rand s).catMovement.targetY = 10 + rand (s.randCalls + 2) * 80 ∧
    10 ≤ (Main.updateCatPosition rand s).catMovement.targetX ∧
    (Main.updateCatPosition rand s).catMovement.targetX ≤ 90 ∧
    10 ≤ (Main.updateCatPosition rand s).catMovement.targetY ∧
    (Main.updateCatPosition rand s).catMovement.targetY ≤ 90 := by
  have h := Main.tick_retarget rand s ⟨hp, cat, hc, hcv⟩ hh (not_lt.mpr hd)
    ((sqrt_lt_two_iff _).mp hdist)
  have h1 := hr (s.randCalls + 1)
  have h2 := hr (s.randCalls + 2)
  rw [h]
  refine ⟨rfl, rfl, rfl, rfl, ?_, ?_, ?_, ?_⟩ <;> dsimp only <;> linarith

/-- Witness of `retarget_when_close`: the sample session, at (50, 50) and
heading for (50, 50.5), with every draw 1/2. -/
theorem retarget_when_close_witness :
    Main.sampleSession.gameState.isPlaying = true ∧
    Main.sampleSession.dom.arCat = some { hidden := false, left := none, top := none } ∧
    (({ hidden := false, left := none, top := none } : Main.ArCat).hidden = false) ∧
    Main.sampleSession.catMovement.isHiding = false ∧
    Real.sqrt
      (((Main.sampleSession.catMovement.targetX - Main.sampleSession.catMovement.currentX)
          * (Main.sampleSession.catMovement.targetX - Main.sampleSession.catMovement.currentX)
        + (Main.sampleSession.catMovement.targetY - Main.sampleSession.catMovement.currentY)
          * (Main.sampleSession.catMovement.targetY - Main.sampleSession.catMovement.currentY)
          : ℚ) : ℝ) < 2 ∧
    (∀ i : Nat, 0 ≤ (fun _ => 1 / 2 : Nat → ℚ) i ∧ (fun _ => 1 / 2 : Nat → ℚ) i < 1) ∧
    (5 / 100 ≤ (fun _ => 1 / 2 : Nat → ℚ) Main.sampleSession.randCalls) ∧
    ((Main.updateCatPosition (fun _ => 1 / 2) Main.sampleSession).catMovement.currentX
        = Main.sampleSession.catMovement.currentX ∧
     (Main.updateCatPosition (fun _ => 1 / 2) Main.sampleSession).catMovement.currentY
        = Main.sampleSession.catMovement.currentY ∧
     (Main.updateCatPosition (fun _ => 1 / 2) Main.sampleSession).catMovement.targetX
        = 10 + (fun _ => 1 / 2 : Nat → ℚ) (Main.sampleSession.randCalls + 1) * 80 ∧
     (Main.updateCatPosition (fun _ => 1 / 2) Main.sampleSession).catMovement.targetY
        = 10 + (fun _ => 1 / 2 : Nat → ℚ) (Main.sampleSession.randCalls + 2) * 80 ∧
     10 ≤ (Main.updateCatPosition (fun _ => 1 / 2) Main.sampleSession).catMovement.targetX ∧
     (Main.updateCatPosition (fun _ => 1 / 2) Main.sampleSession).catMovement.targetX ≤ 90 ∧
     10 ≤ (Main.updateCatPosition (fun _ => 1 / 2) Main.sampleSession).catMovement.targetY ∧
     (Main.updateCatPosition (fun _ => 1 / 2) Main.sampleSession).catMovement.targetY ≤ 90) :=
  ⟨rfl, rfl, rfl, rfl,
   (sqrt_lt_two_iff _).mpr (by norm_num [Main.sampleSession]),
   fun _ => by norm_num, by norm_num,
   retarget_when_close (fun _ => 1 / 2) Main.sampleSession
     { hidden := false, left := none, top := none } rfl rfl rfl rfl
     ((sqrt_lt_two_iff _).mpr (by norm_num [Main.sampleSession]))
     (fun _ => by norm_num) (by norm_num)⟩

/-- C5 as stated fails.  The sample session is playing, the cat is shown and
not hiding, at (50, 50) and heading for (50, 50.5), which is 0.5 away; every
draw is 0, which lies in [0, 1).  The tick starts a hide episode instead of
retargeting: the target becomes (0, -10), outside [10, 90] on both axes. -/
theorem retarget_counterexample :
    Main.sampleSession.gameState.isPlaying = true ∧
    Main.sampleSession.dom.arCat = some { hidden := false, left := none, top := none } ∧
    Main.sampleSession.catMovement.isHiding = false ∧
    (Main.sampleSession.catMovement.currentX, Main.sampleSession.catMovement.currentY)
      = (50, 50) ∧
    (Main.sampleSession.catMovement.targetX, Main.sampleSession.catMovement.targetY)
      = (50, 101 / 2) ∧
    (∀ i : Nat, 0 ≤ (fun _ => 0 : Nat → ℚ) i ∧ (fun _ => 0 : Nat → ℚ) i < 1) ∧
    (Main.updateCatPosition (fun _ => 0) Main.sampleSession).catMovement.targetX = 0 ∧
    (Main.updateCatPosition (fun _ => 0) Main.sampleSession).catMovement.targetY = -10 ∧
    ¬ (10 ≤ (Main.updateCatPosition (fun _ => 0) Main.sampleSession).catMovement.targetX) ∧
    ¬ (10 ≤ (Main.updateCatPosition (fun _ => 0) Main.sampleSession).catMovement.targetY) := by
  have hx : (Main.updateCatPosition (fun _ => 0) Main.sampleSession).catMovement.targetX = 0 := by
    simp [Main.updateCatPosition, Main.sampleSession, Main.initialState, Main.sampleDom,
      Main.maybeStartHiding, Main.startHiding]
  have hy : (Main.updateCatPosition (fun _ => 0) Main.sampleSession).catMovement.targetY
      = -10 := by
    simp [Main.updateCatPosition, Main.sampleSession, Main.initialState, Main.sampleDom,
      Main.maybeStartHiding, Main.startHiding]
  refine ⟨rfl, rfl, rfl, rfl, rfl, fun _ => by norm_num, hx, hy, ?_, ?_⟩
  · rw [hx]; norm_num
  · rw [hy]; norm_num

/-- C6 (spawn cadence).  Take draws in [0, 1) and an instance with no live
cats.  If its scene exists, `startGame` returns.  Whenever `startGame` returns,
it has stored a spawn handle; each of the next three firings of that handle
adds one or two cats, and after the third the instance has between 4 and 8
live cats.  Every call of `spawnCats` returns when the scene exists, and every
call that returns has added exactly one or two cats. -/
theorem spawn_cadence (rand : Nat → ℚ) (hr : ∀ i, 0 ≤ rand i ∧ rand i < 1)
    (s : WebXRAR.State) (hcats : s.cats = []) :
    (s.scene.isSome = true → ∃ s0, WebXRAR.startGame rand s = Except.ok s0) ∧
    (∀ s0, WebXRAR.startGame rand s = Except.ok s0 →
      ∃ h, s0.spawnInterval = some h ∧
        (∀ n, n < 3 →
          ((WebXRAR.fireInterval rand h)^[n + 1] s0).cats.length
              = ((WebXRAR.fireInterval rand h)^[n] s0).cats.length + 1 ∨
          ((WebXRAR.fireInterval rand h)^[n + 1] s0).cats.length
              = ((WebXRAR.fireInterval rand h)^[n] s0).cats.length + 2) ∧
        4 ≤ ((WebXRAR.fireInterval rand h)^[3] s0).cats.length ∧
        ((WebXRAR.fireInterval rand h)^[3] s0).cats.length ≤ 8) ∧
    (∀ z : WebXRAR.State,
      (z.scene.isSome = true → ∃ r, WebXRAR.spawnCats rand z = Except.ok r) ∧
      (∀ r, WebXRAR.spawnCats rand z = Except.ok r →
        r.cats.length = z.cats.length + 1 ∨ r.cats.length = z.cats.length + 2)) := by
  refine ⟨fun hsc => ⟨_, WebXRAR.startGame_ok rand s hsc⟩, ?_, ?_⟩
  · intro s0 hs0
    obtain ⟨h, hst, hsp, hlen⟩ := WebXRAR.spawn_start rand hr s s0 hs0
    rw [hcats] at hlen
    have hit : ∀ n, WebXRAR.Spawning h ((WebXRAR.fireInterval rand h)^[n] s0) := by
      intro n
      induction n with
      | zero => exact hsp
      | succ n ih =>
        rw [Function.iterate_succ_apply']
        exact (WebXRAR.spawn_fire rand hr h _ ih).1
    have hstep : ∀ n,
        ((WebXRAR.fireInterval rand h)^[n + 1] s0).cats.length
            = ((WebXRAR.fireInterval rand h)^[n] s0).cats.length + 1 ∨
        ((WebXRAR.fireInterval rand h)^[n + 1] s0).cats.length
            = ((WebXRAR.fireInterval rand h)^[n] s0).cats.length + 2 := by
      intro n
      rw [Function.iterate_succ_apply']
      exact (WebXRAR.spawn_fire rand hr h _ (hit n)).2
    have h1 := hstep 0
    have h2 := hstep 1
    have h3 := hstep 2
    simp only [Nat.reduceAdd, Function.iterate_zero, id_eq, List.length_nil] at h1 h2 h3 hlen
    refine ⟨h, hst, fun n _ => hstep n, ?_, ?_⟩ <;> omega
  · intro z
    exact ⟨fun hsc => by
        obtain ⟨r, hr1, -, -⟩ := WebXRAR.spawnCats_ok rand z hsc
        exact ⟨r, hr1⟩,
      fun r hz => (WebXRAR.spawnCats_spec rand hr z r hz).2.2⟩

/-- Witness of `spawn_cadence`: the sample instance with its AR session
started and no cats yet, every draw 0. -/
theorem spawn_cadence_witness :
    (∀ i : Nat, 0 ≤ (fun _ => 0 : Nat → ℚ) i ∧ (fun _ => 0 : Nat → ℚ) i < 1) ∧
    WebXRAR.sampleState.cats = [] ∧
    WebXRAR.sampleState.scene.isSome = true ∧
    WebXRAR.startGame (fun _ => 0) WebXRAR.sampleState
      = Except.ok (WebXRAR.settle (WebXRAR.startGame (fun _ => 0) WebXRAR.sampleState)) ∧
    (∃ h, (WebXRAR.settle (WebXRAR.startGame (fun _ => 0) WebXRAR.sampleState)).spawnInterval
        = some h ∧
      (∀ n, n < 3 →
        ((WebXRAR.fireInterval (fun _ => 0) h)^[n + 1]
          (WebXRAR.settle (WebXRAR.startGame (fun _ => 0) WebXRAR.sampleState))).cats.length
            = ((WebXRAR.fireInterval (fun _ => 0) h)^[n]
          (WebXRAR.settle (WebXRAR.startGame (fun _ => 0) WebXRAR.sampleState))).cats.length
              + 1 ∨
        ((WebXRAR.fireInterval (fun _ => 0) h)^[n + 1]
          (WebXRAR.settle (WebXRAR.startGame (fun _ => 0) WebXRAR.sampleState))).cats.length
            = ((WebXRAR.fireInterval (fun _ => 0) h)^[n]
          (WebXRAR.settle (WebXRAR.startGame (fun _ => 0) WebXRAR.sampleState))).cats.length
              + 2) ∧
      4 ≤ ((WebXRAR.fireInterval (fun _ => 0) h)^[3]
        (WebXRAR.settle (WebXRAR.startGame (fun _ => 0) WebXRAR.sampleState))).cats.length ∧
      ((WebXRAR.fireInterval (fun _ => 0) h)^[3]
        (WebXRAR.settle (WebXRAR.startGame (fun _ => 0) WebXRAR.sampleState))).cats.length
          ≤ 8) :=
  ⟨fun _ => by norm_num, rfl, rfl, WebXRAR.startGame_ok _ _ rfl,
   (spawn_cadence (fun _ => 0) (fun _ => by norm_num) WebXRAR.sampleState rfl).2.1 _
     (WebXRAR.startGame_ok _ _ rfl)⟩

/-- C7 (end to end, `main.js`), as the code has it.  Let `startGame` be
invoked on a page with no interval active.  It returns whenever the cat
element or the canvas is missing or a WebGL context can be made.  Whenever it
returns, let `es` be any sequence of countdown ticks, handled captures and
movement ticks holding exactly 9 countdown ticks and `k` captures, and let the
tenth countdown tick follow: then the final-score display shows `k`, the
result screen is shown, the game screen is hidden, `isPlaying` is false,
`timeLeft` is 0 and no interval of any kind is active. -/
theorem end_to_end (rand : Nat → ℚ) (s : Main.State) (es : List Main.SessionEvent)
    (k : Nat) (hclean : s.sched.intervals = [])
    (hticks : es.count Main.SessionEvent.tick = 9)
    (hk : es.count Main.SessionEvent.catch = k) :
    ((s.dom.arCat = none ∨ s.dom.catCanvas = false ∨ s.dom.webgl = true) →
      ∃ s0, Main.startGame rand s = Except.ok s0) ∧
    (∀ s0, Main.startGame rand s = Except.ok s0 →
      ∃ h, s0.gameState.timerInterval = some h ∧
        (Main.sessionRun rand h (es ++ [Main.SessionEvent.tick]) s0).dom.finalScoreDisplay = toString k ∧
        (Main.sessionRun rand h (es ++ [Main.SessionEvent.tick]) s0).dom.resultScreen = false ∧
        (Main.sessionRun rand h (es ++ [Main.SessionEvent.tick]) s0).dom.gameScreen = true ∧
        (Main.sessionRun rand h (es ++ [Main.SessionEvent.tick]) s0).gameState.isPlaying = false ∧
        (Main.sessionRun rand h (es ++ [Main.SessionEvent.tick]) s0).gameState.timeLeft = 0 ∧
        (Main.sessionRun rand h (es ++ [Main.SessionEvent.tick]) s0).sched.intervals = []) := by
  refine ⟨fun hz => ⟨_, Main.startGame_returns rand s hz⟩, fun s0 hok => ?_⟩
  obtain ⟨h, hin⟩ := Main.inSession_startGame rand s s0 hok hclean
  have hrun := Main.inSession_run rand h es 0 0 _ hin (by omega)
  rw [hticks, hk] at hrun
  simp only [Nat.zero_add] at hrun
  have hlast := Main.inSession_last rand h k _ hrun
  have e : Main.sessionRun rand h (es ++ [Main.SessionEvent.tick]) s0
      = Main.fireInterval rand h (Main.sessionRun rand h es s0) := by
    simp [Main.sessionRun, Main.sessionStep, List.foldl_append]
  refine ⟨h, hin.stored, ?_⟩
  rw [e]
  exact hlast

/-- Witness of `end_to_end`: the sample page as loaded, three catches among the
first nine ticks, every draw 0. -/
theorem end_to_end_witness :
    (Main.initialState Main.sampleDom).sched.intervals = [] ∧
    Main.sampleEvents.count Main.SessionEvent.tick = 9 ∧
    Main.sampleEvents.count Main.SessionEvent.catch = 3 ∧
    (Main.initialState Main.sampleDom).dom.webgl = true ∧
    Main.startGame (fun _ => 0) (Main.initialState Main.sampleDom)
      = Except.ok Main.sampleStarted ∧
    (∃ h, Main.sampleStarted.gameState.timerInterval = some h ∧
        (Main.sessionRun (fun _ => 0) h (Main.sampleEvents ++ [Main.SessionEvent.tick]) Main.sampleStarted).dom.finalScoreDisplay = toString 3 ∧
        (Main.sessionRun (fun _ => 0) h (Main.sampleEvents ++ [Main.SessionEvent.tick]) Main.sampleStarted).dom.resultScreen = false ∧
        (Main.sessionRun (fun _ => 0) h (Main.sampleEvents ++ [Main.SessionEvent.tick]) Main.sampleStarted).dom.gameScreen = true ∧
        (Main.sessionRun (fun _ => 0) h (Main.sampleEvents ++ [Main.SessionEvent.tick]) Main.sampleStarted).gameState.isPlaying = false ∧
        (Main.sessionRun (fun _ => 0) h (Main.sampleEvents ++ [Main.SessionEvent.tick]) Main.sampleStarted).gameState.timeLeft = 0 ∧
        (Main.sessionRun (fun _ => 0) h (Main.sampleEvents ++ [Main.SessionEvent.tick]) Main.sampleStarted).sched.intervals = []) :=
  ⟨rfl, by decide, by decide, rfl, Main.startGame_returns _ _ (Or.inr (Or.inr rfl)),
   (end_to_end (fun _ => 0) (Main.initialState Main.sampleDom) Main.sampleEvents 3 rfl
     (by decide) (by decide)).2 Main.sampleStarted
     (Main.startGame_returns _ _ (Or.inr (Or.inr rfl)))⟩

/-- C7 as stated fails.  On the sample session, whose countdown is registered
under handle 2 and whose movement loop under handle 1, `startGame` returns and
stores the new countdown handle 4.  Nine ticks of it with no catch, then the
tenth: the final-score display shows 0, the result screen is shown, the game
screen is hidden and `isPlaying` is false, but the countdown under handle 2
and the movement loop under handle 1 are still active. -/
theorem end_to_end_counterexample :
    Main.startGame (fun _ => 0) Main.sampleSession = Except.ok Main.sampleRestarted ∧
    Main.sampleRestarted.gameState.timerInterval = some 4 ∧
    (List.replicate 9 Main.SessionEvent.tick).count Main.SessionEvent.tick = 9 ∧
    (List.replicate 9 Main.SessionEvent.tick).count Main.SessionEvent.catch = 0 ∧
    (Main.sessionRun (fun _ => 0) 4 (List.replicate 9 Main.SessionEvent.tick ++ [Main.SessionEvent.tick]) Main.sampleRestarted).dom.finalScoreDisplay = toString 0 ∧
    (Main.sessionRun (fun _ => 0) 4 (List.replicate 9 Main.SessionEvent.tick ++ [Main.SessionEvent.tick]) Main.sampleRestarted).dom.resultScreen = false ∧
    (Main.sessionRun (fun _ => 0) 4 (List.replicate 9 Main.SessionEvent.tick ++ [Main.SessionEvent.tick]) Main.sampleRestarted).dom.gameScreen = true ∧
    (Main.sessionRun (fun _ => 0) 4 (List.replicate 9 Main.SessionEvent.tick ++ [Main.SessionEvent.tick]) Main.sampleRestarted).gameState.isPlaying = false ∧
    (Main.sessionRun (fun _ => 0) 4 (List.replicate 9 Main.SessionEvent.tick ++ [Main.SessionEvent.tick]) Main.sampleRestarted).sched.lookup 2 = some Main.Callback.countdown ∧
    (Main.sessionRun (fun _ => 0) 4 (List.replicate 9 Main.SessionEvent.tick ++ [Main.SessionEvent.tick]) Main.sampleRestarted).sched.lookup 1 = some Main.Callback.movement ∧
    (Main.sessionRun (fun _ => 0) 4 (List.replicate 9 Main.SessionEvent.tick ++ [Main.SessionEvent.tick]) Main.sampleRestarted).sched.intervals ≠ [] := by
  have hr : Main.sampleRestarted =
      { Main.sampleSession with
        gameState :=
          { score := 0, timeLeft := 10, isPlaying := true, timerInterval := some 4
            spawnInterval := none }
        catMovement :=
          { targetX := 10, targetY := 10, currentX := 50, currentY := 50
            isHiding := false, hideTimer := 0, moveSpeed := 2 / 100 }
        movementInterval := some 3
        stlLoading := 2
        randCalls := 2
        dom := { Main.sampleSession.dom with scoreDisplay := "0", timerDisplay := "10" }
        sched :=
          { lastHandle := 4
            intervals := [(4, Main.Callback.countdown), (3, Main.Callback.movement),
              (2, Main.Callback.countdown), (1, Main.Callback.movement)]
            timeouts := [], frames := [] } } := by
    simp [Main.sampleRestarted, Main.settle, Main.startGame, Main.showArCat, Main.init3DCat,
      Main.resetGame, Main.startMovement, Main.startTimer, Main.setNewTarget,
      Main.sampleSession, Main.initialState, Main.sampleDom, Scheduler.setInterval,
      List.filter_cons]
  refine ⟨Main.startGame_returns _ _ (Or.inr (Or.inr rfl)), by rw [hr], by decide,
    by decide, ?_, ?_, ?_, ?_, ?_, ?_, ?_⟩ <;>
  · rw [hr]
    simp [Main.sessionRun, Main.sessionStep, List.replicate, Main.fireInterval,
      Main.timerTick, Main.endGame, Main.stop3DCat, Scheduler.lookup,
      Scheduler.clearInterval, Scheduler.cancelAnimationFrame, truthy,
      Main.sampleSession, Main.initialState, Main.sampleDom, List.filter_cons,
      List.find?_cons]

/-- C8 (single timer), as the code has it.  Take any sequence of events from
the freshly loaded page, or from a fresh instance of `WebXRAR`, in which
`startGame` is never invoked while a session is playing.  In the state
reached, every active countdown interval is the one stored in
`gameState.timerInterval`, every active movement interval (`main.js`) is the
one stored in `movementInterval`, every active spawn interval (`WebXRAR`) is
the one stored in `spawnInterval`; so at most one of each kind is active, and
the table holds at most one entry of each kind. -/
theorem single_timer_when_started_idle (rand : Nat → ℚ) (dom : Main.Dom)
    (ops : List Main.Op) (xdom : WebXRAR.Dom) (now : ℚ) (xops : List WebXRAR.Op)
    (hm : Main.StartsWhenIdle rand ops (Main.initialState dom))
    (hx : WebXRAR.StartsWhenIdle rand xops (WebXRAR.initialState xdom now)) :
    ((∀ h, (Main.run rand ops (Main.initialState dom)).sched.lookup h = some Main.Callback.countdown →
        (Main.run rand ops (Main.initialState dom)).gameState.timerInterval = some h) ∧
     (∀ h, (Main.run rand ops (Main.initialState dom)).sched.lookup h = some Main.Callback.movement →
        (Main.run rand ops (Main.initialState dom)).movementInterval = some h) ∧
     (∀ h1 h2, (Main.run rand ops (Main.initialState dom)).sched.lookup h1 = some Main.Callback.countdown →
        (Main.run rand ops (Main.initialState dom)).sched.lookup h2 = some Main.Callback.countdown → h1 = h2) ∧
     (∀ h1 h2, (Main.run rand ops (Main.initialState dom)).sched.lookup h1 = some Main.Callback.movement →
        (Main.run rand ops (Main.initialState dom)).sched.lookup h2 = some Main.Callback.movement → h1 = h2) ∧
     (Main.run rand ops (Main.initialState dom)).sched.intervals.countP
        (fun e => e.2 == Main.Callback.countdown) ≤ 1 ∧
     (Main.run rand ops (Main.initialState dom)).sched.intervals.countP
        (fun e => e.2 == Main.Callback.movement) ≤ 1) ∧
    ((∀ h, (WebXRAR.run rand xops (WebXRAR.initialState xdom now)).sched.lookup h = some WebXRAR.Callback.countdown →
        (WebXRAR.run rand xops (WebXRAR.initialState xdom now)).gameState.timerInterval = some h) ∧
     (∀ h, (WebXRAR.run rand xops (WebXRAR.initialState xdom now)).sched.lookup h = some WebXRAR.Callback.spawn →
        (WebXRAR.run rand xops (WebXRAR.initialState xdom now)).spawnInterval = some h) ∧
     (∀ h1 h2, (WebXRAR.run rand xops (WebXRAR.initialState xdom now)).sched.lookup h1 = some WebXRAR.Callback.countdown →
        (WebXRAR.run rand xops (WebXRAR.initialState xdom now)).sched.lookup h2 = some WebXRAR.Callback.countdown → h1 = h2) ∧
     (∀ h1 h2, (WebXRAR.run rand xops (WebXRAR.initialState xdom now)).sched.lookup h1 = some WebXRAR.Callback.spawn →
        (WebXRAR.run rand xops (WebXRAR.initialState xdom now)).sched.lookup h2 = some WebXRAR.Callback.spawn → h1 = h2) ∧
     (WebXRAR.run rand xops (WebXRAR.initialState xdom now)).sched.intervals.countP
        (fun e => e.2 == WebXRAR.Callback.countdown) ≤ 1 ∧
     (WebXRAR.run rand xops (WebXRAR.initialState xdom now)).sched.intervals.countP
        (fun e => e.2 == WebXRAR.Callback.spawn) ≤ 1) :=
  ⟨Main.singleTimer_lookup _
    (Main.singleTimer_run rand ops _ (Main.singleTimer_of_nil _ rfl) hm),
   WebXRAR.xr_singleTimer_lookup _
    (WebXRAR.xr_singleTimer_run rand xops _ (WebXRAR.xr_singleTimer_of_nil _ rfl) hx)⟩

/-- Witness of `single_timer_when_started_idle`: on the sample page a game is
started, a cat caught and the page left by the back-to-top button; on the
sample instance the AR session is started, a game started and a tap missed. -/
theorem single_timer_when_started_idle_witness :
    Main.StartsWhenIdle (fun _ => 0) Main.sampleOps (Main.initialState Main.sampleDom) ∧
    WebXRAR.StartsWhenIdle (fun _ => 0) WebXRAR.sampleOps
      (WebXRAR.initialState WebXRAR.sampleDom 0) ∧
    ((∀ h, (Main.run (fun _ => 0) Main.sampleOps (Main.initialState Main.sampleDom)).sched.lookup h = some Main.Callback.countdown →
        (Main.run (fun _ => 0) Main.sampleOps (Main.initialState Main.sampleDom)).gameState.timerInterval = some h) ∧
     (∀ h, (Main.run (fun _ => 0) Main.sampleOps (Main.initialState Main.sampleDom)).sched.lookup h = some Main.Callback.movement →
        (Main.run (fun _ => 0) Main.sampleOps (Main.initialState Main.sampleDom)).movementInterval = some h) ∧
     (∀ h1 h2, (Main.run (fun _ => 0) Main.sampleOps (Main.initialState Main.sampleDom)).sched.lookup h1 = some Main.Callback.countdown →
        (Main.run (fun _ => 0) Main.sampleOps (Main.initialState Main.sampleDom)).sched.lookup h2 = some Main.Callback.countdown → h1 = h2) ∧
     (∀ h1 h2, (Main.run (fun _ => 0) Main.sampleOps (Main.initialState Main.sampleDom)).sched.lookup h1 = some Main.Callback.movement →
        (Main.run (fun _ => 0) Main.sampleOps (Main.initialState Main.sampleDom)).sched.lookup h2 = some Main.Callback.movement → h1 = h2) ∧
     (Main.run (fun _ => 0) Main.sampleOps (Main.initialState Main.sampleDom)).sched.intervals.countP
        (fun e => e.2 == Main.Callback.countdown) ≤ 1 ∧
     (Main.run (fun _ => 0) Main.sampleOps (Main.initialState Main.sampleDom)).sched.intervals.countP
        (fun e => e.2 == Main.Callback.movement) ≤ 1) ∧
    ((∀ h, (WebXRAR.run (fun _ => 0) WebXRAR.sampleOps (WebXRAR.initialState WebXRAR.sampleDom 0)).sched.lookup h = some WebXRAR.Callback.countdown →
        (WebXRAR.run (fun _ => 0) WebXRAR.sampleOps (WebXRAR.initialState WebXRAR.sampleDom 0)).gameState.timerInterval = some h) ∧
     (∀ h, (WebXRAR.run (fun _ => 0) WebXRAR.sampleOps (WebXRAR.initialState WebXRAR.sampleDom 0)).sched.lookup h = some WebXRAR.Callback.spawn →
        (WebXRAR.run (fun _ => 0) WebXRAR.sampleOps (WebXRAR.initialState WebXRAR.sampleDom 0)).spawnInterval = some h) ∧
     (∀ h1 h2, (WebXRAR.run (fun _ => 0) WebXRAR.sampleOps (WebXRAR.initialState WebXRAR.sampleDom 0)).sched.lookup h1 = some WebXRAR.Callback.countdown →
        (WebXRAR.run (fun _ => 0) WebXRAR.sampleOps (WebXRAR.initialState WebXRAR.sampleDom 0)).sched.lookup h2 = some WebXRAR.Callback.countdown → h1 = h2) ∧
     (∀ h1 h2, (WebXRAR.run (fun _ => 0) WebXRAR.sampleOps (WebXRAR.initialState WebXRAR.sampleDom 0)).sched.lookup h1 = some WebXRAR.Callback.spawn →
        (WebXRAR.run (fun _ => 0) WebXRAR.sampleOps (WebXRAR.initialState WebXRAR.sampleDom 0)).sched.lookup h2 = some WebXRAR.Callback.spawn → h1 = h2) ∧
     (WebXRAR.run (fun _ => 0) WebXRAR.sampleOps (WebXRAR.initialState WebXRAR.sampleDom 0)).sched.intervals.countP
        (fun e => e.2 == WebXRAR.Callback.countdown) ≤ 1 ∧
     (WebXRAR.run (fun _ => 0) WebXRAR.sampleOps (WebXRAR.initialState WebXRAR.sampleDom 0)).sched.intervals.countP
        (fun e => e.2 == WebXRAR.Callback.spawn) ≤ 1) :=
  ⟨Main.sampleOps_idle, WebXRAR.xr_sampleOps_idle,
   single_timer_when_started_idle (fun _ => 0) Main.sampleDom Main.sampleOps
     WebXRAR.sampleDom 0 WebXRAR.sampleOps Main.sampleOps_idle WebXRAR.xr_sampleOps_idle⟩

/-- C8 as stated fails.  On the sample page as loaded, `startGame` twice in a
row leaves two countdown intervals active, under the handles 2 and 4, and two
movement intervals, under 1 and 3; only 4 and 3 are stored.  On the sample
instance with its AR session started, `startGame` twice in a row leaves two
countdown intervals (1 and 3) and two spawn intervals (2 and 4) active; only
3 and 4 are stored. -/
theorem single_timer_counterexample :
    ((Main.run (fun _ => 0) [Main.Op.startGameClick, Main.Op.startGameClick]
        (Main.initialState Main.sampleDom)).sched.lookup 2 = some Main.Callback.countdown ∧
     (Main.run (fun _ => 0) [Main.Op.startGameClick, Main.Op.startGameClick]
        (Main.initialState Main.sampleDom)).sched.lookup 4 = some Main.Callback.countdown ∧
     (Main.run (fun _ => 0) [Main.Op.startGameClick, Main.Op.startGameClick]
        (Main.initialState Main.sampleDom)).gameState.timerInterval = some 4 ∧
     (Main.run (fun _ => 0) [Main.Op.startGameClick, Main.Op.startGameClick]
        (Main.initialState Main.sampleDom)).sched.lookup 1 = some Main.Callback.movement ∧
     (Main.run (fun _ => 0) [Main.Op.startGameClick, Main.Op.startGameClick]
        (Main.initialState Main.sampleDom)).sched.lookup 3 = some Main.Callback.movement ∧
     (Main.run (fun _ => 0) [Main.Op.startGameClick, Main.Op.startGameClick]
        (Main.initialState Main.sampleDom)).movementInterval = some 3) ∧
    ((WebXRAR.run (fun _ => 0) [WebXRAR.Op.startGame, WebXRAR.Op.startGame]
        WebXRAR.sampleState).sched.lookup 1 = some WebXRAR.Callback.countdown ∧
     (WebXRAR.run (fun _ => 0) [WebXRAR.Op.startGame, WebXRAR.Op.startGame]
        WebXRAR.sampleState).sched.lookup 3 = some WebXRAR.Callback.countdown ∧
     (WebXRAR.run (fun _ => 0) [WebXRAR.Op.startGame, WebXRAR.Op.startGame]
        WebXRAR.sampleState).gameState.timerInterval = some 3 ∧
     (WebXRAR.run (fun _ => 0) [WebXRAR.Op.startGame, WebXRAR.Op.startGame]
        WebXRAR.sampleState).sched.lookup 2 = some WebXRAR.Callback.spawn ∧
     (WebXRAR.run (fun _ => 0) [WebXRAR.Op.startGame, WebXRAR.Op.startGame]
        WebXRAR.sampleState).sched.lookup 4 = some WebXRAR.Callback.spawn ∧
     (WebXRAR.run (fun _ => 0) [WebXRAR.Op.startGame, WebXRAR.Op.startGame]
        WebXRAR.sampleState).spawnInterval = some 4) := by
  constructor
  · simp [Main.run, Main.step, Main.settle, Main.startGame, Main.showArCat, Main.init3DCat,
      Main.resetGame, Main.startMovement, Main.startTimer,
      Main.setNewTarget, Main.initialState, Main.sampleDom, Scheduler.setInterval,
      Scheduler.lookup, List.filter_cons, List.find?_cons]
  · simp [WebXRAR.run, WebXRAR.step, WebXRAR.startGame, WebXRAR.spawnCats, WebXRAR.numCats,
      WebXRAR.spawnLoop, WebXRAR.spawnOne, WebXRAR.createCat, WebXRAR.settle,
      WebXRAR.sampleState, WebXRAR.startARSession, WebXRAR.initialState,
      Scheduler.setInterval, Scheduler.lookup, List.filter_cons, List.find?_cons]

/-- C9, the code at the failing input.  On the sample session, which is
playing with the countdown registered under handle 2, the back-to-top handler
stops the camera track, shows the landing screen, hides the game and result
screens and cancels the movement interval (handle 1), but the countdown is
still active under handle 2 and `isPlaying` is still true; ten firings of it
later `endGame` runs and puts the result screen over the landing screen. -/
theorem back_to_top_leaves_countdown :
    Main.sampleSession.gameState.isPlaying = true ∧
    Main.sampleSession.sched.lookup 2 = some Main.Callback.countdown ∧
    (Main.backToTopClick Main.sampleSession).dom.cameraSrcObject = some [true] ∧
    (Main.backToTopClick Main.sampleSession).dom.app = false ∧
    (Main.backToTopClick Main.sampleSession).dom.gameScreen = true ∧
    (Main.backToTopClick Main.sampleSession).dom.resultScreen = true ∧
    (Main.backToTopClick Main.sampleSession).sched.lookup 1 = none ∧
    (Main.backToTopClick Main.sampleSession).sched.frames = [] ∧
    (Main.backToTopClick Main.sampleSession).sched.lookup 2
      = some Main.Callback.countdown ∧
    (Main.backToTopClick Main.sampleSession).gameState.isPlaying = true ∧
    ((Main.fireInterval (fun _ => 0) 2)^[10]
      (Main.backToTopClick Main.sampleSession)).dom.resultScreen = false ∧
    ((Main.fireInterval (fun _ => 0) 2)^[10]
      (Main.backToTopClick Main.sampleSession)).dom.app = false := by
  have hb : Main.backToTopClick Main.sampleSession =
      { Main.sampleSession with
        dom := { Main.sampleSession.dom with
          cameraSrcObject := some [true], resultScreen := true, gameScreen := true
          app := false }
        sched := { Main.sampleSession.sched with intervals := [(2, Main.Callback.countdown)] } } := by
    simp [Main.backToTopClick, Main.stop3DCat, Main.sampleSession, Main.initialState,
      Main.sampleDom, truthy, Scheduler.clearInterval, List.filter_cons]
  refine ⟨rfl, by simp [Main.sampleSession, Scheduler.lookup], ?_, ?_, ?_, ?_, ?_, ?_, ?_, ?_,
    ?_, ?_⟩
  · rw [hb]
  · rw [hb]
  · rw [hb]
  · rw [hb]
  · rw [hb]; simp [Scheduler.lookup]
  · rw [hb]; rfl
  · rw [hb]; simp [Scheduler.lookup]
  · rw [hb]; rfl
  · rw [hb]
    simp [Function.iterate_succ, Main.fireInterval, Main.timerTick, Main.endGame,
      Main.stop3DCat, Scheduler.lookup, Scheduler.clearInterval, truthy,
      Main.sampleSession, Main.initialState, Main.sampleDom, List.filter_cons]
  · rw [hb]
    simp [Function.iterate_succ, Main.fireInterval, Main.timerTick, Main.endGame,
      Main.stop3DCat, Scheduler.lookup, Scheduler.clearInterval, truthy,
      Main.sampleSession, Main.initialState, Main.sampleDom, List.filter_cons]

/-- C10 (bounds of `catMovement`).  With every draw in [0, 1), after any
sequence of direct calls of `startGame`, `updateCatPosition` and `endGame` on
the freshly loaded page, and likewise after any sequence of events of the
page, each of `targetX`, `targetY`, `currentX` and `currentY` lies in
[-10, 110]; coordinates are exact rationals. -/
theorem catMovement_within_bounds (rand : Nat → ℚ) (hr : ∀ i, 0 ≤ rand i ∧ rand i < 1)
    (dom : Main.Dom) (calls : List Main.MoveOp) (ops : List Main.Op) :
    (-10 ≤ (Main.moveRun rand calls (Main.initialState dom)).catMovement.targetX ∧
      (Main.moveRun rand calls (Main.initialState dom)).catMovement.targetX ≤ 110 ∧
     -10 ≤ (Main.moveRun rand calls (Main.initialState dom)).catMovement.targetY ∧
      (Main.moveRun rand calls (Main.initialState dom)).catMovement.targetY ≤ 110 ∧
     -10 ≤ (Main.moveRun rand calls (Main.initialState dom)).catMovement.currentX ∧
      (Main.moveRun rand calls (Main.initialState dom)).catMovement.currentX ≤ 110 ∧
     -10 ≤ (Main.moveRun rand calls (Main.initialState dom)).catMovement.currentY ∧
      (Main.moveRun rand calls (Main.initialState dom)).catMovement.currentY ≤ 110) ∧
    (-10 ≤ (Main.run rand ops (Main.initialState dom)).catMovement.targetX ∧
      (Main.run rand ops (Main.initialState dom)).catMovement.targetX ≤ 110 ∧
     -10 ≤ (Main.run rand ops (Main.initialState dom)).catMovement.targetY ∧
      (Main.run rand ops (Main.initialState dom)).catMovement.targetY ≤ 110 ∧
     -10 ≤ (Main.run rand ops (Main.initialState dom)).catMovement.currentX ∧
      (Main.run rand ops (Main.initialState dom)).catMovement.currentX ≤ 110 ∧
     -10 ≤ (Main.run rand ops (Main.initialState dom)).catMovement.currentY ∧
      (Main.run rand ops (Main.initialState dom)).catMovement.currentY ≤ 110) := by
  have h1 := Main.bounded_moveRun rand hr calls _ (Main.bounded_initialState dom)
  have h2 := Main.bounded_run rand hr ops _ (Main.bounded_initialState dom)
  exact ⟨⟨h1.targetX.1, h1.targetX.2, h1.targetY.1, h1.targetY.2, h1.currentX.1,
    h1.currentX.2, h1.currentY.1, h1.currentY.2⟩,
    ⟨h2.targetX.1, h2.targetX.2, h2.targetY.1, h2.targetY.2, h2.currentX.1,
    h2.currentX.2, h2.currentY.1, h2.currentY.2⟩⟩

/-- Witness of `catMovement_within_bounds`: every draw 1/2, on the sample page
a game started, two movement ticks and `endGame`; and the sample events of the
page. -/
theorem catMovement_within_bounds_witness :
    (∀ i : Nat, 0 ≤ (fun _ => 1 / 2 : Nat → ℚ) i ∧ (fun _ => 1 / 2 : Nat → ℚ) i < 1) ∧
    (-10 ≤ (Main.moveRun (fun _ => 1 / 2) [Main.MoveOp.startGame, Main.MoveOp.updateCatPosition, Main.MoveOp.updateCatPosition, Main.MoveOp.endGame] (Main.initialState Main.sampleDom)).catMovement.targetX ∧
      (Main.moveRun (fun _ => 1 / 2) [Main.MoveOp.startGame, Main.MoveOp.updateCatPosition, Main.MoveOp.updateCatPosition, Main.MoveOp.endGame] (Main.initialState Main.sampleDom)).catMovement.targetX ≤ 110 ∧
     -10 ≤ (Main.moveRun (fun _ => 1 / 2) [Main.MoveOp.startGame, Main.MoveOp.updateCatPosition, Main.MoveOp.updateCatPosition, Main.MoveOp.endGame] (Main.initialState Main.sampleDom)).catMovement.targetY ∧
      (Main.moveRun (fun _ => 1 / 2) [Main.MoveOp.startGame, Main.MoveOp.updateCatPosition, Main.MoveOp.updateCatPosition, Main.MoveOp.endGame] (Main.initialState Main.sampleDom)).catMovement.targetY ≤ 110 ∧
     -10 ≤ (Main.moveRun (fun _ => 1 / 2) [Main.MoveOp.startGame, Main.MoveOp.updateCatPosition, Main.MoveOp.updateCatPosition, Main.MoveOp.endGame] (Main.initialState Main.sampleDom)).catMovement.currentX ∧
      (Main.moveRun (fun _ => 1 / 2) [Main.MoveOp.startGame, Main.MoveOp.updateCatPosition, Main.MoveOp.updateCatPosition, Main.MoveOp.endGame] (Main.initialState Main.sampleDom)).catMovement.currentX ≤ 110 ∧
     -10 ≤ (Main.moveRun (fun _ => 1 / 2) [Main.MoveOp.startGame, Main.MoveOp.updateCatPosition, Main.MoveOp.updateCatPosition, Main.MoveOp.endGame] (Main.initialState Main.sampleDom)).catMovement.currentY ∧
      (Main.moveRun (fun _ => 1 / 2) [Main.MoveOp.startGame, Main.MoveOp.updateCatPosition, Main.MoveOp.updateCatPosition, Main.MoveOp.endGame] (Main.initialState Main.sampleDom)).catMovement.currentY ≤ 110) ∧
    (-10 ≤ (Main.run (fun _ => 1 / 2) Main.sampleOps (Main.initialState Main.sampleDom)).catMovement.targetX ∧
      (Main.run (fun _ => 1 / 2) Main.sampleOps (Main.initialState Main.sampleDom)).catMovement.targetX ≤ 110 ∧
     -10 ≤ (Main.run (fun _ => 1 / 2) Main.sampleOps (Main.initialState Main.sampleDom)).catMovement.targetY ∧
      (Main.run (fun _ => 1 / 2) Main.sampleOps (Main.initialState Main.sampleDom)).catMovement.targetY ≤ 110 ∧
     -10 ≤ (Main.run (fun _ => 1 / 2) Main.sampleOps (Main.initialState Main.sampleDom)).catMovement.currentX ∧
      (Main.run (fun _ => 1 / 2) Main.sampleOps (Main.initialState Main.sampleDom)).catMovement.currentX ≤ 110 ∧
     -10 ≤ (Main.run (fun _ => 1 / 2) Main.sampleOps (Main.initialState Main.sampleDom)).catMovement.currentY ∧
      (Main.run (fun _ => 1 / 2) Main.sampleOps (Main.initialState Main.sampleDom)).catMovement.currentY ≤ 110) :=
  ⟨fun _ => by norm_num,
   catMovement_within_bounds (fun _ => 1 / 2) (fun _ => by norm_num) Main.sampleDom
     [Main.MoveOp.startGame, Main.MoveOp.updateCatPosition, Main.MoveOp.updateCatPosition,
      Main.MoveOp.endGame] Main.sampleOps⟩

/-- C11 (spawn cone).  With every draw in [0, 1), a call of `spawnCats` appends
its new cats to the live-cat collection, at least one when the scene exists,
and the position `(x, y, z)` of every new cat satisfies `0.5 ≤ y ≤ 1.5`,
`z ≤ 0`, `1 ≤ x * x + z * z ≤ 9`, and its horizontal angle from the forward
axis lies in [-π/2, π/2], being the angle the call drew; the vector is read
over the reals. -/
theorem spawn_cone (rand : Nat → ℚ) (hr : ∀ i, 0 ≤ rand i ∧ rand i < 1)
    (s : WebXRAR.State) :
    ∃ new, (WebXRAR.settle (WebXRAR.spawnCats rand s)).cats = s.cats ++ new ∧
      (s.scene.isSome = true → new ≠ []) ∧
      ∀ c ∈ new,
        1 / 2 ≤ c.position.y ∧ c.position.y ≤ 3 / 2 ∧
        c.position.z ≤ 0 ∧
        1 ≤ c.position.x * c.position.x + c.position.z * c.position.z ∧
        c.position.x * c.position.x + c.position.z * c.position.z ≤ 9 ∧
        -(Real.pi / 2) ≤ c.position.bearing ∧ c.position.bearing ≤ Real.pi / 2 ∧
        c.position.bearing = (c.position.angle : ℝ) * Real.pi := by
  obtain ⟨new, h1, h2, h3⟩ := WebXRAR.spawnCats_cats rand hr s
  refine ⟨new, h1, h2, fun c hc => ?_⟩
  obtain ⟨c1, c2, c3, c4, c5, c6, c7⟩ := WebXRAR.cone_of_inRange c.position (h3 c hc)
  exact ⟨c1, c2, c3, c4, c5, c6, c7, WebXRAR.bearing_of_inRange c.position (h3 c hc)⟩

/-- Witness of `spawn_cone`: the sample instance with its AR session started,
every draw 1/2. -/
theorem spawn_cone_witness :
    (∀ i : Nat, 0 ≤ (fun _ => 1 / 2 : Nat → ℚ) i ∧ (fun _ => 1 / 2 : Nat → ℚ) i < 1) ∧
    (∃ new, (WebXRAR.settle (WebXRAR.spawnCats (fun _ => 1 / 2) WebXRAR.sampleState)).cats
        = WebXRAR.sampleState.cats ++ new ∧
      (WebXRAR.sampleState.scene.isSome = true → new ≠ []) ∧
      ∀ c ∈ new,
        1 / 2 ≤ c.position.y ∧ c.position.y ≤ 3 / 2 ∧
        c.position.z ≤ 0 ∧
        1 ≤ c.position.x * c.position.x + c.position.z * c.position.z ∧
        c.position.x * c.position.x + c.position.z * c.position.z ≤ 9 ∧
        -(Real.pi / 2) ≤ c.position.bearing ∧ c.position.bearing ≤ Real.pi / 2 ∧
        c.position.bearing = (c.position.angle : ℝ) * Real.pi) :=
  ⟨fun _ => by norm_num,
   spawn_cone (fun _ => 1 / 2) (fun _ => by norm_num) WebXRAR.sampleState⟩

/-- C12, the code at the failing input.  On the sample session with every
draw 0, `startHiding` sets the target to the top-edge point (0, -10),
`moveSpeed` to 0.05 and `hideTimer` to 60, as the claim says.  The episode
starts in the first tick; after that tick and after each of the next 58 the
cat is hiding with that target and speed, and the current position is still
(50, 50): the second tick does not add (target - current) * 0.05 to it, which
would give (47.5, 47). -/
theorem hide_episode_stands_still :
    (Main.startHiding (fun _ => 0) Main.sampleSession).catMovement.targetX = 0 ∧
    (Main.startHiding (fun _ => 0) Main.sampleSession).catMovement.targetY = -10 ∧
    (Main.startHiding (fun _ => 0) Main.sampleSession).catMovement.moveSpeed = 5 / 100 ∧
    (Main.startHiding (fun _ => 0) Main.sampleSession).catMovement.hideTimer = 60 ∧
    (∀ k : Nat, k ≤ 58 →
      ((Main.updateCatPosition (fun _ => 0))^[k + 1] Main.sampleSession).catMovement.isHiding = true ∧
      ((Main.updateCatPosition (fun _ => 0))^[k + 1] Main.sampleSession).catMovement.targetX = 0 ∧
      ((Main.updateCatPosition (fun _ => 0))^[k + 1] Main.sampleSession).catMovement.targetY = -10 ∧
      ((Main.updateCatPosition (fun _ => 0))^[k + 1] Main.sampleSession).catMovement.moveSpeed = 5 / 100 ∧
      ((Main.updateCatPosition (fun _ => 0))^[k + 1] Main.sampleSession).catMovement.currentX = 50 ∧
      ((Main.updateCatPosition (fun _ => 0))^[k + 1] Main.sampleSession).catMovement.currentY = 50) ∧
    ((Main.updateCatPosition (fun _ => 0))^[2] Main.sampleSession).catMovement.currentX
      ≠ ((Main.updateCatPosition (fun _ => 0))^[1] Main.sampleSession).catMovement.currentX
        + (((Main.updateCatPosition (fun _ => 0))^[1] Main.sampleSession).catMovement.targetX
          - ((Main.updateCatPosition (fun _ => 0))^[1] Main.sampleSession).catMovement.currentX) * (5 / 100) ∧
    ((Main.updateCatPosition (fun _ => 0))^[2] Main.sampleSession).catMovement.currentY
      ≠ ((Main.updateCatPosition (fun _ => 0))^[1] Main.sampleSession).catMovement.currentY
        + (((Main.updateCatPosition (fun _ => 0))^[1] Main.sampleSession).catMovement.targetY
          - ((Main.updateCatPosition (fun _ => 0))^[1] Main.sampleSession).catMovement.currentY) * (5 / 100) := by
  have hv : Main.Visible Main.sampleSession :=
    ⟨rfl, { hidden := false, left := none, top := none }, rfl, rfl⟩
  have hd : (fun _ => 0 : Nat → ℚ) Main.sampleSession.randCalls < 5 / 100 := by norm_num
  have hx : (Main.updateCatPosition (fun _ => 0) Main.sampleSession).catMovement.targetX = 0 := by
    simp [Main.updateCatPosition, Main.sampleSession, Main.initialState, Main.sampleDom,
      Main.maybeStartHiding, Main.startHiding]
  have hy : (Main.updateCatPosition (fun _ => 0) Main.sampleSession).catMovement.targetY
      = -10 := by
    simp [Main.updateCatPosition, Main.sampleSession, Main.initialState, Main.sampleDom,
      Main.maybeStartHiding, Main.startHiding]
  have hstill := Main.hide_episode_still (fun _ => 0) Main.sampleSession hv rfl hd
  have hrun := Main.hide_cycle_run (fun _ => 0) Main.sampleSession hv rfl hd
  have hcx : Main.sampleSession.catMovement.currentX = 50 := rfl
  have hcy : Main.sampleSession.catMovement.currentY = 50 := rfl
  have hall : ∀ k : Nat, k ≤ 58 →
      ((Main.updateCatPosition (fun _ => 0))^[k + 1] Main.sampleSession).catMovement.isHiding = true ∧
      ((Main.updateCatPosition (fun _ => 0))^[k + 1] Main.sampleSession).catMovement.targetX = 0 ∧
      ((Main.updateCatPosition (fun _ => 0))^[k + 1] Main.sampleSession).catMovement.targetY = -10 ∧
      ((Main.updateCatPosition (fun _ => 0))^[k + 1] Main.sampleSession).catMovement.moveSpeed = 5 / 100 ∧
      ((Main.updateCatPosition (fun _ => 0))^[k + 1] Main.sampleSession).catMovement.currentX = 50 ∧
      ((Main.updateCatPosition (fun _ => 0))^[k + 1] Main.sampleSession).catMovement.currentY = 50 := by
    intro k hk
    obtain ⟨s1, s2, s3, s4, s5⟩ := hstill k hk
    exact ⟨(hrun.1 k hk).1, s3.trans hx, s4.trans hy, s5, s1.trans hcx, s2.trans hcy⟩
  have h1 := hall 0 (by omega)
  have h2 := hall 1 (by omega)
  simp only [Nat.reduceAdd] at h1 h2
  refine ⟨?_, ?_, ?_, ?_, hall, ?_, ?_⟩
  · simp [Main.startHiding, Main.sampleSession, Main.initialState, Main.sampleDom]
  · simp [Main.startHiding, Main.sampleSession, Main.initialState, Main.sampleDom]
  · simp [Main.startHiding, Main.sampleSession, Main.initialState, Main.sampleDom]
  · simp [Main.startHiding, Main.sampleSession, Main.initialState, Main.sampleDom]
  · rw [h2.2.2.2.2.1, h1.2.2.2.2.1, h1.2.1]
    norm_num
  · rw [h2.2.2.2.2.2, h1.2.2.2.2.2, h1.2.2.1]
    norm_num

end ARmock
